import Mathlib

/-! Courier dispatch and delivery lifecycle engine.

A shallow embedding of the delivery assignment / unassignment engine of the
courier service (`internal/service/delivery`, `internal/repository/delivery`,
`internal/service/courier`, `internal/repository/courier`,
`internal/pkg/factory/delivery_deadline`, `pkg/tx`).

Modelling conventions

* `time.Time` is an integer number of nanoseconds (`Time`), `time.Duration`
  likewise (`Duration`); the tables store timestamps unchanged.
* Go `error` values are terms of `Err`; `fmt.Errorf("...: %w", err)` is
  `Err.wrap`, `errors.Is` is `errorsIs`.
* The database is a pair of row lists (`DB`).  Every SQL statement of the
  repositories is a function on `DB`; a statement can also fail with a driver
  error chosen by the environment (`Faults`).
* Everything a call reads from outside (SQL `NOW()`, the readings of
  `time.Now()`, the id handed out by the delivery id sequence, driver
  failures) is collected in `Env`.
* Stateful code is explicit state passing over `World`: the database plus the
  log of collaborator calls issued so far.  A rollback restores the database,
  never the log.
-/

namespace Dispatch

/-! ## Errors -/

/-- The package-level `errors.New` values; each has an identity of its own. -/
inductive Sentinel where
  | ErrMissingRequiredFields
  | ErrInvalidOrderID
  | ErrInvalidCourierID
  | ErrNoAvailableCouriers
  | ErrDeliveryNotFound
  | ErrOrderAlreadyAssigned
  | ErrCourierHasActiveDeliveries
  | CourierErrMissingRequiredFields
  | CourierErrInvalidCourierID
  | ErrInvalidName
  | ErrInvalidStatus
  | ErrInvalidPhone
  | ErrInvalidTransport
  | ErrCourierNotFound
  | ErrConflict
  | PgxErrNoRows
  | ErrStatusMismatch
  | ErrUndefinedStatus
  | ErrOrderNotFound
  | ContextCanceled
  | ContextDeadlineExceeded
  deriving DecidableEq, Repr

/-- The gRPC status codes of `google.golang.org/grpc/codes`. -/
inductive Code where
  | OK
  | Canceled
  | Unknown
  | InvalidArgument
  | DeadlineExceeded
  | NotFound
  | AlreadyExists
  | PermissionDenied
  | ResourceExhausted
  | FailedPrecondition
  | Aborted
  | OutOfRange
  | Unimplemented
  | Internal
  | Unavailable
  | DataLoss
  | Unauthenticated
  deriving DecidableEq, Repr

/-- Go error values: a sentinel, a `*pgconn.PgError` with its SQLSTATE code, any
other leaf error (identified by its message), or `fmt.Errorf(msg + ": %w", inner)`, or
an error made by `status.Error(code, msg)` of gRPC. -/
inductive Err where
  | sentinel (s : Sentinel)
  | pg (code : String)
  | other (msg : String)
  | wrap (msg : String) (inner : Err)
  | grpc (code : Code) (msg : String)
  deriving DecidableEq, Repr

/-- The function `errors.Is`: the target is the error itself or is reached by unwrapping. -/
def errorsIs : Err → Err → Bool
  | .wrap m i, target => decide (Err.wrap m i = target) || errorsIs i target
  | .sentinel s, target => decide (Err.sentinel s = target)
  | .pg c, target => decide (Err.pg c = target)
  | .other m, target => decide (Err.other m = target)
  | .grpc c m, target => decide (Err.grpc c m = target)

def PgErrUniqueViolation : String := "23505"

/-- `repository.IsPgErrorWithCode`: `errors.As` finds the first `*pgconn.PgError` of the
chain, whose code is compared with `code`. -/
def IsPgErrorWithCode : Err → String → Bool
  | .pg c, code => decide (c = code)
  | .wrap _ i, code => IsPgErrorWithCode i code
  | .sentinel _, _ => false
  | .other _, _ => false
  | .grpc _ _, _ => false

def ErrInvalidOrderID : Err := .sentinel .ErrInvalidOrderID
def ErrNoAvailableCouriers : Err := .sentinel .ErrNoAvailableCouriers
def ErrDeliveryNotFound : Err := .sentinel .ErrDeliveryNotFound
def ErrOrderAlreadyAssigned : Err := .sentinel .ErrOrderAlreadyAssigned
def ErrCourierHasActiveDeliveries : Err := .sentinel .ErrCourierHasActiveDeliveries
def ErrCourierNotFound : Err := .sentinel .ErrCourierNotFound
def ErrConflict : Err := .sentinel .ErrConflict
def ErrInvalidName : Err := .sentinel .ErrInvalidName
def ErrInvalidPhone : Err := .sentinel .ErrInvalidPhone
def ErrInvalidStatus : Err := .sentinel .ErrInvalidStatus
def ErrInvalidTransport : Err := .sentinel .ErrInvalidTransport
def CourierErrMissingRequiredFields : Err := .sentinel .CourierErrMissingRequiredFields
def PgxErrNoRows : Err := .sentinel .PgxErrNoRows
def ErrStatusMismatch : Err := .sentinel .ErrStatusMismatch
def ErrUndefinedStatus : Err := .sentinel .ErrUndefinedStatus
def ErrOrderNotFound : Err := .sentinel .ErrOrderNotFound
def ContextCanceled : Err := .sentinel .ContextCanceled
def ContextDeadlineExceeded : Err := .sentinel .ContextDeadlineExceeded

/-! ## Entities -/

abbrev Time := Int
abbrev Duration := Int

/-- The constant `time.Minute`, in nanoseconds. -/
def Minute : Duration := 60 * 1000000000

/-- The zero `time.Time` (January 1, year 1, 00:00 UTC), in nanoseconds from the Unix epoch. -/
def zeroTime : Time := -62135596800 * 1000000000

def OnFoot : String := "on_foot"
def Scooter : String := "scooter"
def Car : String := "car"

def CourierAvailable : String := "available"
def CourierBusy : String := "busy"
def CourierPaused : String := "paused"

/-- A courier: `entities.Courier`, also the row type of table `couriers`
(the converters between the two copy the fields). -/
structure Courier where
  ID : Int
  Name : String
  Phone : String
  Status : String
  TransportType : String
  CreatedAt : Time
  UpdatedAt : Time
  deriving DecidableEq, Repr

/-- The struct `entities.CourierModify`: a nil pointer is `none`. -/
structure CourierModify where
  ID : Option Int
  Name : Option String
  Phone : Option String
  Status : Option String
  TransportType : Option String
  deriving DecidableEq, Repr

/-- A delivery: `entities.Delivery`, also the row type of table `delivery`. -/
structure Delivery where
  ID : Int
  CourierID : Int
  OrderID : String
  CreatedAt : Time
  AssignedAt : Time
  Deadline : Time
  deriving DecidableEq, Repr

/-- The struct `entities.DeliveryModify`: a nil pointer is `none`. -/
structure DeliveryModify where
  ID : Option Int
  CourierID : Option Int
  OrderID : Option String
  CreatedAt : Option Time
  AssignedAt : Option Time
  Deadline : Option Time
  deriving DecidableEq, Repr

structure DeliveryAssignment where
  CourierID : Int
  OrderID : String
  AssignedAt : Time
  Deadline : Time
  TransportType : String
  deriving DecidableEq, Repr

structure DeliveryUnassignment where
  CourierID : Int
  OrderID : String
  Status : String
  deriving DecidableEq, Repr

/-- The Go zero value `entities.DeliveryAssignment{}`. -/
def DeliveryAssignment.zero : DeliveryAssignment :=
  { CourierID := 0, OrderID := "", AssignedAt := zeroTime, Deadline := zeroTime, TransportType := "" }

/-- The Go zero value `entities.DeliveryUnassignment{}`. -/
def DeliveryUnassignment.zero : DeliveryUnassignment :=
  { CourierID := 0, OrderID := "", Status := "" }

/-! ## Deadline factory -/

/-- The method `DeliveryTimeFactory.CalculateDeadline`: a `switch` on the transport type. -/
def CalculateDeadline (transportType : String) (baseTime : Time) : Time :=
  if transportType = OnFoot then baseTime + Minute * 15
  else if transportType = Scooter then baseTime + Minute * 10
  else if transportType = Car then baseTime + Minute * 5
  else baseTime + Minute * 15

/-! ## Validators -/

/-- The function `unicode.IsSpace` of the Go standard library: the Latin-1 spaces
`\t \n \v \f \r`, space, U+0085, U+00A0, and the characters of category Z. -/
def unicodeIsSpace (c : Char) : Bool :=
  let n := c.toNat
  (9 ≤ n && n ≤ 13) || n = 32 || n = 133 || n = 160 || n = 5760 ||
  (8192 ≤ n && n ≤ 8202) || n = 8232 || n = 8233 || n = 8239 || n = 8287 || n = 12288

/-- The function `strings.TrimSpace` on the characters of a string: leading and trailing
white space removed. -/
def trimSpaceChars (cs : List Char) : List Char :=
  ((cs.dropWhile unicodeIsSpace).reverse.dropWhile unicodeIsSpace).reverse

def stringsTrimSpace (s : String) : String := String.mk (trimSpaceChars s.data)

/-- The validator `isValidOrderID` of the delivery service. -/
def isValidOrderID (orderID : String) : Bool :=
  stringsTrimSpace orderID != ""

/-- The validator `isValidName` of the courier service. -/
def isValidName (name : String) : Bool :=
  stringsTrimSpace name != ""

/-- The validator `isValidPhone` of the courier service: after trimming, a `+` followed by
decimal digits only. -/
def isValidPhone (phone : String) : Bool :=
  match trimSpaceChars phone.data with
  | [] => false
  | c :: rest => if c = Char.ofNat 43 then rest.all (fun ch => !(ch.toNat < 48 || ch.toNat > 57)) else false

def isValidStatus (status : String) : Bool :=
  if status = "available" ∨ status = "busy" ∨ status = "paused" then true else false

def isValidTransport (status : String) : Bool :=
  if status = "on_foot" ∨ status = "scooter" ∨ status = "car" then true else false

/-! ## Database, environment, call log -/

structure DB where
  couriers : List Courier
  delivery : List Delivery
  deriving DecidableEq, Repr

/-- Driver failures of the statements of one call: `none` means the statement executes. -/
structure Faults where
  beginTx : Option Err
  commitTx : Option Err
  selectCourier : Option Err
  insertDelivery : Option Err
  updateCourier : Option Err
  deleteDelivery : Option Err
  selectOwner : Option Err
  selectCourierID : Option Err
  updateExpired : Option Err

def Faults.none : Faults :=
  { beginTx := Option.none, commitTx := Option.none, selectCourier := Option.none,
    insertDelivery := Option.none, updateCourier := Option.none, deleteDelivery := Option.none,
    selectOwner := Option.none, selectCourierID := Option.none, updateExpired := Option.none }

/-- What one call of the engine reads from outside: SQL `NOW()` of its transaction, the
successive readings of `time.Now().UTC()` (numbered from 0 in call order), the id the
delivery id sequence hands out, and the driver failures. -/
structure Env where
  sqlNow : Time
  clock : Nat → Time
  deliveryID : Int
  faults : Faults

/-- Calls on the collaborators of the delivery service (transaction manager, delivery
repository, courier service). -/
inductive Call where
  | TxDo
  | GetCourierForAssignment
  | Create (m : DeliveryModify)
  | Delete (orderID : String)
  | GetCourierIDAndDeliveryCountByOrderIDForAssing (orderID : String)
  | GetCourierIDByOrderID (orderID : String)
  | UpdateCourier (m : CourierModify)
  | UpdateCouriersAvailableWhereDeadlineExpired
  deriving DecidableEq, Repr

structure World where
  db : DB
  log : List Call
  deriving DecidableEq, Repr

def World.record (w : World) (c : Call) : World :=
  { db := w.db, log := w.log ++ [c] }

/-- The call `QueryRow(...).Scan(...)`: a driver failure, else the first row of the result,
else `pgx.ErrNoRows`. -/
def scanRow {α : Type} (fault : Option Err) (rows : List α) : Except Err α :=
  match fault with
  | some e => .error e
  | none =>
    match rows with
    | [] => .error PgxErrNoRows
    | r :: _ => .ok r

/-! ## Delivery repository (`internal/repository/delivery`) -/

/-- The rows `couriers c LEFT JOIN delivery d ON d.courier_id = c.id` contributes for one
courier `c`: its deliveries, or a single all-NULL delivery when it has none. -/
def leftJoinDelivery (c : Courier) (ds : List Delivery) : List (Option Delivery) :=
  match ds.filter (fun d => decide (d.CourierID = c.ID)) with
  | [] => [none]
  | m => m.map some

/-- The aggregate `COUNT(d.id) FILTER (WHERE d.deadline >= NOW())` over the joined rows of
one group: NULL rows are not counted. -/
def countActive (now : Time) (rows : List (Option Delivery)) : Nat :=
  rows.countP (fun r =>
    match r with
    | some d => decide (now ≤ d.Deadline)
    | none => false)

/-- The ordering `ORDER BY COUNT(...) ASC, c.id ASC` on (count, courier) pairs. -/
def assignmentOrder (a b : Nat × Courier) : Prop :=
  a.1 < b.1 ∨ (a.1 = b.1 ∧ a.2.ID ≤ b.2.ID)

instance : DecidableRel assignmentOrder :=
  fun a b => inferInstanceAs (Decidable (a.1 < b.1 ∨ (a.1 = b.1 ∧ a.2.ID ≤ b.2.ID)))

instance : IsTotal (Nat × Courier) assignmentOrder where
  total := by
    intro a b
    unfold assignmentOrder
    omega

instance : IsTrans (Nat × Courier) assignmentOrder where
  trans := by
    intro a b c
    unfold assignmentOrder
    omega

/-- The query of `GetCourierForAssignment`: the available couriers, one group per courier
(`GROUP BY c.id`, the id being the key of the table), ordered by the number of active
deliveries and then by id, `LIMIT 1`. -/
def sqlSelectCourierForAssignment (now : Time) (db : DB) : List Courier :=
  let groups := (db.couriers.filter (fun c => decide (c.Status = "available"))).map
    (fun c => (countActive now (leftJoinDelivery c db.delivery), c))
  ((groups.insertionSort assignmentOrder).map Prod.snd).take 1

/-- The method `Repository.GetCourierForAssignment`. -/
def DeliveryRepository.GetCourierForAssignment (env : Env) (w : World) :
    Except Err Courier × World :=
  let w1 := w.record Call.GetCourierForAssignment
  match scanRow env.faults.selectCourier (sqlSelectCourierForAssignment env.sqlNow w.db) with
  | .error err =>
    if errorsIs err PgxErrNoRows then (.error ErrNoAvailableCouriers, w1)
    else (.error (.wrap "unexpected delivery repository find courier error" err), w1)
  | .ok courierDB => (.ok courierDB, w1)

/-- A Go `time.Time` as the database keeps it: PostgreSQL timestamps have a resolution of one
microsecond and the pgx driver sends a time truncated to the microsecond, so the nanoseconds
below it are dropped (times are nanoseconds, the remainder is never negative). -/
def pgTimestamp (t : Time) : Time :=
  t - t % 1000

/-- Modelled from the spec: the schema of table `delivery` is not part of the sources; the
spec gives `order_id` as unique ("at most one delivery row may exist per order at any
time"), which is the conflict `Create` translates.  The statement
`INSERT INTO delivery (...) VALUES (...) RETURNING ...`: a row whose `order_id` is already
present raises SQLSTATE 23505, a NULL among the inserted values cannot be stored and read
back (SQLSTATE 23502), otherwise the row is appended with the id of the sequence, its three
timestamps as the database keeps them, and returned as stored. -/
def sqlInsertDelivery (id : Int) (m : DeliveryModify) (db : DB) : Except Err (Delivery × DB) :=
  match m.CourierID, m.OrderID, m.CreatedAt, m.AssignedAt, m.Deadline with
  | some courierID, some orderID, some createdAt, some assignedAt, some deadline =>
    if db.delivery.any (fun d => decide (d.OrderID = orderID)) then
      .error (.pg PgErrUniqueViolation)
    else
      let row : Delivery :=
        { ID := id, CourierID := courierID, OrderID := orderID,
          CreatedAt := pgTimestamp createdAt, AssignedAt := pgTimestamp assignedAt,
          Deadline := pgTimestamp deadline }
      .ok (row, { couriers := db.couriers, delivery := db.delivery ++ [row] })
  | _, _, _, _, _ => .error (.pg "23502")

/-- The method `Repository.Create` of the delivery repository. -/
def DeliveryRepository.Create (env : Env) (deliveryModify : DeliveryModify) (w : World) :
    Except Err Delivery × World :=
  let w1 := w.record (Call.Create deliveryModify)
  let res : Except Err (Delivery × DB) :=
    match env.faults.insertDelivery with
    | some e => .error e
    | none => sqlInsertDelivery env.deliveryID deliveryModify w.db
  match res with
  | .error err =>
    if IsPgErrorWithCode err PgErrUniqueViolation then (.error ErrOrderAlreadyAssigned, w1)
    else (.error (.wrap "unexpected delivery repository create error" err), w1)
  | .ok (deliveryDB, db1) => (.ok deliveryDB, { db := db1, log := w1.log })

/-- The statement `DELETE FROM delivery WHERE order_id = $1`: the number of rows deleted and
the table without them. -/
def sqlDeleteDelivery (orderID : String) (db : DB) : Nat × DB :=
  ((db.delivery.filter (fun d => decide (d.OrderID = orderID))).length,
   { couriers := db.couriers,
     delivery := db.delivery.filter (fun d => !decide (d.OrderID = orderID)) })

/-- The method `Repository.Delete` of the delivery repository. -/
def DeliveryRepository.Delete (env : Env) (orderID : String) (w : World) :
    Option Err × World :=
  let w1 := w.record (Call.Delete orderID)
  match env.faults.deleteDelivery with
  | some err => (some (.wrap "unexpected delivery repository delete error" err), w1)
  | none =>
    let (rowsAffected, db1) := sqlDeleteDelivery orderID w.db
    if rowsAffected = 0 then (some ErrDeliveryNotFound, w1)
    else (none, { db := db1, log := w1.log })

/-- The query of `GetCourierIDAndDeliveryCountByOrderIDForAssing`: the delivery rows `d1` of
the order, each left-joined with the rows `d2` of the same courier for another order, one
group per `d1.courier_id`, with the count of the joined rows whose deadline is not before
`NOW()`. -/
def sqlSelectOwnerAndOtherActive (now : Time) (orderID : String) (db : DB) :
    List (Int × Int) :=
  let d1s := db.delivery.filter (fun d1 => decide (d1.OrderID = orderID))
  let joined : List (Int × Option Delivery) := d1s.flatMap (fun d1 =>
    match db.delivery.filter
        (fun d2 => decide (d2.CourierID = d1.CourierID) && !decide (d2.OrderID = orderID)) with
    | [] => [(d1.CourierID, none)]
    | m => m.map (fun d2 => (d1.CourierID, some d2)))
  ((d1s.map (fun d1 => d1.CourierID)).dedup).map (fun courierID =>
    (courierID,
     (countActive now ((joined.filter (fun r => decide (r.1 = courierID))).map Prod.snd) : Int)))

/-- The method `Repository.GetCourierIDAndDeliveryCountByOrderIDForAssing`. -/
def DeliveryRepository.GetCourierIDAndDeliveryCountByOrderIDForAssing (env : Env)
    (orderID : String) (w : World) : Except Err (Int × Int) × World :=
  let w1 := w.record (Call.GetCourierIDAndDeliveryCountByOrderIDForAssing orderID)
  match scanRow env.faults.selectOwner (sqlSelectOwnerAndOtherActive env.sqlNow orderID w.db) with
  | .error err =>
    if errorsIs err PgxErrNoRows then (.error ErrDeliveryNotFound, w1)
    else (.error (.wrap "unexpected delivery repository get courier id error" err), w1)
  | .ok (courierID, activeDeliveriesCount) => (.ok (courierID, activeDeliveriesCount), w1)

/-- The query `SELECT courier_id FROM delivery WHERE order_id = $1`. -/
def sqlSelectCourierIDByOrderID (orderID : String) (db : DB) : List Int :=
  (db.delivery.filter (fun d => decide (d.OrderID = orderID))).map (fun d => d.CourierID)

/-- The method `Repository.GetCourierIDByOrderID`. -/
def DeliveryRepository.GetCourierIDByOrderID (env : Env) (orderID : String) (w : World) :
    Except Err Int × World :=
  let w1 := w.record (Call.GetCourierIDByOrderID orderID)
  match scanRow env.faults.selectCourierID (sqlSelectCourierIDByOrderID orderID w.db) with
  | .error err =>
    if errorsIs err PgxErrNoRows then (.error ErrDeliveryNotFound, w1)
    else (.error (.wrap "unexpected delivery repository get courier id error" err), w1)
  | .ok courierID => (.ok courierID, w1)

/-- The `WHERE` clause of the bulk update: the courier is busy and some delivery it owns has a
deadline strictly before `NOW()`. -/
def expiredBusy (now : Time) (ds : List Delivery) (c : Courier) : Bool :=
  decide (c.Status = "busy") &&
    ds.any (fun d => decide (d.CourierID = c.ID) && decide (d.Deadline < now))

/-- The statement `UPDATE couriers SET status = 'available', updated_at = NOW() WHERE
status = 'busy' AND EXISTS (SELECT 1 FROM delivery WHERE delivery.courier_id = couriers.id
AND delivery.deadline < NOW())`: the number of rows updated and the new database. -/
def sqlUpdateCouriersExpired (now : Time) (db : DB) : Nat × DB :=
  ((db.couriers.filter (expiredBusy now db.delivery)).length,
   { couriers := db.couriers.map (fun c =>
       if expiredBusy now db.delivery c then
         { ID := c.ID, Name := c.Name, Phone := c.Phone, Status := "available",
           TransportType := c.TransportType, CreatedAt := c.CreatedAt, UpdatedAt := now }
       else c),
     delivery := db.delivery })

/-- The method `Repository.UpdateCouriersAvailableWhereDeadlineExpired`. -/
def DeliveryRepository.UpdateCouriersAvailableWhereDeadlineExpired (env : Env) (w : World) :
    Except Err Int × World :=
  let w1 := w.record Call.UpdateCouriersAvailableWhereDeadlineExpired
  match env.faults.updateExpired with
  | some err =>
    (.error (.wrap "unexpected delivery repository release expired couriers error" err), w1)
  | none =>
    let (rowsAffected, db1) := sqlUpdateCouriersExpired env.sqlNow w.db
    (.ok (rowsAffected : Int), { db := db1, log := w1.log })

/-! ## Courier repository and service (`internal/repository/courier`, `internal/service/courier`) -/

/-- The `SET` clauses the update builder collects: the fields present in the modification,
and always `updated_at = NOW()`. -/
def applyCourierModify (now : Time) (m : CourierModify) (c : Courier) : Courier :=
  { ID := c.ID,
    Name := m.Name.getD c.Name,
    Phone := m.Phone.getD c.Phone,
    Status := m.Status.getD c.Status,
    TransportType := m.TransportType.getD c.TransportType,
    CreatedAt := c.CreatedAt,
    UpdatedAt := now }

/-- Modelled from the spec: the schema of table `couriers` is not part of the sources; the
spec gives `phone` as unique.  The statement `UPDATE couriers SET ... WHERE ID = $n
RETURNING ...`: the rows with the given id are rewritten (none when the id is NULL); setting
a phone another courier already has raises SQLSTATE 23505.  The result is the returned rows
and the new table. -/
def sqlUpdateCourier (now : Time) (m : CourierModify) (db : DB) :
    Except Err (List Courier × DB) :=
  let hit : Courier → Bool := fun c => decide (some c.ID = m.ID)
  let clash : Bool :=
    match m.Phone with
    | some p => db.couriers.any hit && db.couriers.any (fun c => !hit c && decide (c.Phone = p))
    | none => false
  if clash then .error (.pg PgErrUniqueViolation)
  else
    let cs := db.couriers.map (fun c => if hit c then applyCourierModify now m c else c)
    .ok (cs.filter hit, { couriers := cs, delivery := db.delivery })

/-- The method `Repository.Update` of the courier repository.  The builder always has the
`updated_at` clause, so `ToSql` does not fail; the scan yields the first returned row. -/
def CourierRepository.Update (env : Env) (courierModify : CourierModify) (db : DB) :
    Except Err (Courier × DB) :=
  let res : Except Err (Courier × DB) :=
    match env.faults.updateCourier with
    | some e => .error e
    | none =>
      match sqlUpdateCourier env.sqlNow courierModify db with
      | .error e => .error e
      | .ok (rows, db1) =>
        match rows with
        | [] => .error PgxErrNoRows
        | r :: _ => .ok (r, db1)
  match res with
  | .error err =>
    if errorsIs err PgxErrNoRows then .error ErrCourierNotFound
    else if IsPgErrorWithCode err PgErrUniqueViolation then .error ErrConflict
    else .error (.wrap "unexpected courier repository update error" err)
  | .ok r => .ok r

/-- The method `Courier.UpdateCourier` of the courier service. -/
def CourierService.UpdateCourier (env : Env) (courierModify : CourierModify) (w : World) :
    Except Err Courier × World :=
  let w1 := w.record (Call.UpdateCourier courierModify)
  if courierModify.Name.isNone && courierModify.Phone.isNone &&
      courierModify.Status.isNone && courierModify.TransportType.isNone then
    (.error (.wrap "no fields to update" CourierErrMissingRequiredFields), w1)
  else if (courierModify.Name.map (fun n => !isValidName n)).getD false then
    (.error ErrInvalidName, w1)
  else if (courierModify.Phone.map (fun p => !isValidPhone p)).getD false then
    (.error ErrInvalidPhone, w1)
  else if (courierModify.Status.map (fun s => !isValidStatus s)).getD false then
    (.error ErrInvalidStatus, w1)
  else if (courierModify.TransportType.map (fun t => !isValidTransport t)).getD false then
    (.error ErrInvalidTransport, w1)
  else
    match CourierRepository.Update env courierModify w1.db with
    | .error err => (.error (.wrap "failed to update courier" err), w1)
    | .ok (courier, db1) => (.ok courier, { db := db1, log := w1.log })

/-! ## Transaction manager (`pkg/tx`) -/

/-- The method `Manager.Do`: the function runs inside a serializable transaction, which is
committed only when the function returns nil and rolled back otherwise.  `κ` is the type of
the variables the closure captures: what the closure wrote to them survives a rollback, the
database changes do not.  A failure to begin the transaction returns without calling the
function; a failed commit leaves the database as it was. -/
def Manager.Do {κ : Type} (env : Env) (fn : κ → World → Option Err × κ × World)
    (captured : κ) (w : World) : Option Err × κ × World :=
  let w0 := w.record Call.TxDo
  match env.faults.beginTx with
  | some e => (some e, captured, w0)
  | none =>
    match fn captured w0 with
    | (some e, k1, w1) => (some e, k1, { db := w.db, log := w1.log })
    | (none, k1, w1) =>
      match env.faults.commitTx with
      | some e => (some e, k1, { db := w.db, log := w1.log })
      | none => (none, k1, w1)

/-! ## Delivery service (`internal/service/delivery`) -/

/-- The closure `internalDeliveryAssign` hands to the transaction manager; the captured
variable is `deliveryAssignment`. -/
def assignTx (env : Env) (orderID : String) (deliveryCreatedAt : Time)
    (deliveryAssignment : DeliveryAssignment) (w : World) :
    Option Err × DeliveryAssignment × World :=
  match DeliveryRepository.GetCourierForAssignment env w with
  | (.error err, w1) => (some (.wrap "find courier for assignment" err), deliveryAssignment, w1)
  | (.ok courier, w1) =>
    let deadline := CalculateDeadline courier.TransportType (env.clock 1)
    let assignTime := env.clock 2
    let deliveryModify : DeliveryModify :=
      { ID := none, CourierID := some courier.ID, OrderID := some orderID,
        CreatedAt := some deliveryCreatedAt, AssignedAt := some assignTime,
        Deadline := some deadline }
    match DeliveryRepository.Create env deliveryModify w1 with
    | (.error err, w2) => (some (.wrap "create delivery" err), deliveryAssignment, w2)
    | (.ok delivery, w2) =>
      let busyStatus := CourierBusy
      let courierModify : CourierModify :=
        { ID := some courier.ID, Name := none, Phone := none, Status := some busyStatus,
          TransportType := none }
      match CourierService.UpdateCourier env courierModify w2 with
      | (.error err, w3) => (some (.wrap "update courier status" err), deliveryAssignment, w3)
      | (.ok updatedCourier, w3) =>
        (none,
         { CourierID := updatedCourier.ID, OrderID := delivery.OrderID,
           AssignedAt := delivery.AssignedAt, Deadline := delivery.Deadline,
           TransportType := updatedCourier.TransportType },
         w3)

/-- The method `Delivery.internalDeliveryAssign`. -/
def internalDeliveryAssign (env : Env) (orderID : String) (deliveryCreatedAt : Time)
    (w : World) : Except Err DeliveryAssignment × World :=
  if !isValidOrderID orderID then (.error ErrInvalidOrderID, w)
  else
    match Manager.Do env (assignTx env orderID deliveryCreatedAt) DeliveryAssignment.zero w with
    | (some err, _, w1) => (.error err, w1)
    | (none, deliveryAssignment, w1) => (.ok deliveryAssignment, w1)

/-- The method `Delivery.DeliveryAssign`. -/
def DeliveryAssign (env : Env) (orderID : String) (w : World) :
    Except Err DeliveryAssignment × World :=
  if !isValidOrderID orderID then (.error ErrInvalidOrderID, w)
  else
    let deliveryCreatedAt := env.clock 0
    internalDeliveryAssign env orderID deliveryCreatedAt w

/-- The closure `DeliveryUnassign` hands to the transaction manager; the captured variable
is `deliveryUnassignment`. -/
def unassignTx (env : Env) (orderID : String) (deliveryUnassignment : DeliveryUnassignment)
    (w : World) : Option Err × DeliveryUnassignment × World :=
  match DeliveryRepository.GetCourierIDAndDeliveryCountByOrderIDForAssing env orderID w with
  | (.error err, w1) => (some (.wrap "get courier by order id" err), deliveryUnassignment, w1)
  | (.ok (courierID, activeDeliveriesCount), w1) =>
    if activeDeliveriesCount > 0 then (some ErrCourierHasActiveDeliveries, deliveryUnassignment, w1)
    else
      match DeliveryRepository.Delete env orderID w1 with
      | (some err, w2) => (some (.wrap "delete delivery" err), deliveryUnassignment, w2)
      | (none, w2) =>
        let newStatus := CourierAvailable
        let courierModify : CourierModify :=
          { ID := some courierID, Name := none, Phone := none, Status := some newStatus,
            TransportType := none }
        match CourierService.UpdateCourier env courierModify w2 with
        | (.error err, w3) => (some (.wrap "update courier status" err), deliveryUnassignment, w3)
        | (.ok courier, w3) =>
          (none, { CourierID := courier.ID, OrderID := orderID, Status := courier.Status }, w3)

/-- The method `Delivery.DeliveryUnassign`. -/
def DeliveryUnassign (env : Env) (orderID : String) (w : World) :
    Except Err DeliveryUnassignment × World :=
  if !isValidOrderID orderID then (.error ErrInvalidOrderID, w)
  else
    match Manager.Do env (unassignTx env orderID) DeliveryUnassignment.zero w with
    | (some err, _, w1) => (.error err, w1)
    | (none, deliveryUnassignment, w1) => (.ok deliveryUnassignment, w1)

/-- The closure `FreeCourierByOrderID` hands to the transaction manager (it captures no
variable it writes).  `fmt.Errorf("...: %w", nil)` on a status mismatch is a leaf error. -/
def freeCourierTx (env : Env) (orderID : String) (u : Unit) (w : World) :
    Option Err × Unit × World :=
  match DeliveryRepository.GetCourierIDByOrderID env orderID w with
  | (.error err, w1) => (some (.wrap "get courier by order id" err), u, w1)
  | (.ok courierID, w1) =>
    let newStatus := CourierAvailable
    let courierModify : CourierModify :=
      { ID := some courierID, Name := none, Phone := none, Status := some newStatus,
        TransportType := none }
    match CourierService.UpdateCourier env courierModify w1 with
    | (.error err, w2) => (some (.wrap "update courier status" err), u, w2)
    | (.ok updatedCourier, w2) =>
      if updatedCourier.Status ≠ newStatus then
        (some (.other "update courier status: %!w(<nil>)"), u, w2)
      else (none, u, w2)

/-- The method `Delivery.FreeCourierByOrderID`. -/
def FreeCourierByOrderID (env : Env) (orderID : String) (w : World) : Option Err × World :=
  if !isValidOrderID orderID then (some ErrInvalidOrderID, w)
  else
    match Manager.Do env (freeCourierTx env orderID) () w with
    | (err, _, w1) => (err, w1)

/-- The method `Delivery.CleanupExpiredDeliveries`. -/
def CleanupExpiredDeliveries (env : Env) (w : World) : Except Err Int × World :=
  match DeliveryRepository.UpdateCouriersAvailableWhereDeadlineExpired env w with
  | (.error err, w1) =>
    if errorsIs err ContextDeadlineExceeded then (.error (.wrap "cleanup timed out" err), w1)
    else (.error (.wrap "cleanup" err), w1)
  | (.ok rowsAffected, w1) => (.ok rowsAffected, w1)

/-! ## Order service and status handlers (`internal/service/order`, `internal/pkg/factory/order_handle`) -/

def OrderCreated : String := "created"
def OrderCancelled : String := "cancelled"
def OrderCompleted : String := "completed"

structure Order where
  ID : String
  Status : String
  CreatedAt : Time
  deriving DecidableEq, Repr

/-- The struct `entities.OrderModify`: a nil pointer is `none`. -/
structure OrderModify where
  ID : Option String
  Status : Option String
  CreatedAt : Option Time
  deriving DecidableEq, Repr

/-- The interface `order.DeliveryService`, as state passing over any state `σ`. -/
structure DeliveryService (σ : Type) where
  DeliveryAssign : String → σ → Except Err DeliveryAssignment × σ
  DeliveryUnassign : String → σ → Except Err DeliveryUnassignment × σ
  FreeCourierByOrderID : String → σ → Option Err × σ

/-- The type `order.ExecuteFn`. -/
abbrev ExecuteFn (σ : Type) := String → σ → Option Err × σ

/-- The method `StatusHandlerFactory.createdHandler`. -/
def StatusHandlerFactory.createdHandler {σ : Type} (deliveryService : DeliveryService σ) :
    ExecuteFn σ :=
  fun orderID s =>
    match deliveryService.DeliveryAssign orderID s with
    | (.error err, s1) => (some (.wrap ("assign courier for created order " ++ orderID) err), s1)
    | (.ok _, s1) => (none, s1)

/-- The method `StatusHandlerFactory.cancelledHandler`. -/
def StatusHandlerFactory.cancelledHandler {σ : Type} (deliveryService : DeliveryService σ) :
    ExecuteFn σ :=
  fun orderID s =>
    match deliveryService.DeliveryUnassign orderID s with
    | (.error err, s1) =>
      (some (.wrap ("unassign courier for cancelled order " ++ orderID) err), s1)
    | (.ok _, s1) => (none, s1)

/-- The method `StatusHandlerFactory.completedHandler`. -/
def StatusHandlerFactory.completedHandler {σ : Type} (deliveryService : DeliveryService σ) :
    ExecuteFn σ :=
  fun orderID s =>
    match deliveryService.FreeCourierByOrderID orderID s with
    | (some err, s1) => (some (.wrap ("free courier for completed order " ++ orderID) err), s1)
    | (none, s1) => (none, s1)

/-- The method `StatusHandlerFactory.GetHandler`: a `switch` on the status.  The default
case is `fmt.Errorf("%w: %s", ErrUndefinedStatus, status)`: the sentinel wrapped, the status
being the rest of the message. -/
def StatusHandlerFactory.GetHandler {σ : Type} (deliveryService : DeliveryService σ)
    (status : String) : Except Err (ExecuteFn σ) :=
  if status = OrderCreated then .ok (StatusHandlerFactory.createdHandler deliveryService)
  else if status = OrderCancelled then .ok (StatusHandlerFactory.cancelledHandler deliveryService)
  else if status = OrderCompleted then .ok (StatusHandlerFactory.completedHandler deliveryService)
  else .error (.wrap status ErrUndefinedStatus)

/-- The method `Service.ProcessOrderStatusChange`.  The order gateway is given by its answer
`GetOrderByID` to each order id, the handler factory by `GetHandler`; the result is the pair
(order, error) Go returns, a nil being `none`. -/
def ProcessOrderStatusChange {σ : Type} (GetOrderByID : String → Except Err Order)
    (GetHandler : String → Except Err (ExecuteFn σ)) (orderModify : OrderModify) (s : σ) :
    (Option Order × Option Err) × σ :=
  match orderModify.ID, orderModify.Status with
  | some id, some _ =>
    match GetOrderByID id with
    | .error err => ((none, some (.wrap "get order from order-service" err)), s)
    | .ok order =>
      match GetHandler order.Status with
      | .error err =>
        if errorsIs err ErrUndefinedStatus then ((some order, none), s)
        else ((some order, some err), s)
      | .ok executeFn =>
        match executeFn order.ID s with
        | (some err, s1) => ((none, some err), s1)
        | (none, s1) => ((some order, none), s1)
  | _, _ => ((none, some (.other "order id and status are required")), s)

/-- The delivery engine of this file as a `DeliveryService` on `World`, each operation
reading the environment `env`. -/
def engine (env : Env) : DeliveryService World :=
  { DeliveryAssign := DeliveryAssign env,
    DeliveryUnassign := DeliveryUnassign env,
    FreeCourierByOrderID := FreeCourierByOrderID env }

/-! ## Retrier (`pkg/retrier/backoff_adapter`) and order gateway classification -/

/-- What the closure `operation` of `ExecuteWithContext` returns to the back-off loop: nil,
the error of `fn` as it is, or that error marked `backoff.Permanent`. -/
inductive Attempt where
  | success
  | failed (err : Err)
  | permanent (err : Err)
  deriving DecidableEq, Repr

/-- The closure `operation` of `ExecuteWithContext`, applied to the result of `fn(ctx)`;
`shouldRetry` is `config.ShouldRetry`, `none` when the field is nil. -/
def operation (shouldRetry : Option (Err → Bool)) (fnResult : Option Err) : Attempt :=
  match fnResult with
  | none => .success
  | some err =>
    match shouldRetry with
    | some f => if !f err then .permanent err else .failed err
    | none => .failed err

/-- What the loop of `backoff.Retry` observes from outside during one call: the answer of
the exponential policy after the `i`-th failed attempt (`none` is `backoff.Stop`, the elapsed
time budget being used up) and the value of `ctx.Err()` at the successive observation points
(point `2 * i` after the `i`-th failed attempt, point `2 * i + 1` while waiting for the next
one).  The intervals, multiplier and randomization of the configuration only shape the
answers of the policy. -/
structure BackoffEnv where
  nextBackOff : Nat → Option Duration
  ctxErr : Nat → Option Err

/-- Modelled from the spec: the loop of `backoff.Retry` is library code that is not part of
the sources; the spec gives its behaviour (a permanent error stops retrying at once, a
cancelled context stops retrying and is surfaced as the final error, otherwise attempts go
on until success or until the elapsed-time budget is used up).  The loop of
`backoff.Retry(operation, backoff.WithContext(b, ctx))` from attempt `i` on:
a success returns nil, a permanent error is returned unwrapped, otherwise the context is
looked at (`backOffContext.NextBackOff`), then the policy, then the loop waits for the timer
or the cancellation.  `fn i` is the result of the `i`-th invocation of `fn`.  The result is
the returned error and the number of invocations of `fn`; `none` is an exhausted fuel. -/
def retryLoop (shouldRetry : Option (Err → Bool)) (benv : BackoffEnv) (fn : Nat → Option Err) :
    Nat → Nat → Option (Option Err × Nat)
  | 0, _ => none
  | fuel + 1, i =>
    match operation shouldRetry (fn i) with
    | .success => some (none, i + 1)
    | .permanent err => some (some err, i + 1)
    | .failed err =>
      match benv.ctxErr (2 * i) with
      | some cerr => some (some cerr, i + 1)
      | none =>
        match benv.nextBackOff i with
        | none => some (some err, i + 1)
        | some _ =>
          match benv.ctxErr (2 * i + 1) with
          | some cerr => some (some cerr, i + 1)
          | none => retryLoop shouldRetry benv fn fuel (i + 1)

/-- The method `Retrier.ExecuteWithContext`. -/
def ExecuteWithContext (shouldRetry : Option (Err → Bool)) (benv : BackoffEnv)
    (fn : Nat → Option Err) (fuel : Nat) : Option (Option Err × Nat) :=
  retryLoop shouldRetry benv fn fuel 0

/-- The function `status.FromError` on a non-nil error: the code of the gRPC status the
error, or an error it wraps, carries; `none` when there is none (the `ok` result false). -/
def statusFromError : Err → Option Code
  | .grpc c _ => some c
  | .wrap _ i => statusFromError i
  | .sentinel _ => none
  | .pg _ => none
  | .other _ => none

/-- The function `isRetryableCode` of the order gateway; a nil error is `none`. -/
def isRetryableCode (err : Option Err) : Bool :=
  match err with
  | none => false
  | some e =>
    match statusFromError e with
    | none => false
    | some code =>
      match code with
      | .ResourceExhausted => true
      | .Unavailable => true
      | .DeadlineExceeded => true
      | _ => false

/-- The field `ShouldRetry` the order gateway configures its retrier with. -/
def gatewayShouldRetry : Option (Err → Bool) :=
  some (fun e => isRetryableCode (some e))

/-! ## Token bucket (`pkg/token_bucket`) -/

/-! ### The Go types `float64` and `int` -/

/-- A finite value of the Go type `float64` (IEEE 754 binary64): the number
`mant * 2 ^ exp`. -/
structure Float64 where
  mant : Int
  exp : Int
  deriving DecidableEq, Repr

/-- The number of binary digits of `n`, computed with `fuel` halvings at most. -/
def bitLength : Nat → Nat → Nat
  | 0, _ => 0
  | fuel + 1, n => if n = 0 then 0 else bitLength fuel (n / 2) + 1

/-- The integer nearest to `n / d`, a tie going to the even one. -/
def roundHalfEven (n d : Nat) : Nat :=
  let q := n / d
  let r := n % d
  if 2 * r < d then q else if d < 2 * r then q + 1 else if q % 2 = 0 then q else q + 1

/-- The binary exponent of `n / d` for positive `n` and `d`: the largest `k` with
`2 ^ k <= n / d`. -/
def floorLog2 (n d : Nat) : Int :=
  let bn := bitLength n n
  let bd := bitLength d d
  if d * 2 ^ bn ≤ n * 2 ^ bd then (bn : Int) - (bd : Int) else (bn : Int) - (bd : Int) - 1

/-- The float64 nearest to `n / d * 2 ^ s`, ties to even (the rounding every float64
operation applies to its exact result): 53 binary digits are kept, fewer below the exponent
`-1074` of the subnormal numbers.  A result beyond the largest float64 is kept as it is
instead of becoming `+Inf`; of the operations used below only the product of `tokensToAdd`
can get there, and its conversion to `int` is out of range either way. -/
def roundRatio (n d : Nat) (s : Int) : Float64 :=
  if n = 0 then { mant := 0, exp := 0 }
  else
    let e := max (floorLog2 n d + s - 52) (-1074)
    let m := roundHalfEven (n * 2 ^ (s - e).toNat) (d * 2 ^ (e - s).toNat)
    { mant := (m : Int), exp := e }

/-- The float64 nearest to `num / d * 2 ^ s` for an integer `num`. -/
def roundSigned (num : Int) (d : Nat) (s : Int) : Float64 :=
  let r := roundRatio num.natAbs d s
  if num < 0 then { mant := -r.mant, exp := r.exp } else r

/-- The conversion `float64(i)` of an integer. -/
def Float64.ofInt (i : Int) : Float64 := roundSigned i 1 0

/-- The float64 sum `x + y`. -/
def Float64.add (x y : Float64) : Float64 :=
  let e0 := min x.exp y.exp
  roundSigned (x.mant * 2 ^ (x.exp - e0).toNat + y.mant * 2 ^ (y.exp - e0).toNat) 1 e0

/-- The float64 product `x * y`. -/
def Float64.mul (x y : Float64) : Float64 :=
  roundSigned (x.mant * y.mant) 1 (x.exp + y.exp)

/-- The float64 quotient `x / y` for a non-zero `y`. -/
def Float64.div (x y : Float64) : Float64 :=
  roundSigned (if y.mant < 0 then -x.mant else x.mant) y.mant.natAbs (x.exp - y.exp)

/-- The conversion `int(x)` of a float64 to the 64-bit `int`: the fraction is discarded; a
value outside the range of `int` gives the smallest `int`, as the conversion instruction of
amd64 does (the language leaves that case to the implementation). -/
def Float64.toInt (x : Float64) : Int :=
  let t := Int.tdiv (x.mant * 2 ^ x.exp.toNat) (2 ^ (-x.exp).toNat)
  if -9223372036854775808 ≤ t ∧ t ≤ 9223372036854775807 then t else -9223372036854775808

/-- The constant `time.Second`, in nanoseconds. -/
def Second : Duration := 1000000000

/-- The method `Duration.Seconds` of the Go standard library:
`float64(d / Second) + float64(d % Second) / 1e9`, the division and the remainder of
integers truncating toward zero. -/
def Duration.Seconds (d : Duration) : Float64 :=
  let sec := Int.tdiv d Second
  let nsec := Int.tmod d Second
  (Float64.ofInt sec).add ((Float64.ofInt nsec).div (Float64.ofInt 1000000000))

/-- The expression `int(elapsed * t.refillRate)` of `refill`, `elapsed` being
`now.Sub(t.lastRefill).Seconds()`. -/
def tokensToAdd (refillRate : Float64) (elapsed : Duration) : Int :=
  ((Duration.Seconds elapsed).mul refillRate).toInt

/-- The rational number a float64 stands for. -/
def Float64.val (x : Float64) : ℚ := (x.mant : ℚ) * (2 : ℚ) ^ x.exp

/-- Arithmetic on the Go type `int` (64 bits on the platforms the service is built for)
wraps around: the value of the type that an exact result is reduced to. -/
def wrapInt64 (x : Int) : Int :=
  (x + 9223372036854775808) % 18446744073709551616 - 9223372036854775808

/-! ### The bucket -/

/-- The struct `TokenBucket` without its mutex.  The field `refillRate` is read at one place
only, the expression `int(elapsed * t.refillRate)` of `refill`, which is
`tokensToAdd refillRate` above; the functions below take that computation as a parameter
`tokensToAddOf`, from the elapsed duration to the integer obtained, and a bucket of rate
`refillRate` runs them with `tokensToAdd refillRate`. -/
structure TokenBucket where
  capacity : Int
  tokens : Int
  lastRefill : Time
  deriving DecidableEq, Repr

/-- The function `NewTokenBucket`; `now` is the reading of `time.Now()`. -/
def NewTokenBucket (capacity : Int) (now : Time) : TokenBucket :=
  { capacity := capacity, tokens := capacity, lastRefill := now }

/-- The method `TokenBucket.refill`; `now` is the reading of `time.Now()`.  The test
`elapsed <= 0` on the seconds is the same test on the nanoseconds; the addition
`t.tokens += tokensToAdd` is an addition of `int`. -/
def TokenBucket.refill (tokensToAddOf : Duration → Int) (now : Time) (t : TokenBucket) :
    TokenBucket :=
  let elapsed := now - t.lastRefill
  if elapsed ≤ 0 then t
  else
    let tokensToAdd := tokensToAddOf elapsed
    if tokensToAdd > 0 then
      let tokens := wrapInt64 (t.tokens + tokensToAdd)
      { capacity := t.capacity,
        tokens := if tokens > t.capacity then t.capacity else tokens,
        lastRefill := now }
    else t

/-- The method `TokenBucket.Allow`: the returned boolean and the bucket afterwards.  The
decrement `t.tokens--` is made on a positive count and cannot wrap. -/
def TokenBucket.Allow (tokensToAddOf : Duration → Int) (now : Time) (t : TokenBucket) :
    Bool × TokenBucket :=
  let t1 := t.refill tokensToAddOf now
  if t1.tokens > 0 then (true, { t1 with tokens := t1.tokens - 1 })
  else (false, t1)

/-- A sequence of calls of `Allow`, one at each of the given clock readings: the returned
booleans in order and the bucket afterwards. -/
def allowAll (tokensToAddOf : Duration → Int) : List Time → TokenBucket → List Bool × TokenBucket
  | [], t => ([], t)
  | now :: rest, t =>
    let r := t.Allow tokensToAddOf now
    let rs := allowAll tokensToAddOf rest r.2
    (r.1 :: rs.1, rs.2)

/-! ## Background worker (`pkg/background`) -/

/-- What one call of `task.Do` does: it returns nil, returns an error, or panics. -/
inductive DoOutcome where
  | ok
  | failed (err : Err)
  | panic (value : String)
  deriving DecidableEq, Repr

/-- The interface `Task`; `Do k` is the outcome of the `k`-th call of `Do` on the task, the
call of the warm-up being call `0`. -/
structure Task where
  TTL : Duration
  Info : String
  Do : Nat → DoOutcome

/-- A call `task.Do(ctx)` inside a Go function: a panic unwinds (`Except.error`), otherwise
the returned error. -/
def Task.call (task : Task) (k : Nat) : Except String (Option Err) :=
  match task.Do k with
  | .ok => .ok none
  | .failed err => .ok (some err)
  | .panic value => .error value

/-- The method `Worker.executeTaskSafely` at the `k`-th call of `Do`: the deferred `recover`
stops a panic of `task.Do`, an error is logged.  The result is the lines logged, or the
panic that leaves the method (`Except.error`). -/
def executeTaskSafely (task : Task) (k : Nat) : Except String (List String) :=
  match task.call k with
  | .error _ => .ok ["Background task panic"]
  | .ok (some _) => .ok ["Background task failed"]
  | .ok none => .ok []

/-- What the `select` of `runBackgroundTask` receives. -/
inductive LoopEvent where
  | ctxDone
  | tick
  deriving DecidableEq, Repr

/-- What `runBackgroundTask` has done after the events it was given: the number of calls of
`Do` it made, whether it has returned, and the panic that left it, if any. -/
structure RunResult where
  doCalls : Nat
  returned : Bool
  panicked : Option String
  deriving DecidableEq, Repr

/-- The `for`/`select` loop of `runBackgroundTask` over the events received, `k` calls of
`Do` having been made by the loop so far. -/
def tickLoop (task : Task) : List LoopEvent → Nat → RunResult
  | [], k => { doCalls := k, returned := false, panicked := none }
  | .ctxDone :: _, k => { doCalls := k, returned := true, panicked := none }
  | .tick :: rest, k =>
    match executeTaskSafely task (k + 1) with
    | .error p => { doCalls := k + 1, returned := false, panicked := some p }
    | .ok _ => tickLoop task rest (k + 1)

/-- The method `Worker.runBackgroundTask` over the events its `select` receives. -/
def runBackgroundTask (task : Task) (events : List LoopEvent) : RunResult :=
  let ttl := task.TTL
  if ttl ≤ 0 then { doCalls := 0, returned := true, panicked := none }
  else tickLoop task events 0

/-! ## Kafka handler (`internal/handlers/kafka-consumer/order_status_changed`) -/

/-- Modelled from the spec: the declaration of the type `createdEvent` is not part of the
sources; the spec gives the message as carrying an order id and a status, and the handler
reads the fields `OrderID` and `Status` of the decoded value. -/
structure createdEvent where
  OrderID : String
  Status : String
  deriving DecidableEq, Repr

/-- What `messageProcessing` has done when it returns: whether `sess.MarkMessage` was
called, the returned boolean, and the lines logged. -/
structure MessageOutcome where
  marked : Bool
  shouldExit : Bool
  log : List String
  deriving DecidableEq, Repr

/-- The method `Handler.messageProcessing`.  `unmarshal` is the result of `json.Unmarshal`
on the payload of the message, `service` is the method `ProcessOrderStatusChange` of the
interface `Service` as state passing over any state `σ`.  A nil order returned with a nil
error makes `order.ID` panic (`Except.error`). -/
def messageProcessing {σ : Type}
    (service : OrderModify → σ → (Option Order × Option Err) × σ)
    (unmarshal : Except Err createdEvent) (s : σ) : Except String MessageOutcome × σ :=
  match unmarshal with
  | .error _ =>
    (.ok { marked := true, shouldExit := false,
           log := ["order.status.changed handler received bad message"] }, s)
  | .ok event =>
    let orderModify : OrderModify :=
      { ID := some event.OrderID, Status := some event.Status, CreatedAt := none }
    match service orderModify s with
    | ((_, some err), s1) =>
      if errorsIs err ContextCanceled || errorsIs err ContextDeadlineExceeded then
        (.ok { marked := false, shouldExit := true,
               log := ["order.status.changed processing",
                       "order.status.changed handler context cancelled, message will be reprocessed"] },
         s1)
      else if errorsIs err ErrUndefinedStatus then
        (.ok { marked := true, shouldExit := false,
               log := ["order.status.changed processing",
                       "order.status.changed handler unknown status for order"] }, s1)
      else if errorsIs err ErrStatusMismatch then
        (.ok { marked := true, shouldExit := false,
               log := ["order.status.changed processing",
                       "order.status.changed handler status mismatch for order"] }, s1)
      else
        (.ok { marked := true, shouldExit := false,
               log := ["order.status.changed processing",
                       "order.status.changed handler failed to process order"] }, s1)
    | ((some _, none), s1) =>
      (.ok { marked := true, shouldExit := false,
             log := ["order.status.changed processing", "order.status.changed: processed"] }, s1)
    | ((none, none), s1) => (.error "invalid memory address or nil pointer dereference", s1)

/-! ## Notions the statements use -/

deriving instance DecidableEq for Except

/-- A delivery is active at `now` when its deadline has not passed: `deadline >= now`. -/
def Delivery.isActive (now : Time) (d : Delivery) : Bool :=
  decide (now ≤ d.Deadline)

/-- The number of active deliveries the courier with id `courierID` owns at `now`. -/
def activeDeliveryCount (now : Time) (db : DB) (courierID : Int) : Nat :=
  (db.delivery.filter (fun d => decide (d.CourierID = courierID) && d.isActive now)).length

/-- The number of active deliveries the courier owns at `now` for orders other than
`orderID`. -/
def otherActiveCount (now : Time) (db : DB) (courierID : Int) (orderID : String) : Nat :=
  (db.delivery.filter (fun d =>
    (decide (d.CourierID = courierID) && !decide (d.OrderID = orderID)) && d.isActive now)).length

/-- The key constraints of the two tables: courier ids are pairwise distinct (primary key)
and there is at most one delivery row per order id. -/
def DB.keysOk (db : DB) : Prop :=
  (db.couriers.map (fun c => c.ID)).Nodup ∧ (db.delivery.map (fun d => d.OrderID)).Nodup

instance (db : DB) : Decidable db.keysOk :=
  inferInstanceAs (Decidable (_ ∧ _))

/-- The status column as seen from outside: the (id, status) pairs of the couriers. -/
def DB.statuses (db : DB) : List (Int × String) :=
  db.couriers.map (fun c => (c.ID, c.Status))

/-- The couriers table after the status of the courier `courierID` was set at `now`. -/
def setStatus (now : Time) (courierID : Int) (status : String) (cs : List Courier) :
    List Courier :=
  cs.map (fun c =>
    if c.ID = courierID then
      { ID := c.ID, Name := c.Name, Phone := c.Phone, Status := status,
        TransportType := c.TransportType, CreatedAt := c.CreatedAt, UpdatedAt := now }
    else c)

/-- The modification both engines send to the courier service: the status alone. -/
def statusModify (courierID : Int) (status : String) : CourierModify :=
  { ID := some courierID, Name := none, Phone := none, Status := some status,
    TransportType := none }

/-- The insertion `internalDeliveryAssign` requests for the selected courier `c`. -/
def assignModify (env : Env) (orderID : String) (c : Courier) : DeliveryModify :=
  { ID := none, CourierID := some c.ID, OrderID := some orderID, CreatedAt := some (env.clock 0),
    AssignedAt := some (env.clock 2),
    Deadline := some (CalculateDeadline c.TransportType (env.clock 1)) }

/-- The delivery row a successful assignment of `orderID` to the courier `c` stores. -/
def assignedRow (env : Env) (orderID : String) (c : Courier) : Delivery :=
  { ID := env.deliveryID, CourierID := c.ID, OrderID := orderID,
    CreatedAt := pgTimestamp (env.clock 0), AssignedAt := pgTimestamp (env.clock 2),
    Deadline := pgTimestamp (CalculateDeadline c.TransportType (env.clock 1)) }

/-- A delivery is expired at `now` when its deadline is strictly before `now`. -/
def Delivery.isExpired (now : Time) (d : Delivery) : Prop :=
  d.Deadline < now

/-- The courier `c` is busy and owns at least one delivery expired at `now`. -/
def busyWithExpired (now : Time) (db : DB) (c : Courier) : Prop :=
  c.Status = CourierBusy ∧ ∃ d ∈ db.delivery, d.CourierID = c.ID ∧ d.isExpired now

/-- The invariant of the data model at `now`: every busy courier owns at least one active
delivery. -/
def busyOwnsActive (now : Time) (db : DB) : Prop :=
  ∀ c ∈ db.couriers, c.Status = CourierBusy →
    ∃ d ∈ db.delivery, d.CourierID = c.ID ∧ d.isActive now = true

instance (now : Time) (d : Delivery) : Decidable (d.isExpired now) :=
  inferInstanceAs (Decidable (d.Deadline < now))

instance (now : Time) (db : DB) (c : Courier) : Decidable (busyWithExpired now db c) :=
  inferInstanceAs (Decidable (_ ∧ _))

instance (now : Time) (db : DB) : Decidable (busyOwnsActive now db) :=
  inferInstanceAs (Decidable (∀ c ∈ db.couriers, c.Status = CourierBusy →
    ∃ d ∈ db.delivery, d.CourierID = c.ID ∧ d.isActive now = true))

/-- The calls on a `DeliveryService`. -/
inductive DeliveryCall where
  | DeliveryAssign (orderID : String)
  | DeliveryUnassign (orderID : String)
  | FreeCourierByOrderID (orderID : String)
  deriving DecidableEq, Repr

/-- A delivery service that behaves as `svc` and appends every call it receives to a list
kept next to the state. -/
def DeliveryService.traced {σ : Type} (svc : DeliveryService σ) :
    DeliveryService (σ × List DeliveryCall) :=
  { DeliveryAssign := fun orderID st =>
      ((svc.DeliveryAssign orderID st.1).1,
       ((svc.DeliveryAssign orderID st.1).2, st.2 ++ [DeliveryCall.DeliveryAssign orderID])),
    DeliveryUnassign := fun orderID st =>
      ((svc.DeliveryUnassign orderID st.1).1,
       ((svc.DeliveryUnassign orderID st.1).2, st.2 ++ [DeliveryCall.DeliveryUnassign orderID])),
    FreeCourierByOrderID := fun orderID st =>
      ((svc.FreeCourierByOrderID orderID st.1).1,
       ((svc.FreeCourierByOrderID orderID st.1).2,
        st.2 ++ [DeliveryCall.FreeCourierByOrderID orderID])) }

/-- During `DeliveryAssign env orderID w` a collaborator returned the error `e`: the
transaction manager when beginning or committing, or, inside the transaction, the selection,
the insertion or the courier update, each reached after the calls before it succeeded. -/
inductive AssignCollaboratorError (env : Env) (orderID : String) (w : World) (e : Err) : Prop where
  | beginTx : env.faults.beginTx = some e → AssignCollaboratorError env orderID w e
  | GetCourierForAssignment (w1 : World) :
      env.faults.beginTx = none →
      DeliveryRepository.GetCourierForAssignment env (w.record Call.TxDo) = (.error e, w1) →
      AssignCollaboratorError env orderID w e
  | Create (c : Courier) (w1 w2 : World) :
      env.faults.beginTx = none →
      DeliveryRepository.GetCourierForAssignment env (w.record Call.TxDo) = (.ok c, w1) →
      DeliveryRepository.Create env (assignModify env orderID c) w1 = (.error e, w2) →
      AssignCollaboratorError env orderID w e
  | UpdateCourier (c : Courier) (d : Delivery) (w1 w2 w3 : World) :
      env.faults.beginTx = none →
      DeliveryRepository.GetCourierForAssignment env (w.record Call.TxDo) = (.ok c, w1) →
      DeliveryRepository.Create env (assignModify env orderID c) w1 = (.ok d, w2) →
      CourierService.UpdateCourier env (statusModify c.ID CourierBusy) w2 = (.error e, w3) →
      AssignCollaboratorError env orderID w e
  | commitTx (c u : Courier) (d : Delivery) (w1 w2 w3 : World) :
      env.faults.beginTx = none →
      DeliveryRepository.GetCourierForAssignment env (w.record Call.TxDo) = (.ok c, w1) →
      DeliveryRepository.Create env (assignModify env orderID c) w1 = (.ok d, w2) →
      CourierService.UpdateCourier env (statusModify c.ID CourierBusy) w2 = (.ok u, w3) →
      env.faults.commitTx = some e →
      AssignCollaboratorError env orderID w e

/-- During `DeliveryUnassign env orderID w` a collaborator returned the error `e`. -/
inductive UnassignCollaboratorError (env : Env) (orderID : String) (w : World) (e : Err) :
    Prop where
  | beginTx : env.faults.beginTx = some e → UnassignCollaboratorError env orderID w e
  | GetCourierIDAndDeliveryCount (w1 : World) :
      env.faults.beginTx = none →
      DeliveryRepository.GetCourierIDAndDeliveryCountByOrderIDForAssing env orderID
        (w.record Call.TxDo) = (.error e, w1) →
      UnassignCollaboratorError env orderID w e
  | Delete (courierID n : Int) (w1 w2 : World) :
      env.faults.beginTx = none →
      DeliveryRepository.GetCourierIDAndDeliveryCountByOrderIDForAssing env orderID
        (w.record Call.TxDo) = (.ok (courierID, n), w1) →
      ¬ n > 0 →
      DeliveryRepository.Delete env orderID w1 = (some e, w2) →
      UnassignCollaboratorError env orderID w e
  | UpdateCourier (courierID n : Int) (w1 w2 w3 : World) :
      env.faults.beginTx = none →
      DeliveryRepository.GetCourierIDAndDeliveryCountByOrderIDForAssing env orderID
        (w.record Call.TxDo) = (.ok (courierID, n), w1) →
      ¬ n > 0 →
      DeliveryRepository.Delete env orderID w1 = (none, w2) →
      CourierService.UpdateCourier env (statusModify courierID CourierAvailable) w2 =
        (.error e, w3) →
      UnassignCollaboratorError env orderID w e
  | commitTx (courierID n : Int) (u : Courier) (w1 w2 w3 : World) :
      env.faults.beginTx = none →
      DeliveryRepository.GetCourierIDAndDeliveryCountByOrderIDForAssing env orderID
        (w.record Call.TxDo) = (.ok (courierID, n), w1) →
      ¬ n > 0 →
      DeliveryRepository.Delete env orderID w1 = (none, w2) →
      CourierService.UpdateCourier env (statusModify courierID CourierAvailable) w2 =
        (.ok u, w3) →
      env.faults.commitTx = some e →
      UnassignCollaboratorError env orderID w e

/-- During `FreeCourierByOrderID env orderID w` a collaborator returned the error `e`. -/
inductive FreeCourierCollaboratorError (env : Env) (orderID : String) (w : World) (e : Err) :
    Prop where
  | beginTx : env.faults.beginTx = some e → FreeCourierCollaboratorError env orderID w e
  | GetCourierIDByOrderID (w1 : World) :
      env.faults.beginTx = none →
      DeliveryRepository.GetCourierIDByOrderID env orderID (w.record Call.TxDo) =
        (.error e, w1) →
      FreeCourierCollaboratorError env orderID w e
  | UpdateCourier (courierID : Int) (w1 w2 : World) :
      env.faults.beginTx = none →
      DeliveryRepository.GetCourierIDByOrderID env orderID (w.record Call.TxDo) =
        (.ok courierID, w1) →
      CourierService.UpdateCourier env (statusModify courierID CourierAvailable) w1 =
        (.error e, w2) →
      FreeCourierCollaboratorError env orderID w e
  | commitTx (courierID : Int) (u : Courier) (w1 w2 : World) :
      env.faults.beginTx = none →
      DeliveryRepository.GetCourierIDByOrderID env orderID (w.record Call.TxDo) =
        (.ok courierID, w1) →
      CourierService.UpdateCourier env (statusModify courierID CourierAvailable) w1 =
        (.ok u, w2) →
      u.Status = CourierAvailable →
      env.faults.commitTx = some e →
      FreeCourierCollaboratorError env orderID w e

/-! ## Concrete scenarios -/

def mkCourier (id : Int) (status transport : String) : Courier :=
  { ID := id, Name := "courier", Phone := "+7999", Status := status,
    TransportType := transport, CreatedAt := 0, UpdatedAt := 0 }

def mkDelivery (id courierID : Int) (orderID : String) (deadline : Time) : Delivery :=
  { ID := id, CourierID := courierID, OrderID := orderID, CreatedAt := 0, AssignedAt := 0,
    Deadline := deadline }

/-- The fixture of `TestRepository_GetCourierForAssignment_Success`: couriers 1 and 2 are
available with two and one active deliveries, courier 3 is busy. -/
def dbLoad : DB :=
  { couriers := [mkCourier 1 "available" "on_foot", mkCourier 2 "available" "scooter",
                 mkCourier 3 "busy" "car"],
    delivery := [mkDelivery 1 1 "order-1" 100, mkDelivery 2 1 "order-2" 100,
                 mkDelivery 3 2 "order-3" 100] }

/-- An environment without driver failures: `NOW()` is 50, the clock reads 50, 51, 52, ... -/
def envOk : Env :=
  { sqlNow := 50, clock := fun n => 50 + n, deliveryID := 10, faults := Faults.none }

def wLoad : World := { db := dbLoad, log := [] }

/-- An environment whose clock readings are one microsecond apart: 5400, 6400 and 7400
nanoseconds. -/
def envApart : Env :=
  { sqlNow := 50, clock := fun n => 5400 + 1000 * n, deliveryID := 10, faults := Faults.none }

/-- A second call environment: as `envOk`, the sequence handing out the next id. -/
def envNext : Env :=
  { sqlNow := 60, clock := fun n => 60 + n, deliveryID := 11, faults := Faults.none }

/-- The fixture of `TestRepository_GetCourierForAssignment_NoAvailableCouriers`: one busy
and one paused courier. -/
def wNoAvail : World :=
  { db := { couriers := [mkCourier 1 "busy" "on_foot", mkCourier 2 "paused" "scooter"],
            delivery := [] },
    log := [] }

/-- Example scenario 1 of the spec: a single available courier with transport `car`. -/
def wOne : World :=
  { db := { couriers := [mkCourier 1 "available" "car"], delivery := [] }, log := [] }

/-- Example scenario 4 of the spec: a busy courier owning two active deliveries. -/
def wTwo : World :=
  { db := { couriers := [mkCourier 1 "busy" "car"],
            delivery := [mkDelivery 1 1 "O1" 100, mkDelivery 2 1 "O2" 100] },
    log := [] }

/-- An environment in which the courier update fails in the driver. -/
def envUpdateFails : Env :=
  { sqlNow := 50, clock := fun n => 50 + n, deliveryID := 10,
    faults :=
      { beginTx := none, commitTx := none, selectCourier := none, insertDelivery := none,
        updateCourier := some (.other "courier service unavailable"),
        deleteDelivery := none, selectOwner := none, selectCourierID := none,
        updateExpired := none } }

/-- The fixture of `TestRepository_UpdateCouriersAvailableWhereDeadlineExpired_Success`:
couriers 1, 2 and 4 are busy, courier 3 is available; courier 2 owns an expired and an
active delivery, couriers 1 and 4 an expired one each (`NOW()` being 50). -/
def wReap : World :=
  { db := { couriers := [mkCourier 1 "busy" "on_foot", mkCourier 2 "busy" "scooter",
                         mkCourier 3 "available" "car", mkCourier 4 "busy" "car"],
            delivery := [mkDelivery 1 1 "expired-1" 10, mkDelivery 2 2 "expired-2" 10,
                         mkDelivery 3 2 "active-1" 100, mkDelivery 4 4 "expired-3" 10] },
    log := [] }

/-- Example scenario 5 of the spec: three busy couriers, two with an expired delivery and one
with a delivery still to come. -/
def wThree : World :=
  { db := { couriers := [mkCourier 1 "busy" "on_foot", mkCourier 2 "busy" "scooter",
                         mkCourier 3 "busy" "car"],
            delivery := [mkDelivery 1 1 "old-1" 10, mkDelivery 2 2 "old-2" 10,
                         mkDelivery 3 3 "new-3" 100] },
    log := [] }

/-- One available courier and one busy courier owning an active delivery: the invariant of
the data model holds at 50. -/
def wMix : World :=
  { db := { couriers := [mkCourier 1 "available" "car", mkCourier 2 "busy" "scooter"],
            delivery := [mkDelivery 3 2 "order-3" 100] },
    log := [] }

/-- An order gateway answering every id with an order of the given status. -/
def gatewayWith (status : String) : String → Except Err Order :=
  fun id => .ok { ID := id, Status := status, CreatedAt := 0 }

/-- A back-off environment that always grants a further attempt and is never cancelled. -/
def benvOk : BackoffEnv :=
  { nextBackOff := fun _ => some 100000000, ctxErr := fun _ => none }

/-- An operation failing twice with `Unavailable` and succeeding at the third invocation, as
in the gateway test of a successful retry. -/
def fnTwoFailures : Nat → Option Err :=
  fun i => if i < 2 then some (.grpc Code.Unavailable "service unavailable") else none

/-- An operation always failing with `NotFound`. -/
def fnNotFound : Nat → Option Err :=
  fun _ => some (.grpc Code.NotFound "order not found")

/-- The rate 1.0. -/
def rateOne : Float64 := { mant := 1, exp := 0 }

/-- The rate 10.0. -/
def rateTen : Float64 := { mant := 10, exp := 0 }

/-- The float64 nearest to one third, the value of the Go expression `1.0 / 3.0`. -/
def rateThird : Float64 := { mant := 6004799503160661, exp := -54 }

/-- The float64 nearest to 0.0003, the rate of the edge-case test. -/
def rateSmall : Float64 := { mant := 5534023222112865, exp := -64 }

/-- A back-off environment whose context is cancelled from the start with `context.Canceled`,
as in the gateway test of a cancelled context. -/
def benvCancelled : BackoffEnv :=
  { nextBackOff := fun _ => some 100000000, ctxErr := fun _ => some ContextCanceled }

/-- An operation always failing with the retryable code `Unavailable`. -/
def fnUnavailable : Nat → Option Err :=
  fun _ => some (.grpc Code.Unavailable "service unavailable")

/-- A task whose calls of `Do` panic at the warm-up and at every second call after it, and
return an error otherwise. -/
def taskPanicking : Task :=
  { TTL := Minute, Info := "panicking",
    Do := fun k => if k % 2 = 0 then .panic "nil map" else .failed (.other "boom") }

/-- A task with a zero interval. -/
def taskNoTTL : Task :=
  { TTL := 0, Info := "once", Do := fun _ => .ok }

/-- A service that counts its calls and answers each with the given result. -/
def countingService (result : Option Order × Option Err) :
    OrderModify → Nat → (Option Order × Option Err) × Nat :=
  fun _ calls => (result, calls + 1)

/-- An order gateway knowing the single order `O1`, in the given status. -/
def gatewayOne (status : String) : String → Except Err Order :=
  fun id =>
    if id = "O1" then .ok { ID := "O1", Status := status, CreatedAt := 0 }
    else .error (.grpc Code.NotFound "order not found")

/-! ## Auxiliary lemmas -/

theorem trimSpaceChars_eq_nil (cs : List Char) :
    trimSpaceChars cs = [] ↔ ∀ c ∈ cs, unicodeIsSpace c = true := by
  unfold trimSpaceChars
  rw [List.reverse_eq_nil_iff, List.dropWhile_eq_nil_iff]
  constructor
  · intro h
    by_cases hd : cs.dropWhile unicodeIsSpace = []
    · exact List.dropWhile_eq_nil_iff.mp hd
    · have h1 := List.head_dropWhile_not unicodeIsSpace cs hd
      have h2 := h _ (List.mem_reverse.mpr (List.head_mem hd))
      simp [h2] at h1
  · intro h
    have hd : cs.dropWhile unicodeIsSpace = [] := List.dropWhile_eq_nil_iff.mpr h
    simp [hd]

theorem isValidOrderID_eq_false (orderID : String) :
    isValidOrderID orderID = false ↔ ∀ c ∈ orderID.data, unicodeIsSpace c = true := by
  rw [← trimSpaceChars_eq_nil]
  unfold isValidOrderID stringsTrimSpace
  constructor
  · intro h
    have h1 : String.mk (trimSpaceChars orderID.data) = "" := by simpa using h
    exact congrArg String.data h1
  · intro h
    rw [h]
    rfl

theorem countActive_leftJoinDelivery (now : Time) (c : Courier) (db : DB) :
    countActive now (leftJoinDelivery c db.delivery) = activeDeliveryCount now db c.ID := by
  unfold activeDeliveryCount leftJoinDelivery
  have hcomm : (fun d : Delivery => decide (d.CourierID = c.ID) && d.isActive now) =
      (fun d : Delivery => d.isActive now && decide (d.CourierID = c.ID)) := by
    funext d
    exact Bool.and_comm _ _
  rw [hcomm, ← List.filter_filter]
  generalize db.delivery.filter (fun d => decide (d.CourierID = c.ID)) = m
  cases m with
  | nil => simp [countActive]
  | cons a t =>
    simp only [countActive, List.countP_eq_length_filter, List.filter_map, List.length_map]
    rfl

theorem insertionSort_head_min {α : Type} (r : α → α → Prop) [DecidableRel r] [IsTotal α r]
    [IsTrans α r] (l : List α) (x : α) (hx : x ∈ l) :
    ∃ m rest, l.insertionSort r = m :: rest ∧ m ∈ l ∧ ∀ y ∈ l, r m y := by
  have hperm := List.perm_insertionSort r l
  have hsorted := List.sorted_insertionSort r l
  cases hs : l.insertionSort r with
  | nil =>
    rw [hs] at hperm
    have := hperm.symm.subset hx
    simp at this
  | cons m rest =>
    rw [hs] at hperm hsorted
    refine ⟨m, rest, rfl, hperm.subset (List.mem_cons_self _ _), ?_⟩
    intro y hy
    rcases List.mem_cons.mp (hperm.symm.subset hy) with h | h
    · subst h
      exact (IsTotal.total y y).elim id id
    · exact List.rel_of_sorted_cons hsorted y h

theorem sqlSelectCourierForAssignment_some (now : Time) (db : DB)
    (h : ∃ c ∈ db.couriers, c.Status = CourierAvailable) :
    ∃ c, sqlSelectCourierForAssignment now db = [c] ∧ c ∈ db.couriers ∧
      c.Status = CourierAvailable ∧
      ∀ c' ∈ db.couriers, c'.Status = CourierAvailable →
        assignmentOrder (activeDeliveryCount now db c.ID, c) (activeDeliveryCount now db c'.ID, c') := by
  obtain ⟨c0, hc0, hs0⟩ := h
  have key : ∀ c : Courier, (c ∈ db.couriers ∧ c.Status = CourierAvailable) ↔
      (activeDeliveryCount now db c.ID, c) ∈
        (db.couriers.filter (fun c => decide (c.Status = "available"))).map
          (fun c => (countActive now (leftJoinDelivery c db.delivery), c)) := by
    intro c
    simp only [List.mem_map, List.mem_filter, decide_eq_true_eq, countActive_leftJoinDelivery,
      CourierAvailable]
    constructor
    · intro hc
      exact ⟨c, hc, rfl⟩
    · rintro ⟨a, ha, hEq⟩
      have : a = c := congrArg Prod.snd hEq
      subst this
      exact ha
  obtain ⟨m, rest, hsort, hm, hmin⟩ :=
    insertionSort_head_min assignmentOrder _ _ ((key c0).mp ⟨hc0, hs0⟩)
  obtain ⟨n, c⟩ := m
  have hn : n = activeDeliveryCount now db c.ID := by
    simp only [List.mem_map, List.mem_filter, countActive_leftJoinDelivery] at hm
    obtain ⟨a, _, hEq⟩ := hm
    have h2 : a = c := congrArg Prod.snd hEq
    have h1 := congrArg Prod.fst hEq
    subst h2
    exact h1.symm
  subst hn
  refine ⟨c, ?_, ((key c).mpr hm).1, ((key c).mpr hm).2, ?_⟩
  · unfold sqlSelectCourierForAssignment
    simp only [hsort]
    simp
  · intro c' hc' hs'
    exact hmin _ ((key c').mp ⟨hc', hs'⟩)

theorem sqlSelectCourierForAssignment_none (now : Time) (db : DB)
    (h : ∀ c ∈ db.couriers, c.Status ≠ CourierAvailable) :
    sqlSelectCourierForAssignment now db = [] := by
  have hf : db.couriers.filter (fun c => decide (c.Status = "available")) = [] := by
    rw [List.filter_eq_nil_iff]
    intro c hc
    simpa [CourierAvailable] using h c hc
  unfold sqlSelectCourierForAssignment
  simp [hf]

theorem sqlUpdateCourier_status (now : Time) (courierID : Int) (status : String) (db : DB) :
    sqlUpdateCourier now (statusModify courierID status) db =
      .ok ((setStatus now courierID status db.couriers).filter (fun c => decide (c.ID = courierID)),
           { couriers := setStatus now courierID status db.couriers, delivery := db.delivery }) := by
  simp [sqlUpdateCourier, statusModify, setStatus, applyCourierModify]

theorem setStatus_filter (now : Time) (courierID : Int) (status : String) (cs : List Courier) :
    (setStatus now courierID status cs).filter (fun c => decide (c.ID = courierID)) =
      (cs.filter (fun c => decide (c.ID = courierID))).map (fun c =>
        { ID := c.ID, Name := c.Name, Phone := c.Phone, Status := status,
          TransportType := c.TransportType, CreatedAt := c.CreatedAt, UpdatedAt := now }) := by
  induction cs with
  | nil => rfl
  | cons a t ih =>
    unfold setStatus at ih ⊢
    by_cases h : a.ID = courierID
    · simp [h, ih]
    · simp [h, ih]

theorem UpdateCourier_status (env : Env) (courierID : Int) (status : String) (w : World)
    (hfault : env.faults.updateCourier = none) (hvalid : isValidStatus status = true) :
    CourierService.UpdateCourier env (statusModify courierID status) w =
      match w.db.couriers.filter (fun c => decide (c.ID = courierID)) with
      | [] => (.error (.wrap "failed to update courier" ErrCourierNotFound),
               w.record (Call.UpdateCourier (statusModify courierID status)))
      | c :: _ =>
        (.ok { ID := c.ID, Name := c.Name, Phone := c.Phone, Status := status,
               TransportType := c.TransportType, CreatedAt := c.CreatedAt,
               UpdatedAt := env.sqlNow },
         { db := { couriers := setStatus env.sqlNow courierID status w.db.couriers,
                   delivery := w.db.delivery },
           log := w.log ++ [Call.UpdateCourier (statusModify courierID status)] }) := by
  unfold CourierService.UpdateCourier CourierRepository.Update
  simp only [hfault, sqlUpdateCourier_status, setStatus_filter, World.record]
  cases hrows : w.db.couriers.filter (fun c => decide (c.ID = courierID)) with
  | nil => simp [statusModify, hvalid, errorsIs, PgxErrNoRows]
  | cons a t => simp [statusModify, hvalid]

theorem CourierBusy_valid : isValidStatus CourierBusy = true := by decide

theorem CourierAvailable_valid : isValidStatus CourierAvailable = true := by decide

theorem pgTimestamp_add_minutes (t : Time) (k : Int) :
    pgTimestamp (t + Minute * k) = pgTimestamp t + Minute * k := by
  unfold pgTimestamp Minute
  have h : (t + 60 * 1000000000 * k) % 1000 = t % 1000 := by
    have e : t + 60 * 1000000000 * k = t + 1000 * (60000000 * k) := by ring
    rw [e, Int.add_mul_emod_self_left]
  rw [h]
  ring

theorem pgTimestamp_le (t : Int) : pgTimestamp t ≤ t ∧ t - 999 ≤ pgTimestamp t := by
  show t - t % 1000 ≤ t ∧ t - 999 ≤ t - t % 1000
  omega

theorem stored_deadline (transportType : String) (b : Time) :
    pgTimestamp (CalculateDeadline transportType b) =
      CalculateDeadline transportType (pgTimestamp b) := by
  unfold CalculateDeadline
  split_ifs <;> exact pgTimestamp_add_minutes b _

theorem clock_le_stored_deadline (transportType : String) (b : Time) :
    b ≤ pgTimestamp (CalculateDeadline transportType b) := by
  have h := (pgTimestamp_le b).2
  rw [stored_deadline]
  unfold CalculateDeadline Minute
  split_ifs <;> linarith

theorem DeliveryAssign_eval (env : Env) (orderID : String) (w : World)
    (hv : isValidOrderID orderID = true)
    (hb : env.faults.beginTx = none) (hs : env.faults.selectCourier = none)
    (hi : env.faults.insertDelivery = none) (hu : env.faults.updateCourier = none)
    (hc : env.faults.commitTx = none) :
    DeliveryAssign env orderID w =
      match sqlSelectCourierForAssignment env.sqlNow w.db with
      | [] =>
        (.error (.wrap "find courier for assignment" ErrNoAvailableCouriers),
         { db := w.db, log := w.log ++ [Call.TxDo, Call.GetCourierForAssignment] })
      | c :: _ =>
        if w.db.delivery.any (fun d => decide (d.OrderID = orderID)) then
          (.error (.wrap "create delivery" ErrOrderAlreadyAssigned),
           { db := w.db,
             log := w.log ++ [Call.TxDo, Call.GetCourierForAssignment,
               Call.Create (assignModify env orderID c)] })
        else
          match w.db.couriers.filter (fun x => decide (x.ID = c.ID)) with
          | [] =>
            (.error (.wrap "update courier status"
               (.wrap "failed to update courier" ErrCourierNotFound)),
             { db := w.db,
               log := w.log ++ [Call.TxDo, Call.GetCourierForAssignment,
                 Call.Create (assignModify env orderID c),
                 Call.UpdateCourier (statusModify c.ID CourierBusy)] })
          | u :: _ =>
            (.ok { CourierID := u.ID, OrderID := orderID,
                   AssignedAt := pgTimestamp (env.clock 2),
                   Deadline := pgTimestamp (CalculateDeadline c.TransportType (env.clock 1)),
                   TransportType := u.TransportType },
             { db := { couriers := setStatus env.sqlNow c.ID CourierBusy w.db.couriers,
                       delivery := w.db.delivery ++ [assignedRow env orderID c] },
               log := w.log ++ [Call.TxDo, Call.GetCourierForAssignment,
                 Call.Create (assignModify env orderID c),
                 Call.UpdateCourier (statusModify c.ID CourierBusy)] }) := by
  have hupd := fun (cid : Int) (w : World) =>
    UpdateCourier_status env cid CourierBusy w hu CourierBusy_valid
  unfold statusModify at hupd
  unfold DeliveryAssign internalDeliveryAssign Manager.Do assignTx
    DeliveryRepository.GetCourierForAssignment DeliveryRepository.Create
  simp only [hv, hb, hs, hi, hc, World.record, scanRow]
  cases hsel : sqlSelectCourierForAssignment env.sqlNow w.db with
  | nil => simp [errorsIs, PgxErrNoRows]
  | cons c rest =>
    simp only [sqlInsertDelivery]
    by_cases hany : w.db.delivery.any (fun d => decide (d.OrderID = orderID)) = true
    · simp [hany, IsPgErrorWithCode, assignModify]
    · simp only [hany, hupd]
      cases hrows : w.db.couriers.filter (fun x => decide (x.ID = c.ID)) with
      | nil => simp [hrows, assignModify, statusModify, World.record]
      | cons u t => simp [hrows, assignModify, statusModify, assignedRow, World.record]

theorem CourierRepository_Update_fault (env : Env) (m : CourierModify) (db : DB) (e : Err)
    (hfault : env.faults.updateCourier = some e) :
    ∃ e', CourierRepository.Update env m db = .error e' := by
  unfold CourierRepository.Update
  simp only [hfault]
  by_cases h1 : errorsIs e PgxErrNoRows = true
  · exact ⟨ErrCourierNotFound, by simp [h1]⟩
  · by_cases h2 : IsPgErrorWithCode e PgErrUniqueViolation = true
    · exact ⟨ErrConflict, by simp [h1, h2]⟩
    · exact ⟨Err.wrap "unexpected courier repository update error" e, by simp [h1, h2]⟩

theorem UpdateCourier_fault (env : Env) (m : CourierModify) (w : World) (e : Err)
    (hfault : env.faults.updateCourier = some e) :
    ∃ e', CourierService.UpdateCourier env m w = (.error e', w.record (Call.UpdateCourier m)) := by
  obtain ⟨e', he'⟩ := CourierRepository_Update_fault env m (w.record (Call.UpdateCourier m)).db e hfault
  unfold CourierService.UpdateCourier
  simp only [he']
  split_ifs <;> exact ⟨_, rfl⟩

theorem GetCourierForAssignment_log (env : Env) (w : World) :
    (DeliveryRepository.GetCourierForAssignment env w).2 =
      w.record Call.GetCourierForAssignment := by
  unfold DeliveryRepository.GetCourierForAssignment
  split
  · split_ifs <;> rfl
  · rfl

theorem GetCourierForAssignment_fault (env : Env) (w : World) (e : Err)
    (hfault : env.faults.selectCourier = some e) :
    ∃ e', DeliveryRepository.GetCourierForAssignment env w =
      (.error e', w.record Call.GetCourierForAssignment) := by
  unfold DeliveryRepository.GetCourierForAssignment
  simp only [hfault, scanRow]
  split_ifs <;> exact ⟨_, rfl⟩

theorem Create_fault (env : Env) (m : DeliveryModify) (w : World) (e : Err)
    (hfault : env.faults.insertDelivery = some e) :
    ∃ e', DeliveryRepository.Create env m w = (.error e', w.record (Call.Create m)) := by
  unfold DeliveryRepository.Create
  simp only [hfault]
  split_ifs <;> exact ⟨_, rfl⟩

/-- Whatever the transaction manager returns as an error leaves the database as it was. -/
theorem Manager_Do_error_db {κ : Type} (env : Env) (fn : κ → World → Option Err × κ × World)
    (k : κ) (w : World) (e : Err) (h : (Manager.Do env fn k w).1 = some e) :
    (Manager.Do env fn k w).2.2.db = w.db := by
  unfold Manager.Do at h ⊢
  cases hb : env.faults.beginTx with
  | some eb => simp [hb, World.record]
  | none =>
    simp only [hb] at h ⊢
    rcases hfn : fn k (w.record Call.TxDo) with ⟨r, k1, w1⟩
    simp only [hfn] at h ⊢
    cases r with
    | some ef => simp
    | none =>
      cases hc : env.faults.commitTx with
      | some ec => simp
      | none => simp [hc] at h

theorem DeliveryAssign_error_db (env : Env) (orderID : String) (w : World) (e : Err)
    (h : (DeliveryAssign env orderID w).1 = .error e) :
    (DeliveryAssign env orderID w).2.db = w.db := by
  unfold DeliveryAssign internalDeliveryAssign at h ⊢
  by_cases hv : isValidOrderID orderID = true
  · simp only [hv] at h ⊢
    rcases hdo : Manager.Do env (assignTx env orderID (env.clock 0)) DeliveryAssignment.zero w
      with ⟨r, k1, w1⟩
    simp only [hdo] at h ⊢
    cases r with
    | some ef =>
      have := Manager_Do_error_db env _ DeliveryAssignment.zero w ef (by rw [hdo])
      rw [hdo] at this
      simpa using this
    | none => simp at h
  · simp [hv]

theorem DeliveryAssign_ok_faults (env : Env) (orderID : String) (w : World)
    (r : DeliveryAssignment) (h : (DeliveryAssign env orderID w).1 = .ok r) :
    isValidOrderID orderID = true ∧ env.faults.beginTx = none ∧
      env.faults.selectCourier = none ∧ env.faults.insertDelivery = none ∧
      env.faults.updateCourier = none ∧ env.faults.commitTx = none := by
  unfold DeliveryAssign internalDeliveryAssign Manager.Do assignTx at h
  by_cases hv : isValidOrderID orderID = true
  swap
  · simp [hv] at h
  simp only [hv] at h
  cases hb : env.faults.beginTx with
  | some eb => simp [hb] at h
  | none =>
    simp only [hb] at h
    rcases hg : DeliveryRepository.GetCourierForAssignment env (w.record Call.TxDo)
      with ⟨e1 | c, w1⟩
    · simp [hg] at h
    simp only [hg] at h
    have hs : env.faults.selectCourier = none := by
      cases hs : env.faults.selectCourier with
      | none => rfl
      | some es =>
        obtain ⟨e', he'⟩ := GetCourierForAssignment_fault env (w.record Call.TxDo) es hs
        rw [he'] at hg
        simp at hg
    rcases hcr : DeliveryRepository.Create env
        { ID := none, CourierID := some c.ID, OrderID := some orderID,
          CreatedAt := some (env.clock 0), AssignedAt := some (env.clock 2),
          Deadline := some (CalculateDeadline c.TransportType (env.clock 1)) } w1
      with ⟨e2 | d, w2⟩
    · simp [hcr] at h
    simp only [hcr] at h
    have hi : env.faults.insertDelivery = none := by
      cases hi : env.faults.insertDelivery with
      | none => rfl
      | some ei =>
        obtain ⟨e', he'⟩ := Create_fault env
          { ID := none, CourierID := some c.ID, OrderID := some orderID,
            CreatedAt := some (env.clock 0), AssignedAt := some (env.clock 2),
            Deadline := some (CalculateDeadline c.TransportType (env.clock 1)) } w1 ei hi
        rw [he'] at hcr
        simp at hcr
    rcases hup : CourierService.UpdateCourier env
        { ID := some c.ID, Name := none, Phone := none, Status := some CourierBusy,
          TransportType := none } w2
      with ⟨e3 | u, w3⟩
    · simp [hup] at h
    simp only [hup] at h
    have hu : env.faults.updateCourier = none := by
      cases hu : env.faults.updateCourier with
      | none => rfl
      | some eu =>
        obtain ⟨e', he'⟩ := UpdateCourier_fault env
          { ID := some c.ID, Name := none, Phone := none, Status := some CourierBusy,
            TransportType := none } w2 eu hu
        rw [he'] at hup
        simp at hup
    cases hc : env.faults.commitTx with
    | some ec => simp [hc] at h
    | none => exact ⟨hv, rfl, hs, hi, hu, rfl⟩

/-- What a successful `DeliveryAssign` did: it selected the least loaded available courier
`c`, the order had no delivery row, the row of the order was appended, the status of `c`
was set to busy, and the four collaborator calls were issued in order. -/
theorem DeliveryAssign_ok_inv (env : Env) (orderID : String) (w w' : World)
    (r : DeliveryAssignment) (h : DeliveryAssign env orderID w = (.ok r, w')) :
    ∃ c u, sqlSelectCourierForAssignment env.sqlNow w.db = [c] ∧
      c ∈ w.db.couriers ∧ c.Status = CourierAvailable ∧
      (∀ c' ∈ w.db.couriers, c'.Status = CourierAvailable →
        assignmentOrder (activeDeliveryCount env.sqlNow w.db c.ID, c)
          (activeDeliveryCount env.sqlNow w.db c'.ID, c')) ∧
      u ∈ w.db.couriers ∧ u.ID = c.ID ∧
      (∀ d ∈ w.db.delivery, d.OrderID ≠ orderID) ∧
      r = { CourierID := c.ID, OrderID := orderID, AssignedAt := pgTimestamp (env.clock 2),
            Deadline := pgTimestamp (CalculateDeadline c.TransportType (env.clock 1)),
            TransportType := u.TransportType } ∧
      w'.db = { couriers := setStatus env.sqlNow c.ID CourierBusy w.db.couriers,
                delivery := w.db.delivery ++ [assignedRow env orderID c] } ∧
      w'.log = w.log ++ [Call.TxDo, Call.GetCourierForAssignment,
        Call.Create (assignModify env orderID c),
        Call.UpdateCourier (statusModify c.ID CourierBusy)] := by
  obtain ⟨hv, hb, hs, hi, hu, hc⟩ :=
    DeliveryAssign_ok_faults env orderID w r (by rw [h])
  have heval := DeliveryAssign_eval env orderID w hv hb hs hi hu hc
  rw [h] at heval
  by_cases havail : ∃ c ∈ w.db.couriers, c.Status = CourierAvailable
  swap
  · have hnone := sqlSelectCourierForAssignment_none env.sqlNow w.db (by
      intro c hc hst
      exact havail ⟨c, hc, hst⟩)
    rw [hnone] at heval
    simp at heval
  obtain ⟨c, hsel, hcmem, hcst, hmin⟩ := sqlSelectCourierForAssignment_some env.sqlNow w.db havail
  rw [hsel] at heval
  simp only at heval
  by_cases hany : w.db.delivery.any (fun d => decide (d.OrderID = orderID)) = true
  · simp [hany] at heval
  simp only [hany] at heval
  cases hrows : w.db.couriers.filter (fun x => decide (x.ID = c.ID)) with
  | nil =>
    rw [hrows] at heval
    simp at heval
  | cons u t =>
    rw [hrows] at heval
    have hu_mem : u ∈ w.db.couriers.filter (fun x => decide (x.ID = c.ID)) := by
      rw [hrows]
      exact List.mem_cons_self _ _
    rw [List.mem_filter] at hu_mem
    have huid : u.ID = c.ID := by simpa using hu_mem.2
    simp only [Bool.false_eq_true, if_false] at heval
    obtain ⟨h1, hw⟩ := Prod.mk.inj heval
    have hr := Except.ok.inj h1
    refine ⟨c, u, hsel, hcmem, hcst, hmin, hu_mem.1, huid, ?_, ?_, ?_, ?_⟩
    · intro d hd hEq
      apply hany
      rw [List.any_eq_true]
      exact ⟨d, hd, by simpa using hEq⟩
    · rw [hr, huid]
    · rw [hw]
    · rw [hw]

theorem errorsIs_refl (e : Err) : errorsIs e e = true := by
  cases e <;> simp [errorsIs]

theorem errorsIs_wrap (msg : String) (e target : Err) (h : errorsIs e target = true) :
    errorsIs (.wrap msg e) target = true := by
  simp [errorsIs, h]

theorem GetCourierForAssignment_unavailable (env : Env) (w : World)
    (hnone : ∀ c ∈ w.db.couriers, c.Status ≠ CourierAvailable) :
    ∃ e, DeliveryRepository.GetCourierForAssignment env w =
        (.error e, w.record Call.GetCourierForAssignment) ∧
      (env.faults.selectCourier = none → e = ErrNoAvailableCouriers) := by
  cases hs : env.faults.selectCourier with
  | some es =>
    obtain ⟨e', he'⟩ := GetCourierForAssignment_fault env w es hs
    exact ⟨e', he', by simp⟩
  | none =>
    refine ⟨ErrNoAvailableCouriers, ?_, fun _ => rfl⟩
    unfold DeliveryRepository.GetCourierForAssignment
    simp [hs, scanRow, sqlSelectCourierForAssignment_none env.sqlNow w.db hnone, errorsIs,
      PgxErrNoRows]

theorem Create_conflict (env : Env) (m : DeliveryModify) (w : World) (orderID : String)
    (hm : m.OrderID = some orderID) (hrow : ∃ d ∈ w.db.delivery, d.OrderID = orderID) :
    ∃ e, DeliveryRepository.Create env m w = (.error e, w.record (Call.Create m)) ∧
      (env.faults.insertDelivery = none → m.CourierID.isSome → m.CreatedAt.isSome →
        m.AssignedAt.isSome → m.Deadline.isSome → e = ErrOrderAlreadyAssigned) := by
  cases hi : env.faults.insertDelivery with
  | some ei =>
    obtain ⟨e', he'⟩ := Create_fault env m w ei hi
    exact ⟨e', he', by simp⟩
  | none =>
    have hany : w.db.delivery.any (fun d => decide (d.OrderID = orderID)) = true := by
      rw [List.any_eq_true]
      obtain ⟨d, hd, hEq⟩ := hrow
      exact ⟨d, hd, by simpa using hEq⟩
    unfold DeliveryRepository.Create sqlInsertDelivery
    simp only [hi, hm]
    rcases hc : m.CourierID with _ | a
    · exact ⟨Err.wrap "unexpected delivery repository create error" (Err.pg "23502"),
        by simp [IsPgErrorWithCode, PgErrUniqueViolation], by simp⟩
    rcases hca : m.CreatedAt with _ | b
    · exact ⟨Err.wrap "unexpected delivery repository create error" (Err.pg "23502"),
        by simp [IsPgErrorWithCode, PgErrUniqueViolation], by simp⟩
    rcases haa : m.AssignedAt with _ | c
    · exact ⟨Err.wrap "unexpected delivery repository create error" (Err.pg "23502"),
        by simp [IsPgErrorWithCode, PgErrUniqueViolation], by simp⟩
    rcases hdl : m.Deadline with _ | d
    · exact ⟨Err.wrap "unexpected delivery repository create error" (Err.pg "23502"),
        by simp [IsPgErrorWithCode, PgErrUniqueViolation], by simp⟩
    exact ⟨ErrOrderAlreadyAssigned, by simp [hany, IsPgErrorWithCode], by simp⟩

theorem Create_ok_inv (env : Env) (m : DeliveryModify) (w w2 : World) (d : Delivery)
    (h : DeliveryRepository.Create env m w = (.ok d, w2)) :
    w2.db.delivery = w.db.delivery ++ [d] ∧ w2.db.couriers = w.db.couriers ∧
      w2.log = w.log ++ [Call.Create m] ∧ m.OrderID = some d.OrderID := by
  unfold DeliveryRepository.Create at h
  cases hi : env.faults.insertDelivery with
  | some ei =>
    simp only [hi] at h
    split_ifs at h <;> simp at h
  | none =>
    simp only [hi] at h
    cases hins : sqlInsertDelivery env.deliveryID m w.db with
    | error e =>
      simp only [hins] at h
      split_ifs at h <;> simp at h
    | ok p =>
      obtain ⟨d1, db1⟩ := p
      simp only [hins] at h
      obtain ⟨h1, h2⟩ := Prod.mk.inj h
      have hd : d1 = d := Except.ok.inj h1
      subst hd
      subst h2
      unfold sqlInsertDelivery at hins
      split at hins
      · rename_i hcid hoid hca haa hdl
        split_ifs at hins
        obtain ⟨h3, h4⟩ := Prod.mk.inj (Except.ok.inj hins)
        subst h4
        subst h3
        simp [World.record, hoid]
      · simp at hins

theorem keysOk_courier_unique (db : DB) (hk : db.keysOk) (c u : Courier)
    (hc : c ∈ db.couriers) (hu : u ∈ db.couriers) (hid : u.ID = c.ID) : u = c :=
  List.inj_on_of_nodup_map hk.1 hu hc hid

theorem filter_key_eq_singleton {α β : Type} [DecidableEq β] (f : α → β) (l : List α)
    (hnd : (l.map f).Nodup) (d : α) (hd : d ∈ l) :
    l.filter (fun x => decide (f x = f d)) = [d] := by
  induction l with
  | nil => simp at hd
  | cons a t ih =>
    rw [List.map_cons, List.nodup_cons] at hnd
    rcases List.mem_cons.mp hd with h | h
    · subst h
      have ht : t.filter (fun x => decide (f x = f d)) = [] := by
        rw [List.filter_eq_nil_iff]
        intro x hx hEq
        apply hnd.1
        rw [List.mem_map]
        exact ⟨x, hx, by simpa using hEq⟩
      simp [List.filter_cons, ht]
    · have hne : f a ≠ f d := by
        intro hEq
        apply hnd.1
        rw [List.mem_map]
        exact ⟨d, h, hEq.symm⟩
      simp [List.filter_cons, hne, ih hnd.2 h]

theorem keysOk_order_unique (db : DB) (hk : db.keysOk) (d : Delivery) (hd : d ∈ db.delivery) :
    db.delivery.filter (fun d1 => decide (d1.OrderID = d.OrderID)) = [d] :=
  filter_key_eq_singleton (fun x => x.OrderID) db.delivery hk.2 d hd

theorem sqlSelectOwner_single (now : Time) (orderID : String) (db : DB) (d : Delivery)
    (h : db.delivery.filter (fun d1 => decide (d1.OrderID = orderID)) = [d]) :
    sqlSelectOwnerAndOtherActive now orderID db =
      [(d.CourierID, (otherActiveCount now db d.CourierID orderID : Int))] := by
  have hR : otherActiveCount now db d.CourierID orderID =
      ((db.delivery.filter (fun d2 =>
        decide (d2.CourierID = d.CourierID) && !decide (d2.OrderID = orderID))).filter
        (fun d2 => d2.isActive now)).length := by
    unfold otherActiveCount
    rw [List.filter_filter]
    congr 2
    funext x
    exact Bool.and_comm _ _
  rw [hR]
  unfold sqlSelectOwnerAndOtherActive
  rw [h]
  simp only [List.flatMap_cons, List.flatMap_nil, List.append_nil, List.map_cons, List.map_nil,
    List.dedup_cons_of_not_mem (List.not_mem_nil _), List.dedup_nil]
  generalize db.delivery.filter
    (fun d2 => decide (d2.CourierID = d.CourierID) && !decide (d2.OrderID = orderID)) = m
  cases m with
  | nil => simp [countActive]
  | cons a t =>
    have hall : (((a :: t).map (fun d2 => (d.CourierID, some d2))).filter
        (fun r => decide (r.1 = d.CourierID))) = (a :: t).map (fun d2 => (d.CourierID, some d2)) := by
      rw [List.filter_eq_self]
      intro r hr
      rw [List.mem_map] at hr
      obtain ⟨x, _, hx⟩ := hr
      rw [← hx]
      simp
    simp only [hall]
    simp only [countActive, List.map_map, List.countP_eq_length_filter, List.filter_map,
      List.length_map]
    rfl

theorem GetOwner_single (env : Env) (orderID : String) (w : World) (d : Delivery)
    (hs : env.faults.selectOwner = none)
    (h : w.db.delivery.filter (fun d1 => decide (d1.OrderID = orderID)) = [d]) :
    DeliveryRepository.GetCourierIDAndDeliveryCountByOrderIDForAssing env orderID w =
      (.ok (d.CourierID, (otherActiveCount env.sqlNow w.db d.CourierID orderID : Int)),
       w.record (Call.GetCourierIDAndDeliveryCountByOrderIDForAssing orderID)) := by
  unfold DeliveryRepository.GetCourierIDAndDeliveryCountByOrderIDForAssing
  simp [hs, scanRow, sqlSelectOwner_single env.sqlNow orderID w.db d h]

theorem DeliveryUnassign_eval (env : Env) (orderID : String) (w : World) (d : Delivery)
    (hv : isValidOrderID orderID = true)
    (hrow : w.db.delivery.filter (fun d1 => decide (d1.OrderID = orderID)) = [d])
    (hb : env.faults.beginTx = none) (hs : env.faults.selectOwner = none)
    (hdel : env.faults.deleteDelivery = none) (hu : env.faults.updateCourier = none)
    (hc : env.faults.commitTx = none) :
    DeliveryUnassign env orderID w =
      if otherActiveCount env.sqlNow w.db d.CourierID orderID > 0 then
        (.error ErrCourierHasActiveDeliveries,
         { db := w.db,
           log := w.log ++ [Call.TxDo,
             Call.GetCourierIDAndDeliveryCountByOrderIDForAssing orderID] })
      else
        match w.db.couriers.filter (fun x => decide (x.ID = d.CourierID)) with
        | [] =>
          (.error (.wrap "update courier status"
             (.wrap "failed to update courier" ErrCourierNotFound)),
           { db := w.db,
             log := w.log ++ [Call.TxDo,
               Call.GetCourierIDAndDeliveryCountByOrderIDForAssing orderID,
               Call.Delete orderID,
               Call.UpdateCourier (statusModify d.CourierID CourierAvailable)] })
        | u :: _ =>
          (.ok { CourierID := u.ID, OrderID := orderID, Status := CourierAvailable },
           { db := { couriers := setStatus env.sqlNow d.CourierID CourierAvailable w.db.couriers,
                     delivery := w.db.delivery.filter (fun x => !decide (x.OrderID = orderID)) },
             log := w.log ++ [Call.TxDo,
               Call.GetCourierIDAndDeliveryCountByOrderIDForAssing orderID,
               Call.Delete orderID,
               Call.UpdateCourier (statusModify d.CourierID CourierAvailable)] }) := by
  have hupd := fun (w : World) =>
    UpdateCourier_status env d.CourierID CourierAvailable w hu CourierAvailable_valid
  unfold statusModify at hupd
  have hget := GetOwner_single env orderID (w.record Call.TxDo) d hs hrow
  unfold DeliveryUnassign Manager.Do unassignTx
  simp only [hv, hb, hget]
  by_cases hcnt : otherActiveCount env.sqlNow w.db d.CourierID orderID > 0
  · have hcnt2 : otherActiveCount env.sqlNow (w.record Call.TxDo).db d.CourierID orderID > 0 := hcnt
    simp [hcnt, hcnt2, World.record]
  · have hcnt2 : ¬ otherActiveCount env.sqlNow (w.record Call.TxDo).db d.CourierID orderID > 0 :=
      hcnt
    have hcnt3 : ¬ ((otherActiveCount env.sqlNow (w.record Call.TxDo).db d.CourierID orderID : Int)
        > 0) := by
      simpa using hcnt2
    simp only [hcnt, hcnt3, if_false]
    unfold DeliveryRepository.Delete sqlDeleteDelivery
    simp only [hdel, World.record, hrow, hupd, hc]
    cases hrows : w.db.couriers.filter (fun x => decide (x.ID = d.CourierID)) with
    | nil => simp [hrows, statusModify]
    | cons u t => simp [hrows, statusModify]

theorem setStatus_status_of_id (now : Time) (courierID : Int) (status : String)
    (cs : List Courier) (x : Courier) (hx : x ∈ setStatus now courierID status cs)
    (hid : x.ID = courierID) : x.Status = status := by
  unfold setStatus at hx
  rw [List.mem_map] at hx
  obtain ⟨a, _, ha⟩ := hx
  by_cases h : a.ID = courierID
  · rw [if_pos h] at ha
    rw [← ha]
  · rw [if_neg h] at ha
    rw [← ha] at hid
    exact absurd hid h

theorem setStatus_mem_id (now : Time) (courierID : Int) (status : String)
    (cs : List Courier) (c : Courier) (hc : c ∈ cs) (hid : c.ID = courierID) :
    ∃ x ∈ setStatus now courierID status cs, x.ID = courierID := by
  unfold setStatus
  refine ⟨_, List.mem_map.mpr ⟨c, hc, rfl⟩, ?_⟩
  rw [if_pos hid]
  exact hid

theorem statuses_setStatus_roundtrip (n1 n2 : Time) (courierID : Int) (st0 st1 : String)
    (cs : List Courier) (h : ∀ x ∈ cs, x.ID = courierID → x.Status = st0) :
    (setStatus n2 courierID st0 (setStatus n1 courierID st1 cs)).map (fun c => (c.ID, c.Status)) =
      cs.map (fun c => (c.ID, c.Status)) := by
  unfold setStatus
  rw [List.map_map, List.map_map]
  apply List.map_congr_left
  intro x hx
  by_cases hid : x.ID = courierID
  · simp [hid, h x hx hid]
  · simp [hid]

/-! ## The claims -/

/-- Claim C1. In every state with at least one available courier (the selection query
executing), `GetCourierForAssignment` returns a courier `c` of the table whose status is
available, whose number of active deliveries (deadline not before `NOW()`) is least among
the available couriers, and whose id is least among the available couriers with that same
number; and every successful `DeliveryAssign` in that state binds exactly this courier: the
result carries its id and the delivery row appended is owned by it. -/
theorem assign_binds_least_loaded_available_courier (env : Env) (w : World)
    (hfault : env.faults.selectCourier = none)
    (havail : ∃ c ∈ w.db.couriers, c.Status = CourierAvailable) :
    ∃ c, (DeliveryRepository.GetCourierForAssignment env w).1 = .ok c ∧
      c ∈ w.db.couriers ∧ c.Status = CourierAvailable ∧
      (∀ c' ∈ w.db.couriers, c'.Status = CourierAvailable →
        activeDeliveryCount env.sqlNow w.db c.ID ≤ activeDeliveryCount env.sqlNow w.db c'.ID ∧
        (activeDeliveryCount env.sqlNow w.db c'.ID = activeDeliveryCount env.sqlNow w.db c.ID →
          c.ID ≤ c'.ID)) ∧
      (∀ orderID r w', DeliveryAssign env orderID w = (.ok r, w') →
        r.CourierID = c.ID ∧ w'.db.delivery = w.db.delivery ++ [assignedRow env orderID c]) := by
  obtain ⟨c, hsel, hcmem, hcst, hmin⟩ := sqlSelectCourierForAssignment_some env.sqlNow w.db havail
  refine ⟨c, ?_, hcmem, hcst, ?_, ?_⟩
  · unfold DeliveryRepository.GetCourierForAssignment
    simp [hfault, hsel, scanRow]
  · intro c' hc' hst'
    have := hmin c' hc' hst'
    simp only [assignmentOrder] at this
    constructor
    · omega
    · intro hEq
      omega
  · intro orderID r w' hok
    obtain ⟨c2, u, hsel2, _, _, _, _, _, _, hr, hw, _⟩ := DeliveryAssign_ok_inv env orderID w w' r hok
    have hcc : c2 = c := by
      rw [hsel] at hsel2
      simpa using hsel2.symm
    subst hcc
    constructor
    · rw [hr]
    · rw [hw]

/-- Claim C2. In every state without an available courier and for every valid order id,
`DeliveryAssign` returns no result but an error, leaves the database as it was and issues
neither the delivery insertion nor the courier update (after the transaction manager only
the selection query is called); when the transaction begins and the query executes, the
error wraps `ErrNoAvailableCouriers`, so `errors.Is` finds it. -/
theorem assign_without_available_courier (env : Env) (w : World) (orderID : String)
    (hv : isValidOrderID orderID = true)
    (hnone : ∀ c ∈ w.db.couriers, c.Status ≠ CourierAvailable) :
    (∃ e, (DeliveryAssign env orderID w).1 = .error e) ∧
    (DeliveryAssign env orderID w).2.db = w.db ∧
    ((DeliveryAssign env orderID w).2.log = w.log ++ [Call.TxDo] ∨
      (DeliveryAssign env orderID w).2.log =
        w.log ++ [Call.TxDo, Call.GetCourierForAssignment]) ∧
    (env.faults.beginTx = none → env.faults.selectCourier = none →
      DeliveryAssign env orderID w =
        (.error (.wrap "find courier for assignment" ErrNoAvailableCouriers),
         { db := w.db, log := w.log ++ [Call.TxDo, Call.GetCourierForAssignment] }) ∧
      errorsIs (.wrap "find courier for assignment" ErrNoAvailableCouriers)
        ErrNoAvailableCouriers = true) := by
  obtain ⟨e, he, hes⟩ := GetCourierForAssignment_unavailable env (w.record Call.TxDo) hnone
  have hform : DeliveryAssign env orderID w =
      match env.faults.beginTx with
      | some eb => (.error eb, w.record Call.TxDo)
      | none => (.error (.wrap "find courier for assignment" e),
                 { db := w.db, log := w.log ++ [Call.TxDo, Call.GetCourierForAssignment] }) := by
    unfold DeliveryAssign internalDeliveryAssign Manager.Do assignTx
    simp only [hv, he]
    cases env.faults.beginTx <;> simp [World.record]
  rw [hform]
  cases hb : env.faults.beginTx with
  | some eb => simp [World.record]
  | none =>
    refine ⟨⟨_, rfl⟩, rfl, Or.inr rfl, ?_⟩
    intro _ hs
    rw [hes hs]
    exact ⟨rfl, rfl⟩

/-- Claim C3 (amended). For every valid order id that already has a delivery row,
`DeliveryAssign` returns no result but an error, leaves the database as it was (no courier
status changes, no second delivery row) and never issues the courier update.  The error is
`ErrOrderAlreadyAssigned` (wrapped) when some courier is available and the statements up to
the insertion execute: the insertion is reached only after a courier was selected. -/
theorem assign_of_assigned_order (env : Env) (w : World) (orderID : String)
    (hv : isValidOrderID orderID = true)
    (hrow : ∃ d ∈ w.db.delivery, d.OrderID = orderID) :
    (∃ e, (DeliveryAssign env orderID w).1 = .error e) ∧
    (DeliveryAssign env orderID w).2.db = w.db ∧
    (∃ calls, (DeliveryAssign env orderID w).2.log = w.log ++ calls ∧
      ∀ m, Call.UpdateCourier m ∉ calls) ∧
    (env.faults.beginTx = none → env.faults.selectCourier = none →
      env.faults.insertDelivery = none →
      (∃ c ∈ w.db.couriers, c.Status = CourierAvailable) →
      ∃ c, DeliveryAssign env orderID w =
          (.error (.wrap "create delivery" ErrOrderAlreadyAssigned),
           { db := w.db,
             log := w.log ++ [Call.TxDo, Call.GetCourierForAssignment,
               Call.Create (assignModify env orderID c)] }) ∧
        errorsIs (.wrap "create delivery" ErrOrderAlreadyAssigned)
          ErrOrderAlreadyAssigned = true) := by
  have hlog := GetCourierForAssignment_log env (w.record Call.TxDo)
  cases hb : env.faults.beginTx with
  | some eb =>
    have hform : DeliveryAssign env orderID w = (.error eb, w.record Call.TxDo) := by
      unfold DeliveryAssign internalDeliveryAssign Manager.Do
      simp [hv, hb]
    rw [hform]
    exact ⟨⟨_, rfl⟩, rfl, ⟨[Call.TxDo], rfl, by simp⟩, by simp⟩
  | none =>
    rcases hg : DeliveryRepository.GetCourierForAssignment env (w.record Call.TxDo)
      with ⟨e1 | c, w1⟩
    · have hw1 : w1 = (w.record Call.TxDo).record Call.GetCourierForAssignment := by
        rw [hg] at hlog
        exact hlog
      have hform : DeliveryAssign env orderID w =
          (.error (.wrap "find courier for assignment" e1),
           { db := w.db, log := w.log ++ [Call.TxDo, Call.GetCourierForAssignment] }) := by
        unfold DeliveryAssign internalDeliveryAssign Manager.Do assignTx
        simp only [hv, hb, hg]
        simp [hw1, World.record]
      rw [hform]
      refine ⟨⟨_, rfl⟩, rfl, ⟨[Call.TxDo, Call.GetCourierForAssignment], rfl, by simp⟩, ?_⟩
      intro _ hs _ havail
      exfalso
      obtain ⟨c, hsel, _⟩ := sqlSelectCourierForAssignment_some env.sqlNow w.db havail
      unfold DeliveryRepository.GetCourierForAssignment at hg
      simp [hs, scanRow, World.record, hsel] at hg
    · have hw1 : w1 = (w.record Call.TxDo).record Call.GetCourierForAssignment := by
        rw [hg] at hlog
        exact hlog
      obtain ⟨e2, hcr, he2⟩ := Create_conflict env (assignModify env orderID c) w1 orderID rfl
        (by rw [hw1]; exact hrow)
      have hform : DeliveryAssign env orderID w =
          (.error (.wrap "create delivery" e2),
           { db := w.db,
             log := w.log ++ [Call.TxDo, Call.GetCourierForAssignment,
               Call.Create (assignModify env orderID c)] }) := by
        unfold assignModify at hcr
        unfold DeliveryAssign internalDeliveryAssign Manager.Do assignTx
        simp only [hv, hb, hg, hcr]
        simp [hw1, World.record, assignModify]
      rw [hform]
      refine ⟨⟨_, rfl⟩, rfl, ⟨_, rfl, by simp⟩, ?_⟩
      intro _ _ hi _
      refine ⟨c, ?_, rfl⟩
      rw [he2 hi rfl rfl rfl rfl]

/-- Claim C4. When, inside `DeliveryAssign`, the courier was selected, the delivery row was
inserted and the courier status update then fails with an error `e`, the function handed to
the transaction manager returns the non-nil error `update courier status: e`, and
`DeliveryAssign` returns no result and that same error, which wraps `e`; the transaction
being rolled back, the database after the call is the database before it: the inserted row
is gone and no courier changed. -/
theorem assign_update_failure_rolls_back (env : Env) (w w1 w2 w3 : World) (orderID : String)
    (c : Courier) (d : Delivery) (e : Err)
    (hv : isValidOrderID orderID = true)
    (hb : env.faults.beginTx = none)
    (hsel : DeliveryRepository.GetCourierForAssignment env (w.record Call.TxDo) = (.ok c, w1))
    (hcre : DeliveryRepository.Create env (assignModify env orderID c) w1 = (.ok d, w2))
    (hupd : CourierService.UpdateCourier env (statusModify c.ID CourierBusy) w2 = (.error e, w3)) :
    w2.db.delivery = w.db.delivery ++ [d] ∧
    assignTx env orderID (env.clock 0) DeliveryAssignment.zero (w.record Call.TxDo) =
      (some (.wrap "update courier status" e), DeliveryAssignment.zero, w3) ∧
    DeliveryAssign env orderID w =
      (.error (.wrap "update courier status" e), { db := w.db, log := w3.log }) ∧
    errorsIs (.wrap "update courier status" e) e = true := by
  have hlog := GetCourierForAssignment_log env (w.record Call.TxDo)
  rw [hsel] at hlog
  have hw1 : w1.db = w.db := by
    have := congrArg World.db hlog
    simpa [World.record] using this
  obtain ⟨hdel, _, _, _⟩ := Create_ok_inv env _ w1 w2 d hcre
  have htx : assignTx env orderID (env.clock 0) DeliveryAssignment.zero (w.record Call.TxDo) =
      (some (.wrap "update courier status" e), DeliveryAssignment.zero, w3) := by
    unfold assignModify at hcre
    unfold statusModify at hupd
    unfold assignTx
    simp only [hsel, hcre, hupd]
  refine ⟨?_, htx, ?_, errorsIs_wrap _ _ _ (errorsIs_refl e)⟩
  · rw [hdel, hw1]
  · unfold DeliveryAssign internalDeliveryAssign Manager.Do
    simp only [hv, hb, htx]
    simp

/-- Claim C5. `CalculateDeadline` adds 15 minutes to the base time for `on_foot`, 10 minutes
for `scooter`, 5 minutes for `car`, and 15 minutes for every other transport value. -/
theorem calculateDeadline_offsets (t : String) (b : Time) :
    CalculateDeadline OnFoot b = b + 15 * Minute ∧
    CalculateDeadline Scooter b = b + 10 * Minute ∧
    CalculateDeadline Car b = b + 5 * Minute ∧
    (t ≠ OnFoot → t ≠ Scooter → t ≠ Car → CalculateDeadline t b = b + 15 * Minute) := by
  refine ⟨?_, ?_, ?_, ?_⟩
  · simp [CalculateDeadline, mul_comm]
  · simp [CalculateDeadline, OnFoot, Scooter, mul_comm]
  · simp [CalculateDeadline, OnFoot, Scooter, Car, mul_comm]
  · intro h1 h2 h3
    simp [CalculateDeadline, h1, h2, h3, mul_comm]

/-- Claim C6 (amended). For every successful `DeliveryAssign` the deadline of the created
delivery is the clock reading taken for the deadline plus the offset of the bound courier's
transport, and its assignedAt is a second, later clock reading, both as the database keeps
them, truncated to the microsecond: deadline minus assignedAt equals the offset (10 minutes
for scooter, 5 for car, 15 for on_foot and every other value) minus the difference between
the two truncated readings, hence exactly the offset when the two readings fall in the same
microsecond. -/
theorem assign_deadline_minus_assignedAt (env : Env) (w w' : World) (orderID : String)
    (r : DeliveryAssignment) (hk : w.db.keysOk)
    (h : DeliveryAssign env orderID w = (.ok r, w')) :
    ∃ c d, c ∈ w.db.couriers ∧ c.ID = r.CourierID ∧ c.TransportType = r.TransportType ∧
      w'.db.delivery = w.db.delivery ++ [d] ∧ d.OrderID = orderID ∧ d.CourierID = c.ID ∧
      d.AssignedAt = pgTimestamp (env.clock 2) ∧ r.AssignedAt = d.AssignedAt ∧
      r.Deadline = d.Deadline ∧
      (c.TransportType = Scooter →
        d.Deadline - d.AssignedAt =
          10 * Minute - (pgTimestamp (env.clock 2) - pgTimestamp (env.clock 1))) ∧
      (c.TransportType = Car →
        d.Deadline - d.AssignedAt =
          5 * Minute - (pgTimestamp (env.clock 2) - pgTimestamp (env.clock 1))) ∧
      (c.TransportType ≠ Scooter → c.TransportType ≠ Car →
        d.Deadline - d.AssignedAt =
          15 * Minute - (pgTimestamp (env.clock 2) - pgTimestamp (env.clock 1))) := by
  obtain ⟨c, u, _, hcmem, _, _, humem, huid, _, hr, hw, _⟩ :=
    DeliveryAssign_ok_inv env orderID w w' r h
  have huc : u = c := keysOk_courier_unique w.db hk c u hcmem humem huid
  subst huc
  refine ⟨u, assignedRow env orderID u, hcmem, by rw [hr], by rw [hr], by rw [hw], rfl, rfl,
    rfl, by rw [hr]; rfl, by rw [hr]; rfl, ?_, ?_, ?_⟩
  · intro ht
    simp only [assignedRow, CalculateDeadline, ht, Scooter, OnFoot]
    simp
    rw [pgTimestamp_add_minutes]
    ring
  · intro ht
    simp only [assignedRow, CalculateDeadline, ht, Scooter, OnFoot, Car]
    simp
    rw [pgTimestamp_add_minutes]
    ring
  · intro h1 h2
    simp only [assignedRow, CalculateDeadline, if_neg h1, if_neg h2]
    split_ifs <;> rw [pgTimestamp_add_minutes] <;> ring

/-- Claim C7. An order id is rejected by `isValidOrderID` exactly when all its characters
are white space (the empty id included), and it passes as soon as one character is not.
For a rejected id each of `DeliveryAssign`, `DeliveryUnassign` and `FreeCourierByOrderID`
returns `ErrInvalidOrderID` and leaves the world untouched: the database is unchanged and no
call to the transaction manager, the repository or the courier service is logged. -/
theorem blank_orderID_rejected_before_any_call (env : Env) (w : World) (orderID : String) :
    (isValidOrderID orderID = true ↔ ∃ ch ∈ orderID.data, unicodeIsSpace ch = false) ∧
    ((∀ ch ∈ orderID.data, unicodeIsSpace ch = true) →
      DeliveryAssign env orderID w = (.error ErrInvalidOrderID, w) ∧
      DeliveryUnassign env orderID w = (.error ErrInvalidOrderID, w) ∧
      FreeCourierByOrderID env orderID w = (some ErrInvalidOrderID, w)) := by
  constructor
  · have h := isValidOrderID_eq_false orderID
    constructor
    · intro hvalid
      by_contra hno
      have hall : ∀ ch ∈ orderID.data, unicodeIsSpace ch = true := by
        intro ch hch
        by_contra hsp
        exact hno ⟨ch, hch, by simpa using hsp⟩
      rw [h.mpr hall] at hvalid
      exact Bool.false_ne_true hvalid
    · rintro ⟨ch, hch, hsp⟩
      by_contra hinv
      have hfalse : isValidOrderID orderID = false := by simpa using hinv
      have := h.mp hfalse ch hch
      rw [hsp] at this
      exact Bool.false_ne_true this
  · intro hall
    have hinv := (isValidOrderID_eq_false orderID).mpr hall
    simp [DeliveryAssign, DeliveryUnassign, FreeCourierByOrderID, hinv]

/-- Claim C8. When the courier owning the delivery of an order owns another delivery whose
deadline has not passed, `DeliveryUnassign` of that order returns no result but
`ErrCourierHasActiveDeliveries`; after the transaction manager only the lookup is called,
neither the delete nor the courier update, and the database (every delivery row, every
courier status) is what it was. -/
theorem unassign_refused_while_other_active (env : Env) (w : World) (orderID : String)
    (d d2 : Delivery)
    (hv : isValidOrderID orderID = true) (hk : w.db.keysOk)
    (hb : env.faults.beginTx = none) (hs : env.faults.selectOwner = none)
    (hd : d ∈ w.db.delivery) (hX : d.OrderID = orderID)
    (hd2 : d2 ∈ w.db.delivery) (h2c : d2.CourierID = d.CourierID)
    (h2o : d2.OrderID ≠ orderID) (h2a : d2.isActive env.sqlNow = true) :
    DeliveryUnassign env orderID w =
      (.error ErrCourierHasActiveDeliveries,
       { db := w.db,
         log := w.log ++ [Call.TxDo,
           Call.GetCourierIDAndDeliveryCountByOrderIDForAssing orderID] }) := by
  have hrow := keysOk_order_unique w.db hk d hd
  rw [hX] at hrow
  have hget := GetOwner_single env orderID (w.record Call.TxDo) d hs hrow
  have hcnt : (otherActiveCount env.sqlNow (w.record Call.TxDo).db d.CourierID orderID : Int)
      > 0 := by
    have hmem : d2 ∈ w.db.delivery.filter (fun x =>
        (decide (x.CourierID = d.CourierID) && !decide (x.OrderID = orderID)) &&
          x.isActive env.sqlNow) := by
      rw [List.mem_filter]
      exact ⟨hd2, by simp [h2c, h2o, h2a]⟩
    have hpos := List.length_pos_of_mem hmem
    have : 0 < otherActiveCount env.sqlNow w.db d.CourierID orderID := hpos
    exact_mod_cast this
  unfold DeliveryUnassign Manager.Do unassignTx
  simp only [hv, hb, hget, hcnt]
  simp [World.record]

/-- Claim C9. After a successful `DeliveryAssign` of an order, `DeliveryUnassign` of the same
order (its statements executing) succeeds if and only if the bound courier owns no other
active delivery.  When it succeeds it reports the courier with the new status `available`,
no delivery row of the order remains, the courier is available again, and the delivery rows
and the courier statuses are those from before the assignment.  When it fails the error is
`ErrCourierHasActiveDeliveries`, the database is untouched and the courier stays busy. -/
theorem assign_then_unassign (env1 env2 : Env) (w0 w1 : World) (orderID : String)
    (r1 : DeliveryAssignment) (hk : w0.db.keysOk)
    (hassign : DeliveryAssign env1 orderID w0 = (.ok r1, w1))
    (hb : env2.faults.beginTx = none) (hs : env2.faults.selectOwner = none)
    (hdel : env2.faults.deleteDelivery = none) (hu : env2.faults.updateCourier = none)
    (hc : env2.faults.commitTx = none) :
    ((∃ r2 w2, DeliveryUnassign env2 orderID w1 = (.ok r2, w2)) ↔
      otherActiveCount env2.sqlNow w1.db r1.CourierID orderID = 0) ∧
    (otherActiveCount env2.sqlNow w1.db r1.CourierID orderID = 0 →
      ∃ w2, DeliveryUnassign env2 orderID w1 =
          (.ok { CourierID := r1.CourierID, OrderID := orderID, Status := CourierAvailable }, w2) ∧
        (∀ d ∈ w2.db.delivery, d.OrderID ≠ orderID) ∧
        (∀ c ∈ w2.db.couriers, c.ID = r1.CourierID → c.Status = CourierAvailable) ∧
        w2.db.delivery = w0.db.delivery ∧ w2.db.statuses = w0.db.statuses) ∧
    (otherActiveCount env2.sqlNow w1.db r1.CourierID orderID ≠ 0 →
      ∃ w2, DeliveryUnassign env2 orderID w1 = (.error ErrCourierHasActiveDeliveries, w2) ∧
        w2.db = w1.db ∧ (∃ c ∈ w2.db.couriers, c.ID = r1.CourierID) ∧
        ∀ c ∈ w2.db.couriers, c.ID = r1.CourierID → c.Status = CourierBusy) := by
  obtain ⟨hv, _⟩ := DeliveryAssign_ok_faults env1 orderID w0 r1 (by rw [hassign])
  obtain ⟨c, u, _, hcmem, hcst, _, humem, huid, hfresh, hr, hw, _⟩ :=
    DeliveryAssign_ok_inv env1 orderID w0 w1 r1 hassign
  have hrid : r1.CourierID = c.ID := by rw [hr]
  have hfilter0 : w0.db.delivery.filter (fun d1 => decide (d1.OrderID = orderID)) = [] := by
    rw [List.filter_eq_nil_iff]
    intro d hd
    simpa using hfresh d hd
  have hrow : w1.db.delivery.filter (fun d1 => decide (d1.OrderID = orderID)) =
      [assignedRow env1 orderID c] := by
    rw [hw]
    simp [List.filter_append, hfilter0, assignedRow]
  have heval := DeliveryUnassign_eval env2 orderID w1 (assignedRow env1 orderID c) hv hrow
    hb hs hdel hu hc
  have hcid : (assignedRow env1 orderID c).CourierID = c.ID := rfl
  rw [hcid] at heval
  rw [hrid]
  have hcouriers : w1.db.couriers = setStatus env1.sqlNow c.ID CourierBusy w0.db.couriers := by
    rw [hw]
  have hbusy : ∀ x ∈ w1.db.couriers, x.ID = c.ID → x.Status = CourierBusy := by
    intro x hx hid
    rw [hcouriers] at hx
    exact setStatus_status_of_id _ _ _ _ x hx hid
  have hex : ∃ x ∈ w1.db.couriers, x.ID = c.ID := by
    rw [hcouriers]
    exact setStatus_mem_id _ _ _ _ c hcmem rfl
  have hfail : otherActiveCount env2.sqlNow w1.db c.ID orderID ≠ 0 →
      DeliveryUnassign env2 orderID w1 =
        (.error ErrCourierHasActiveDeliveries,
         { db := w1.db,
           log := w1.log ++ [Call.TxDo,
             Call.GetCourierIDAndDeliveryCountByOrderIDForAssing orderID] }) := by
    intro hne
    rw [heval, if_pos (Nat.pos_of_ne_zero hne)]
  have hsucc : otherActiveCount env2.sqlNow w1.db c.ID orderID = 0 →
      DeliveryUnassign env2 orderID w1 =
        (.ok { CourierID := c.ID, OrderID := orderID, Status := CourierAvailable },
         { db := { couriers := setStatus env2.sqlNow c.ID CourierAvailable w1.db.couriers,
                   delivery := w1.db.delivery.filter (fun x => !decide (x.OrderID = orderID)) },
           log := w1.log ++ [Call.TxDo,
             Call.GetCourierIDAndDeliveryCountByOrderIDForAssing orderID,
             Call.Delete orderID,
             Call.UpdateCourier (statusModify c.ID CourierAvailable)] }) := by
    intro hz
    rw [heval, if_neg (by omega)]
    obtain ⟨x, hx, hxid⟩ := hex
    cases hrows : w1.db.couriers.filter (fun y => decide (y.ID = c.ID)) with
    | nil =>
      have : x ∈ w1.db.couriers.filter (fun y => decide (y.ID = c.ID)) := by
        rw [List.mem_filter]
        exact ⟨hx, by simpa using hxid⟩
      rw [hrows] at this
      simp at this
    | cons v t =>
      have hv_mem : v ∈ w1.db.couriers.filter (fun y => decide (y.ID = c.ID)) := by
        rw [hrows]
        exact List.mem_cons_self _ _
      rw [List.mem_filter] at hv_mem
      have hvid : v.ID = c.ID := by simpa using hv_mem.2
      simp only [hvid]
  refine ⟨?_, ?_, ?_⟩
  · constructor
    · rintro ⟨r2, w2, hok⟩
      by_contra hne
      rw [hfail hne] at hok
      simp at hok
    · intro hz
      exact ⟨_, _, hsucc hz⟩
  · intro hz
    refine ⟨_, hsucc hz, ?_, ?_, ?_, ?_⟩
    · intro d hd
      simp only [List.mem_filter] at hd
      simpa using hd.2
    · intro x hx hid
      exact setStatus_status_of_id _ _ _ _ x hx hid
    · simp only [hw]
      simp [List.filter_append, assignedRow]
      intro d hd
      exact hfresh d hd
    · simp only [DB.statuses, hcouriers]
      apply statuses_setStatus_roundtrip
      intro x hx hid
      have := keysOk_courier_unique w0.db hk c x hcmem hx hid
      rw [this]
      exact hcst
  · intro hne
    exact ⟨_, hfail hne, rfl, hex, hbusy⟩

/-- Claim C10. In a serial execution of two `DeliveryAssign` calls, the second running on the
state the first one committed with nothing in between, two successful calls never bind the
same courier: the courier returned by the second call differs from the courier returned by
the first. -/
theorem serial_assigns_bind_distinct_couriers (env1 env2 : Env) (w0 w1 w2 : World)
    (order1 order2 : String) (r1 r2 : DeliveryAssignment)
    (h1 : DeliveryAssign env1 order1 w0 = (.ok r1, w1))
    (h2 : DeliveryAssign env2 order2 w1 = (.ok r2, w2)) :
    r2.CourierID ≠ r1.CourierID := by
  obtain ⟨c1, _, _, _, _, _, _, _, _, hr1, hw1, _⟩ :=
    DeliveryAssign_ok_inv env1 order1 w0 w1 r1 h1
  obtain ⟨c2, _, _, hc2mem, hc2st, _, _, _, _, hr2, _, _⟩ :=
    DeliveryAssign_ok_inv env2 order2 w1 w2 r2 h2
  rw [hr1, hr2]
  intro hEq
  have hEq2 : c2.ID = c1.ID := hEq
  rw [hw1] at hc2mem
  have hbusy := setStatus_status_of_id _ _ _ _ c2 hc2mem hEq2
  rw [hc2st] at hbusy
  exact absurd hbusy (by decide)

/-! ## Instances of the claims on concrete states -/

/-- Witness of C1 on the fixture of the repository test: the hypotheses hold there. -/
theorem assign_binds_least_loaded_available_courier_witness :
    envOk.faults.selectCourier = none ∧
    (∃ c ∈ wLoad.db.couriers, c.Status = CourierAvailable) ∧
    ∃ c, (DeliveryRepository.GetCourierForAssignment envOk wLoad).1 = .ok c ∧
      c ∈ wLoad.db.couriers ∧ c.Status = CourierAvailable ∧
      (∀ c' ∈ wLoad.db.couriers, c'.Status = CourierAvailable →
        activeDeliveryCount envOk.sqlNow wLoad.db c.ID ≤
          activeDeliveryCount envOk.sqlNow wLoad.db c'.ID ∧
        (activeDeliveryCount envOk.sqlNow wLoad.db c'.ID =
            activeDeliveryCount envOk.sqlNow wLoad.db c.ID → c.ID ≤ c'.ID)) ∧
      (∀ orderID r w', DeliveryAssign envOk orderID wLoad = (.ok r, w') →
        r.CourierID = c.ID ∧
          w'.db.delivery = wLoad.db.delivery ++ [assignedRow envOk orderID c]) :=
  ⟨rfl, ⟨mkCourier 1 "available" "on_foot", by decide, rfl⟩,
    assign_binds_least_loaded_available_courier envOk wLoad rfl
      ⟨mkCourier 1 "available" "on_foot", by decide, rfl⟩⟩

/-- Witness of C2 on the state with one busy and one paused courier. -/
theorem assign_without_available_courier_witness :
    isValidOrderID "order-2" = true ∧
    (∀ c ∈ wNoAvail.db.couriers, c.Status ≠ CourierAvailable) ∧
    ((∃ e, (DeliveryAssign envOk "order-2" wNoAvail).1 = .error e) ∧
     (DeliveryAssign envOk "order-2" wNoAvail).2.db = wNoAvail.db ∧
     ((DeliveryAssign envOk "order-2" wNoAvail).2.log = wNoAvail.log ++ [Call.TxDo] ∨
       (DeliveryAssign envOk "order-2" wNoAvail).2.log =
         wNoAvail.log ++ [Call.TxDo, Call.GetCourierForAssignment]) ∧
     (envOk.faults.beginTx = none → envOk.faults.selectCourier = none →
       DeliveryAssign envOk "order-2" wNoAvail =
         (.error (.wrap "find courier for assignment" ErrNoAvailableCouriers),
          { db := wNoAvail.db,
            log := wNoAvail.log ++ [Call.TxDo, Call.GetCourierForAssignment] }) ∧
       errorsIs (.wrap "find courier for assignment" ErrNoAvailableCouriers)
         ErrNoAvailableCouriers = true)) :=
  ⟨by decide, by decide,
    assign_without_available_courier envOk wNoAvail "order-2" (by decide) (by decide)⟩

/-- Counterexample to C3 as stated (example scenario 3 of the spec with a single courier):
after `order-3` was assigned to the only courier, a delivery row exists for it, and assigning
`order-3` again fails with `ErrNoAvailableCouriers`, which is not `ErrOrderAlreadyAssigned`. -/
theorem reassign_with_single_courier_is_not_already_assigned :
    (∃ d ∈ (DeliveryAssign envOk "order-3" wOne).2.db.delivery, d.OrderID = "order-3") ∧
    (DeliveryAssign envNext "order-3" (DeliveryAssign envOk "order-3" wOne).2).1 =
      .error (.wrap "find courier for assignment" ErrNoAvailableCouriers) ∧
    errorsIs (.wrap "find courier for assignment" ErrNoAvailableCouriers)
      ErrOrderAlreadyAssigned = false := by
  decide

/-- Witness of C3 (amended): `order-1` already has a delivery row in the fixture. -/
theorem assign_of_assigned_order_witness :
    isValidOrderID "order-1" = true ∧
    (∃ d ∈ wLoad.db.delivery, d.OrderID = "order-1") ∧
    ((∃ e, (DeliveryAssign envOk "order-1" wLoad).1 = .error e) ∧
     (DeliveryAssign envOk "order-1" wLoad).2.db = wLoad.db ∧
     (∃ calls, (DeliveryAssign envOk "order-1" wLoad).2.log = wLoad.log ++ calls ∧
       ∀ m, Call.UpdateCourier m ∉ calls) ∧
     (envOk.faults.beginTx = none → envOk.faults.selectCourier = none →
       envOk.faults.insertDelivery = none →
       (∃ c ∈ wLoad.db.couriers, c.Status = CourierAvailable) →
       ∃ c, DeliveryAssign envOk "order-1" wLoad =
           (.error (.wrap "create delivery" ErrOrderAlreadyAssigned),
            { db := wLoad.db,
              log := wLoad.log ++ [Call.TxDo, Call.GetCourierForAssignment,
                Call.Create (assignModify envOk "order-1" c)] }) ∧
         errorsIs (.wrap "create delivery" ErrOrderAlreadyAssigned)
           ErrOrderAlreadyAssigned = true)) :=
  ⟨by decide, by decide,
    assign_of_assigned_order envOk wLoad "order-1" (by decide) (by decide)⟩

/-- Witness of C4: with a single available courier and a driver failure of the courier
update, the row of `order-1` is inserted inside the transaction and gone after it. -/
theorem assign_update_failure_rolls_back_witness :
    (DeliveryAssign envUpdateFails "order-1" wOne).2.db = wOne.db ∧
    (DeliveryAssign envUpdateFails "order-1" wOne).1 =
      .error (.wrap "update courier status" (.wrap "failed to update courier"
        (.wrap "unexpected courier repository update error"
          (.other "courier service unavailable")))) :=
  have h := assign_update_failure_rolls_back envUpdateFails wOne
    (DeliveryRepository.GetCourierForAssignment envUpdateFails (wOne.record Call.TxDo)).2
    (DeliveryRepository.Create envUpdateFails
      (assignModify envUpdateFails "order-1" (mkCourier 1 "available" "car"))
      (DeliveryRepository.GetCourierForAssignment envUpdateFails (wOne.record Call.TxDo)).2).2
    (CourierService.UpdateCourier envUpdateFails (statusModify 1 CourierBusy)
      (DeliveryRepository.Create envUpdateFails
        (assignModify envUpdateFails "order-1" (mkCourier 1 "available" "car"))
        (DeliveryRepository.GetCourierForAssignment envUpdateFails
          (wOne.record Call.TxDo)).2).2).2
    "order-1" (mkCourier 1 "available" "car")
    (assignedRow envUpdateFails "order-1" (mkCourier 1 "available" "car"))
    (.wrap "failed to update courier" (.wrap "unexpected courier repository update error"
      (.other "courier service unavailable")))
    (by decide) rfl (by decide) (by decide) (by decide)
  ⟨by rw [h.2.2.1], by rw [h.2.2.1]⟩

/-- Witness of the last clause of C5 at an unrecognized transport value. -/
theorem calculateDeadline_offsets_witness :
    CalculateDeadline "bicycle" 0 = 0 + 15 * Minute :=
  (calculateDeadline_offsets "bicycle" 0).2.2.2 (by decide) (by decide) (by decide)

/-- Counterexample to C6 as stated: the scooter courier of the fixture is bound with the
clock reading 6400 ns for the deadline and 7400 ns for assignedAt, which the database keeps
as 6 and 7 microseconds, so deadline minus assignedAt is one microsecond short of
10 minutes. -/
theorem assign_deadline_offset_not_exact :
    ∃ r, (DeliveryAssign envApart "order-9" wLoad).1 = .ok r ∧ r.TransportType = Scooter ∧
      r.Deadline - r.AssignedAt = 10 * Minute - 1000 ∧
      r.Deadline - r.AssignedAt ≠ 10 * Minute :=
  ⟨{ CourierID := 2, OrderID := "order-9", AssignedAt := 7000, Deadline := 6000 + 10 * Minute,
     TransportType := "scooter" }, by decide, by decide, by decide, by decide⟩

/-- Witness of C6 (amended) on the fixture: with the readings 51 ns and 52 ns, which fall in
the same microsecond, the difference is exactly 10 minutes. -/
theorem assign_deadline_minus_assignedAt_witness :
    wLoad.db.keysOk ∧
    (∃ c d, c ∈ wLoad.db.couriers ∧ c.ID = 2 ∧ c.TransportType = "scooter" ∧
      (DeliveryAssign envOk "order-9" wLoad).2.db.delivery = wLoad.db.delivery ++ [d] ∧
      d.Deadline - d.AssignedAt =
        10 * Minute - (pgTimestamp (envOk.clock 2) - pgTimestamp (envOk.clock 1))) ∧
    pgTimestamp (envOk.clock 2) - pgTimestamp (envOk.clock 1) = 0 :=
  have h := assign_deadline_minus_assignedAt envOk wLoad (DeliveryAssign envOk "order-9" wLoad).2
    "order-9"
    { CourierID := 2, OrderID := "order-9", AssignedAt := 0, Deadline := 10 * Minute,
      TransportType := "scooter" }
    (by decide) (by decide)
  ⟨by decide, by
    obtain ⟨c, d, h1, h2, h3, h4, _, _, _, _, _, h10, _, _⟩ := h
    exact ⟨c, d, h1, h2, h3, h4, h10 h3⟩, by decide⟩

/-- Witness of C7 on an order id of three spaces. -/
theorem blank_orderID_rejected_before_any_call_witness :
    (∀ ch ∈ "   ".data, unicodeIsSpace ch = true) ∧
    DeliveryAssign envOk "   " wLoad = (.error ErrInvalidOrderID, wLoad) ∧
    DeliveryUnassign envOk "   " wLoad = (.error ErrInvalidOrderID, wLoad) ∧
    FreeCourierByOrderID envOk "   " wLoad = (some ErrInvalidOrderID, wLoad) :=
  ⟨by decide, (blank_orderID_rejected_before_any_call envOk wLoad "   ").2 (by decide)⟩

/-- Witness of C8 on example scenario 4 of the spec: the courier owns `O1` and `O2`, both
active, and `O1` is to be unassigned. -/
theorem unassign_refused_while_other_active_witness :
    isValidOrderID "O1" = true ∧ wTwo.db.keysOk ∧
    mkDelivery 1 1 "O1" 100 ∈ wTwo.db.delivery ∧ mkDelivery 2 1 "O2" 100 ∈ wTwo.db.delivery ∧
    (mkDelivery 2 1 "O2" 100).isActive envOk.sqlNow = true ∧
    DeliveryUnassign envOk "O1" wTwo =
      (.error ErrCourierHasActiveDeliveries,
       { db := wTwo.db,
         log := wTwo.log ++ [Call.TxDo,
           Call.GetCourierIDAndDeliveryCountByOrderIDForAssing "O1"] }) :=
  ⟨by decide, by decide, by decide, by decide, by decide,
    unassign_refused_while_other_active envOk wTwo "O1" (mkDelivery 1 1 "O1" 100)
      (mkDelivery 2 1 "O2" 100) (by decide) (by decide) rfl rfl (by decide) rfl (by decide) rfl
      (by decide) (by decide)⟩

/-- Witness of C9: the single courier of scenario 1 is bound to `order-1` and released again;
it owns no other delivery, so the unassignment succeeds and restores the state. -/
theorem assign_then_unassign_witness :
    wOne.db.keysOk ∧
    DeliveryAssign envOk "order-1" wOne =
      (.ok { CourierID := 1, OrderID := "order-1", AssignedAt := 0, Deadline := 5 * Minute,
             TransportType := "car" },
       (DeliveryAssign envOk "order-1" wOne).2) ∧
    otherActiveCount envNext.sqlNow (DeliveryAssign envOk "order-1" wOne).2.db 1 "order-1" = 0 ∧
    ∃ w2, DeliveryUnassign envNext "order-1" (DeliveryAssign envOk "order-1" wOne).2 =
        (.ok { CourierID := 1, OrderID := "order-1", Status := CourierAvailable }, w2) ∧
      (∀ d ∈ w2.db.delivery, d.OrderID ≠ "order-1") ∧
      (∀ c ∈ w2.db.couriers, c.ID = 1 → c.Status = CourierAvailable) ∧
      w2.db.delivery = wOne.db.delivery ∧ w2.db.statuses = wOne.db.statuses :=
  ⟨by decide, by decide, by decide,
    (assign_then_unassign envOk envNext wOne (DeliveryAssign envOk "order-1" wOne).2 "order-1"
      { CourierID := 1, OrderID := "order-1", AssignedAt := 0, Deadline := 5 * Minute,
        TransportType := "car" }
      (by decide) (by decide) rfl rfl rfl rfl rfl).2.1 (by decide)⟩

/-- Witness of C10 on the fixture: `order-9` is bound to courier 2 and then `order-10` to
courier 1. -/
theorem serial_assigns_bind_distinct_couriers_witness :
    DeliveryAssign envOk "order-9" wLoad =
      (.ok { CourierID := 2, OrderID := "order-9", AssignedAt := 0, Deadline := 10 * Minute,
             TransportType := "scooter" },
       (DeliveryAssign envOk "order-9" wLoad).2) ∧
    DeliveryAssign envNext "order-10" (DeliveryAssign envOk "order-9" wLoad).2 =
      (.ok { CourierID := 1, OrderID := "order-10", AssignedAt := 0,
             Deadline := 15 * Minute, TransportType := "on_foot" },
       (DeliveryAssign envNext "order-10" (DeliveryAssign envOk "order-9" wLoad).2).2) ∧
    (1 : Int) ≠ 2 :=
  ⟨by decide, by decide,
    serial_assigns_bind_distinct_couriers envOk envNext wLoad
      (DeliveryAssign envOk "order-9" wLoad).2
      (DeliveryAssign envNext "order-10" (DeliveryAssign envOk "order-9" wLoad).2).2
      "order-9" "order-10"
      { CourierID := 2, OrderID := "order-9", AssignedAt := 0, Deadline := 10 * Minute,
        TransportType := "scooter" }
      { CourierID := 1, OrderID := "order-10", AssignedAt := 0, Deadline := 15 * Minute,
        TransportType := "on_foot" }
      (by decide) (by decide)⟩

/-! ## Expiry reaper -/

theorem CleanupExpiredDeliveries_eval (env : Env) (w : World)
    (hf : env.faults.updateExpired = none) :
    CleanupExpiredDeliveries env w =
      (.ok ((sqlUpdateCouriersExpired env.sqlNow w.db).1 : Int),
       { db := (sqlUpdateCouriersExpired env.sqlNow w.db).2,
         log := w.log ++ [Call.UpdateCouriersAvailableWhereDeadlineExpired] }) := by
  unfold CleanupExpiredDeliveries DeliveryRepository.UpdateCouriersAvailableWhereDeadlineExpired
  simp [hf, World.record]

theorem expiredBusy_iff (now : Time) (db : DB) (c : Courier) :
    expiredBusy now db.delivery c = true ↔ busyWithExpired now db c := by
  unfold expiredBusy busyWithExpired Delivery.isExpired
  simp [CourierBusy, List.any_eq_true]

theorem sqlUpdateCouriersExpired_rows (now : Time) (db : DB) :
    List.Forall₂ (fun c c' =>
        c'.ID = c.ID ∧
        (busyWithExpired now db c → c'.Status = CourierAvailable) ∧
        (¬ busyWithExpired now db c → c' = c))
      db.couriers (sqlUpdateCouriersExpired now db).2.couriers := by
  unfold sqlUpdateCouriersExpired
  rw [List.forall₂_map_right_iff, List.forall₂_same]
  intro c _
  by_cases h : expiredBusy now db.delivery c = true
  · have hb := (expiredBusy_iff now db c).mp h
    simp [h, hb, CourierAvailable]
  · have hb : ¬ busyWithExpired now db c := fun hb => h ((expiredBusy_iff now db c).mpr hb)
    simp [h, hb]

theorem sqlUpdateCouriersExpired_settled (now : Time) (db : DB) (c : Courier)
    (hc : c ∈ (sqlUpdateCouriersExpired now db).2.couriers) :
    expiredBusy now (sqlUpdateCouriersExpired now db).2.delivery c = false := by
  unfold sqlUpdateCouriersExpired at hc ⊢
  simp only [List.mem_map] at hc
  obtain ⟨a, _, ha⟩ := hc
  by_cases h : expiredBusy now db.delivery a = true
  · rw [if_pos h] at ha
    rw [← ha]
    simp [expiredBusy]
  · rw [if_neg h] at ha
    rw [← ha]
    simpa using h

theorem sqlUpdateCouriersExpired_of_settled (now : Time) (db : DB)
    (h : ∀ c ∈ db.couriers, expiredBusy now db.delivery c = false) :
    sqlUpdateCouriersExpired now db = (0, db) := by
  unfold sqlUpdateCouriersExpired
  have hfilter : db.couriers.filter (expiredBusy now db.delivery) = [] := by
    rw [List.filter_eq_nil_iff]
    intro c hc
    simp [h c hc]
  have hmap : db.couriers.map (fun c =>
      if expiredBusy now db.delivery c then
        ({ ID := c.ID, Name := c.Name, Phone := c.Phone, Status := "available",
           TransportType := c.TransportType, CreatedAt := c.CreatedAt, UpdatedAt := now } : Courier)
      else c) = db.couriers := by
    conv_rhs => rw [← List.map_id db.couriers]
    apply List.map_congr_left
    intro c hc
    simp [h c hc]
  rw [hfilter, hmap]
  rfl

theorem zip_map_right_self {α β : Type} (f : α → β) (l : List α) :
    l.zip (l.map f) = l.map (fun c => (c, f c)) := by
  induction l with
  | nil => rfl
  | cons a t ih => simp [ih]

/-- Claim C11 (amended). `CleanupExpiredDeliveries` (the bulk update executing) changes the
status of a courier exactly when the courier is busy and owns at least one delivery whose
deadline is strictly before `NOW()`, and the new status is then available; every other row
of the couriers table, in particular every courier that is not busy, is left as it was.  The
rows of the table before and after correspond position by position. -/
theorem reap_releases_exactly_busy_with_expired (env : Env) (w : World)
    (hf : env.faults.updateExpired = none) :
    List.Forall₂ (fun c c' =>
        c'.ID = c.ID ∧
        (c'.Status ≠ c.Status ↔ busyWithExpired env.sqlNow w.db c) ∧
        (busyWithExpired env.sqlNow w.db c → c'.Status = CourierAvailable) ∧
        (¬ busyWithExpired env.sqlNow w.db c → c' = c))
      w.db.couriers (CleanupExpiredDeliveries env w).2.db.couriers := by
  rw [CleanupExpiredDeliveries_eval env w hf]
  refine (sqlUpdateCouriersExpired_rows env.sqlNow w.db).imp ?_
  rintro c c' ⟨hid, hyes, hno⟩
  refine ⟨hid, ?_, hyes, hno⟩
  constructor
  · intro hne
    by_contra hb
    exact hne (by rw [hno hb])
  · intro hb
    rw [hyes hb, hb.1]
    decide

/-- Claim C12. `CleanupExpiredDeliveries` (the bulk update executing) sets to available every
busy courier owning at least one delivery whose deadline is strictly before `NOW()`, whatever
else that courier owns, leaves every other courier row unchanged, leaves the delivery table
unchanged, and returns exactly the number of couriers whose status it changed. -/
theorem reap_bulk_update (env : Env) (w : World) (hf : env.faults.updateExpired = none) :
    ∃ n w', CleanupExpiredDeliveries env w = (.ok n, w') ∧
      w'.db.delivery = w.db.delivery ∧
      w'.db.couriers.length = w.db.couriers.length ∧
      (∀ p ∈ w.db.couriers.zip w'.db.couriers,
        p.2.ID = p.1.ID ∧
        (busyWithExpired env.sqlNow w.db p.1 → p.2.Status = CourierAvailable) ∧
        (¬ busyWithExpired env.sqlNow w.db p.1 → p.2 = p.1)) ∧
      n = (((w.db.couriers.zip w'.db.couriers).filter
        (fun p => decide (p.1.Status ≠ p.2.Status))).length : Int) := by
  refine ⟨_, _, CleanupExpiredDeliveries_eval env w hf, rfl, ?_, ?_, ?_⟩
  · simp [sqlUpdateCouriersExpired]
  · have hrows := sqlUpdateCouriersExpired_rows env.sqlNow w.db
    intro p hp
    exact List.forall₂_zip hrows hp
  · simp only [sqlUpdateCouriersExpired, zip_map_right_self, List.filter_map, List.length_map]
    congr 2
    apply List.filter_congr
    intro c _
    by_cases h : expiredBusy env.sqlNow w.db.delivery c = true
    · have hb := (expiredBusy_iff env.sqlNow w.db c).mp h
      simp [h, hb.1, CourierBusy]
    · simp [h]

/-- Claim C13. `CleanupExpiredDeliveries` is idempotent (the bulk update executing): in a
state where no busy courier owns an expired delivery it returns 0 and leaves the database as
it was; and in every state a second run at the same instant directly after a first one
returns 0 and leaves the database produced by the first unchanged. -/
theorem reap_idempotent (env : Env) (w : World) (hf : env.faults.updateExpired = none) :
    ((∀ c ∈ w.db.couriers, ¬ busyWithExpired env.sqlNow w.db c) →
      (CleanupExpiredDeliveries env w).1 = .ok 0 ∧
      (CleanupExpiredDeliveries env w).2.db = w.db) ∧
    (CleanupExpiredDeliveries env (CleanupExpiredDeliveries env w).2).1 = .ok 0 ∧
    (CleanupExpiredDeliveries env (CleanupExpiredDeliveries env w).2).2.db =
      (CleanupExpiredDeliveries env w).2.db := by
  constructor
  · intro hnone
    have hsettled : ∀ c ∈ w.db.couriers, expiredBusy env.sqlNow w.db.delivery c = false := by
      intro c hc
      by_contra h
      exact hnone c hc ((expiredBusy_iff env.sqlNow w.db c).mp (by simpa using h))
    rw [CleanupExpiredDeliveries_eval env w hf,
      sqlUpdateCouriersExpired_of_settled env.sqlNow w.db hsettled]
    exact ⟨rfl, rfl⟩
  · rw [CleanupExpiredDeliveries_eval env _ hf, CleanupExpiredDeliveries_eval env w hf]
    have h2 := sqlUpdateCouriersExpired_of_settled env.sqlNow
      (sqlUpdateCouriersExpired env.sqlNow w.db).2
      (fun c hc => sqlUpdateCouriersExpired_settled env.sqlNow w.db c hc)
    simp [h2]

/-! ## The engine operations step by step -/

theorem DeliveryAssign_begin_fails (env : Env) (orderID : String) (w : World) (e : Err)
    (hv : isValidOrderID orderID = true) (hb : env.faults.beginTx = some e) :
    DeliveryAssign env orderID w = (.error e, w.record Call.TxDo) := by
  unfold DeliveryAssign internalDeliveryAssign Manager.Do
  simp [hv, hb]

theorem DeliveryAssign_select_fails (env : Env) (orderID : String) (w w1 : World) (e : Err)
    (hv : isValidOrderID orderID = true) (hb : env.faults.beginTx = none)
    (hsel : DeliveryRepository.GetCourierForAssignment env (w.record Call.TxDo) = (.error e, w1)) :
    DeliveryAssign env orderID w =
      (.error (.wrap "find courier for assignment" e), { db := w.db, log := w1.log }) := by
  unfold DeliveryAssign internalDeliveryAssign Manager.Do assignTx
  simp only [hv, hb, hsel]
  simp

theorem DeliveryAssign_create_fails (env : Env) (orderID : String) (w w1 w2 : World)
    (c : Courier) (e : Err)
    (hv : isValidOrderID orderID = true) (hb : env.faults.beginTx = none)
    (hsel : DeliveryRepository.GetCourierForAssignment env (w.record Call.TxDo) = (.ok c, w1))
    (hcre : DeliveryRepository.Create env (assignModify env orderID c) w1 = (.error e, w2)) :
    DeliveryAssign env orderID w =
      (.error (.wrap "create delivery" e), { db := w.db, log := w2.log }) := by
  unfold assignModify at hcre
  unfold DeliveryAssign internalDeliveryAssign Manager.Do assignTx
  simp only [hv, hb, hsel, hcre]
  simp

theorem DeliveryAssign_update_fails (env : Env) (orderID : String) (w w1 w2 w3 : World)
    (c : Courier) (d : Delivery) (e : Err)
    (hv : isValidOrderID orderID = true) (hb : env.faults.beginTx = none)
    (hsel : DeliveryRepository.GetCourierForAssignment env (w.record Call.TxDo) = (.ok c, w1))
    (hcre : DeliveryRepository.Create env (assignModify env orderID c) w1 = (.ok d, w2))
    (hupd : CourierService.UpdateCourier env (statusModify c.ID CourierBusy) w2 = (.error e, w3)) :
    DeliveryAssign env orderID w =
      (.error (.wrap "update courier status" e), { db := w.db, log := w3.log }) := by
  unfold assignModify at hcre
  unfold statusModify at hupd
  unfold DeliveryAssign internalDeliveryAssign Manager.Do assignTx
  simp only [hv, hb, hsel, hcre, hupd]
  simp

theorem DeliveryAssign_commit (env : Env) (orderID : String) (w w1 w2 w3 : World)
    (c u : Courier) (d : Delivery)
    (hv : isValidOrderID orderID = true) (hb : env.faults.beginTx = none)
    (hsel : DeliveryRepository.GetCourierForAssignment env (w.record Call.TxDo) = (.ok c, w1))
    (hcre : DeliveryRepository.Create env (assignModify env orderID c) w1 = (.ok d, w2))
    (hupd : CourierService.UpdateCourier env (statusModify c.ID CourierBusy) w2 = (.ok u, w3)) :
    DeliveryAssign env orderID w =
      match env.faults.commitTx with
      | some e => (.error e, { db := w.db, log := w3.log })
      | none =>
        (.ok { CourierID := u.ID, OrderID := d.OrderID, AssignedAt := d.AssignedAt,
               Deadline := d.Deadline, TransportType := u.TransportType }, w3) := by
  unfold assignModify at hcre
  unfold statusModify at hupd
  unfold DeliveryAssign internalDeliveryAssign Manager.Do assignTx
  simp only [hv, hb, hsel, hcre, hupd]
  cases env.faults.commitTx <;> simp

theorem DeliveryUnassign_begin_fails (env : Env) (orderID : String) (w : World) (e : Err)
    (hv : isValidOrderID orderID = true) (hb : env.faults.beginTx = some e) :
    DeliveryUnassign env orderID w = (.error e, w.record Call.TxDo) := by
  unfold DeliveryUnassign Manager.Do
  simp [hv, hb]

theorem DeliveryUnassign_lookup_fails (env : Env) (orderID : String) (w w1 : World) (e : Err)
    (hv : isValidOrderID orderID = true) (hb : env.faults.beginTx = none)
    (hget : DeliveryRepository.GetCourierIDAndDeliveryCountByOrderIDForAssing env orderID
      (w.record Call.TxDo) = (.error e, w1)) :
    DeliveryUnassign env orderID w =
      (.error (.wrap "get courier by order id" e), { db := w.db, log := w1.log }) := by
  unfold DeliveryUnassign Manager.Do unassignTx
  simp only [hv, hb, hget]
  simp

theorem DeliveryUnassign_active (env : Env) (orderID : String) (w w1 : World)
    (courierID n : Int)
    (hv : isValidOrderID orderID = true) (hb : env.faults.beginTx = none)
    (hget : DeliveryRepository.GetCourierIDAndDeliveryCountByOrderIDForAssing env orderID
      (w.record Call.TxDo) = (.ok (courierID, n), w1))
    (hn : n > 0) :
    DeliveryUnassign env orderID w =
      (.error ErrCourierHasActiveDeliveries, { db := w.db, log := w1.log }) := by
  unfold DeliveryUnassign Manager.Do unassignTx
  simp only [hv, hb, hget, hn]
  simp

theorem DeliveryUnassign_delete_fails (env : Env) (orderID : String) (w w1 w2 : World)
    (courierID n : Int) (e : Err)
    (hv : isValidOrderID orderID = true) (hb : env.faults.beginTx = none)
    (hget : DeliveryRepository.GetCourierIDAndDeliveryCountByOrderIDForAssing env orderID
      (w.record Call.TxDo) = (.ok (courierID, n), w1))
    (hn : ¬ n > 0)
    (hdel : DeliveryRepository.Delete env orderID w1 = (some e, w2)) :
    DeliveryUnassign env orderID w =
      (.error (.wrap "delete delivery" e), { db := w.db, log := w2.log }) := by
  unfold DeliveryUnassign Manager.Do unassignTx
  simp only [hv, hb, hget, hn, hdel]
  simp

theorem DeliveryUnassign_update_fails (env : Env) (orderID : String) (w w1 w2 w3 : World)
    (courierID n : Int) (e : Err)
    (hv : isValidOrderID orderID = true) (hb : env.faults.beginTx = none)
    (hget : DeliveryRepository.GetCourierIDAndDeliveryCountByOrderIDForAssing env orderID
      (w.record Call.TxDo) = (.ok (courierID, n), w1))
    (hn : ¬ n > 0)
    (hdel : DeliveryRepository.Delete env orderID w1 = (none, w2))
    (hupd : CourierService.UpdateCourier env (statusModify courierID CourierAvailable) w2 =
      (.error e, w3)) :
    DeliveryUnassign env orderID w =
      (.error (.wrap "update courier status" e), { db := w.db, log := w3.log }) := by
  unfold statusModify at hupd
  unfold DeliveryUnassign Manager.Do unassignTx
  simp only [hv, hb, hget, hn, hdel, hupd]
  simp

theorem DeliveryUnassign_commit (env : Env) (orderID : String) (w w1 w2 w3 : World)
    (courierID n : Int) (u : Courier)
    (hv : isValidOrderID orderID = true) (hb : env.faults.beginTx = none)
    (hget : DeliveryRepository.GetCourierIDAndDeliveryCountByOrderIDForAssing env orderID
      (w.record Call.TxDo) = (.ok (courierID, n), w1))
    (hn : ¬ n > 0)
    (hdel : DeliveryRepository.Delete env orderID w1 = (none, w2))
    (hupd : CourierService.UpdateCourier env (statusModify courierID CourierAvailable) w2 =
      (.ok u, w3)) :
    DeliveryUnassign env orderID w =
      match env.faults.commitTx with
      | some e => (.error e, { db := w.db, log := w3.log })
      | none => (.ok { CourierID := u.ID, OrderID := orderID, Status := u.Status }, w3) := by
  unfold statusModify at hupd
  unfold DeliveryUnassign Manager.Do unassignTx
  simp only [hv, hb, hget, hn, hdel, hupd]
  cases env.faults.commitTx <;> simp

theorem FreeCourier_begin_fails (env : Env) (orderID : String) (w : World) (e : Err)
    (hv : isValidOrderID orderID = true) (hb : env.faults.beginTx = some e) :
    FreeCourierByOrderID env orderID w = (some e, w.record Call.TxDo) := by
  unfold FreeCourierByOrderID Manager.Do
  simp [hv, hb]

theorem FreeCourier_lookup_fails (env : Env) (orderID : String) (w w1 : World) (e : Err)
    (hv : isValidOrderID orderID = true) (hb : env.faults.beginTx = none)
    (hget : DeliveryRepository.GetCourierIDByOrderID env orderID (w.record Call.TxDo) =
      (.error e, w1)) :
    FreeCourierByOrderID env orderID w =
      (some (.wrap "get courier by order id" e), { db := w.db, log := w1.log }) := by
  unfold FreeCourierByOrderID Manager.Do freeCourierTx
  simp only [hv, hb, hget]
  simp

theorem FreeCourier_update_fails (env : Env) (orderID : String) (w w1 w2 : World)
    (courierID : Int) (e : Err)
    (hv : isValidOrderID orderID = true) (hb : env.faults.beginTx = none)
    (hget : DeliveryRepository.GetCourierIDByOrderID env orderID (w.record Call.TxDo) =
      (.ok courierID, w1))
    (hupd : CourierService.UpdateCourier env (statusModify courierID CourierAvailable) w1 =
      (.error e, w2)) :
    FreeCourierByOrderID env orderID w =
      (some (.wrap "update courier status" e), { db := w.db, log := w2.log }) := by
  unfold statusModify at hupd
  unfold FreeCourierByOrderID Manager.Do freeCourierTx
  simp only [hv, hb, hget, hupd]
  simp

theorem FreeCourier_commit (env : Env) (orderID : String) (w w1 w2 : World)
    (courierID : Int) (u : Courier)
    (hv : isValidOrderID orderID = true) (hb : env.faults.beginTx = none)
    (hget : DeliveryRepository.GetCourierIDByOrderID env orderID (w.record Call.TxDo) =
      (.ok courierID, w1))
    (hupd : CourierService.UpdateCourier env (statusModify courierID CourierAvailable) w1 =
      (.ok u, w2))
    (hst : u.Status = CourierAvailable) :
    FreeCourierByOrderID env orderID w =
      match env.faults.commitTx with
      | some e => (some e, { db := w.db, log := w2.log })
      | none => (none, w2) := by
  unfold statusModify at hupd
  unfold FreeCourierByOrderID Manager.Do freeCourierTx
  simp only [hv, hb, hget, hupd, hst]
  cases env.faults.commitTx <;> simp

theorem UpdateCourier_status_cases (env : Env) (courierID : Int) (status : String) (w : World)
    (hvalid : isValidStatus status = true) :
    (∃ e, CourierService.UpdateCourier env (statusModify courierID status) w =
      (.error e, w.record (Call.UpdateCourier (statusModify courierID status)))) ∨
    (∃ u, CourierService.UpdateCourier env (statusModify courierID status) w =
        (.ok u,
         { db := { couriers := setStatus env.sqlNow courierID status w.db.couriers,
                   delivery := w.db.delivery },
           log := w.log ++ [Call.UpdateCourier (statusModify courierID status)] }) ∧
      u.ID = courierID ∧ u.Status = status) := by
  cases hu : env.faults.updateCourier with
  | some eu =>
    obtain ⟨e', he'⟩ := UpdateCourier_fault env (statusModify courierID status) w eu hu
    exact Or.inl ⟨e', he'⟩
  | none =>
    rw [UpdateCourier_status env courierID status w hu hvalid]
    cases hrows : w.db.couriers.filter (fun c => decide (c.ID = courierID)) with
    | nil => exact Or.inl ⟨_, rfl⟩
    | cons c t =>
      have hc : c ∈ w.db.couriers.filter (fun c => decide (c.ID = courierID)) := by
        rw [hrows]
        exact List.mem_cons_self _ _
      rw [List.mem_filter] at hc
      exact Or.inr ⟨_, rfl, by simpa using hc.2, rfl⟩

theorem Delete_cases (env : Env) (orderID : String) (w : World) :
    (∃ e, DeliveryRepository.Delete env orderID w = (some e, w.record (Call.Delete orderID))) ∨
    DeliveryRepository.Delete env orderID w =
      (none,
       { db := { couriers := w.db.couriers,
                 delivery := w.db.delivery.filter (fun d => !decide (d.OrderID = orderID)) },
         log := w.log ++ [Call.Delete orderID] }) := by
  unfold DeliveryRepository.Delete sqlDeleteDelivery
  cases env.faults.deleteDelivery with
  | some e => exact Or.inl ⟨_, rfl⟩
  | none =>
    by_cases h : (w.db.delivery.filter (fun d => decide (d.OrderID = orderID))).length = 0
    · exact Or.inl ⟨ErrDeliveryNotFound, by simp [h]⟩
    · exact Or.inr (by simp [h, World.record])

theorem GetOwner_log (env : Env) (orderID : String) (w : World) :
    (DeliveryRepository.GetCourierIDAndDeliveryCountByOrderIDForAssing env orderID w).2 =
      w.record (Call.GetCourierIDAndDeliveryCountByOrderIDForAssing orderID) := by
  unfold DeliveryRepository.GetCourierIDAndDeliveryCountByOrderIDForAssing
  split
  · split_ifs <;> rfl
  · rfl

theorem GetCourierIDByOrderID_log (env : Env) (orderID : String) (w : World) :
    (DeliveryRepository.GetCourierIDByOrderID env orderID w).2 =
      w.record (Call.GetCourierIDByOrderID orderID) := by
  unfold DeliveryRepository.GetCourierIDByOrderID
  split
  · split_ifs <;> rfl
  · rfl

theorem GetOwner_ok_inv (env : Env) (orderID : String) (w w1 : World) (courierID n : Int)
    (hk : w.db.keysOk)
    (h : DeliveryRepository.GetCourierIDAndDeliveryCountByOrderIDForAssing env orderID w =
      (.ok (courierID, n), w1)) :
    ∃ d, w.db.delivery.filter (fun d1 => decide (d1.OrderID = orderID)) = [d] ∧
      d.CourierID = courierID := by
  cases hrows : w.db.delivery.filter (fun d1 => decide (d1.OrderID = orderID)) with
  | nil =>
    exfalso
    unfold DeliveryRepository.GetCourierIDAndDeliveryCountByOrderIDForAssing
      sqlSelectOwnerAndOtherActive at h
    rw [hrows] at h
    cases hf : env.faults.selectOwner with
    | some e =>
      simp only [hf, scanRow] at h
      split_ifs at h <;> simp at h
    | none => simp [hf, scanRow, errorsIs, PgxErrNoRows] at h
  | cons d0 t =>
    have hd0 : d0 ∈ w.db.delivery.filter (fun d1 => decide (d1.OrderID = orderID)) := by
      rw [hrows]
      exact List.mem_cons_self _ _
    rw [List.mem_filter] at hd0
    have hoid : d0.OrderID = orderID := by simpa using hd0.2
    have hsingle := keysOk_order_unique w.db hk d0 hd0.1
    rw [hoid] at hsingle
    rw [hsingle] at hrows
    have ht : t = [] := by
      have := congrArg List.tail hrows
      simpa using this.symm
    subst ht
    refine ⟨d0, rfl, ?_⟩
    cases hf : env.faults.selectOwner with
    | some e =>
      unfold DeliveryRepository.GetCourierIDAndDeliveryCountByOrderIDForAssing at h
      simp only [hf, scanRow] at h
      split_ifs at h <;> simp at h
    | none =>
      rw [GetOwner_single env orderID w d0 hf hsingle] at h
      have := congrArg Prod.fst h
      simp at this
      exact this.1

theorem busyOwnsActive_release (now n : Time) (courierID : Int) (status : String)
    (cs : List Courier) (ds ds' : List Delivery) (hst : status ≠ CourierBusy)
    (hinv : busyOwnsActive now { couriers := cs, delivery := ds })
    (hkeep : ∀ d ∈ ds, d.CourierID ≠ courierID → d ∈ ds') :
    busyOwnsActive now { couriers := setStatus n courierID status cs, delivery := ds' } := by
  intro c hc hbusy
  simp only [setStatus, List.mem_map] at hc
  obtain ⟨a, ha, hEq⟩ := hc
  by_cases hid : a.ID = courierID
  · rw [if_pos hid] at hEq
    rw [← hEq] at hbusy
    exact absurd hbusy hst
  · rw [if_neg hid] at hEq
    subst hEq
    obtain ⟨d, hd, hown, hact⟩ := hinv a ha hbusy
    exact ⟨d, hkeep d hd (by rw [hown]; exact hid), hown, hact⟩

theorem busyOwnsActive_bind (now n : Time) (courierID : Int) (cs : List Courier)
    (ds : List Delivery) (row : Delivery)
    (hinv : busyOwnsActive now { couriers := cs, delivery := ds })
    (hown : row.CourierID = courierID) (hact : row.isActive now = true) :
    busyOwnsActive now
      { couriers := setStatus n courierID CourierBusy cs, delivery := ds ++ [row] } := by
  intro c hc hbusy
  simp only [setStatus, List.mem_map] at hc
  obtain ⟨a, ha, hEq⟩ := hc
  by_cases hid : a.ID = courierID
  · rw [if_pos hid] at hEq
    subst hEq
    exact ⟨row, by simp, by rw [hown]; exact hid.symm, hact⟩
  · rw [if_neg hid] at hEq
    subst hEq
    obtain ⟨d, hd, hown', hact'⟩ := hinv a ha hbusy
    exact ⟨d, List.mem_append_left _ hd, hown', hact'⟩

theorem busyOwnsActive_reap (now n : Time) (db : DB) (hinv : busyOwnsActive now db) :
    busyOwnsActive now (sqlUpdateCouriersExpired n db).2 := by
  intro c hc hbusy
  unfold sqlUpdateCouriersExpired at hc
  simp only [List.mem_map] at hc
  obtain ⟨a, ha, hEq⟩ := hc
  by_cases h : expiredBusy n db.delivery a = true
  · rw [if_pos h] at hEq
    rw [← hEq] at hbusy
    have hne : ("available" : String) ≠ CourierBusy := by decide
    exact absurd hbusy hne
  · rw [if_neg h] at hEq
    subst hEq
    exact hinv a ha hbusy

theorem DeliveryUnassign_db_cases (env : Env) (orderID : String) (w : World) (hk : w.db.keysOk) :
    (DeliveryUnassign env orderID w).2.db = w.db ∨
    ∃ d, w.db.delivery.filter (fun d1 => decide (d1.OrderID = orderID)) = [d] ∧
      (DeliveryUnassign env orderID w).2.db =
        { couriers := setStatus env.sqlNow d.CourierID CourierAvailable w.db.couriers,
          delivery := w.db.delivery.filter (fun x => !decide (x.OrderID = orderID)) } := by
  by_cases hv : isValidOrderID orderID = true
  swap
  · left
    unfold DeliveryUnassign
    simp [hv]
  cases hb : env.faults.beginTx with
  | some e =>
    left
    rw [DeliveryUnassign_begin_fails env orderID w e hv hb]
    rfl
  | none =>
    have hlog := GetOwner_log env orderID (w.record Call.TxDo)
    rcases hget : DeliveryRepository.GetCourierIDAndDeliveryCountByOrderIDForAssing env orderID
      (w.record Call.TxDo) with ⟨e | ⟨courierID, n⟩, w1⟩
    · left
      rw [DeliveryUnassign_lookup_fails env orderID w w1 e hv hb hget]
    rw [hget] at hlog
    have hw1 : w1 = (w.record Call.TxDo).record
        (Call.GetCourierIDAndDeliveryCountByOrderIDForAssing orderID) := hlog
    by_cases hn : n > 0
    · left
      rw [DeliveryUnassign_active env orderID w w1 courierID n hv hb hget hn]
    rcases Delete_cases env orderID w1 with ⟨e, hdel⟩ | hdel
    · left
      rw [DeliveryUnassign_delete_fails env orderID w w1 _ courierID n e hv hb hget hn hdel]
    rcases UpdateCourier_status_cases env courierID CourierAvailable
      { db := { couriers := w1.db.couriers,
                delivery := w1.db.delivery.filter (fun d => !decide (d.OrderID = orderID)) },
        log := w1.log ++ [Call.Delete orderID] } CourierAvailable_valid
      with ⟨e, hupd⟩ | ⟨u, hupd, _, _⟩
    · left
      rw [DeliveryUnassign_update_fails env orderID w w1 _ _ courierID n e hv hb hget hn hdel hupd]
    rw [DeliveryUnassign_commit env orderID w w1 _ _ courierID n u hv hb hget hn hdel hupd]
    cases env.faults.commitTx with
    | some e =>
      left
      rfl
    | none =>
      right
      obtain ⟨d, hd, hcid⟩ := GetOwner_ok_inv env orderID (w.record Call.TxDo) w1 courierID n hk hget
      refine ⟨d, hd, ?_⟩
      rw [hcid, hw1]
      rfl

theorem FreeCourier_db_cases (env : Env) (orderID : String) (w : World) :
    (FreeCourierByOrderID env orderID w).2.db = w.db ∨
    ∃ courierID, (FreeCourierByOrderID env orderID w).2.db =
      { couriers := setStatus env.sqlNow courierID CourierAvailable w.db.couriers,
        delivery := w.db.delivery } := by
  by_cases hv : isValidOrderID orderID = true
  swap
  · left
    unfold FreeCourierByOrderID
    simp [hv]
  cases hb : env.faults.beginTx with
  | some e =>
    left
    rw [FreeCourier_begin_fails env orderID w e hv hb]
    rfl
  | none =>
    have hlog := GetCourierIDByOrderID_log env orderID (w.record Call.TxDo)
    rcases hget : DeliveryRepository.GetCourierIDByOrderID env orderID (w.record Call.TxDo)
      with ⟨e | courierID, w1⟩
    · left
      rw [FreeCourier_lookup_fails env orderID w w1 e hv hb hget]
    rw [hget] at hlog
    have hw1 : w1 = (w.record Call.TxDo).record (Call.GetCourierIDByOrderID orderID) := hlog
    rcases UpdateCourier_status_cases env courierID CourierAvailable w1 CourierAvailable_valid
      with ⟨e, hupd⟩ | ⟨u, hupd, _, hst⟩
    · left
      rw [FreeCourier_update_fails env orderID w w1 _ courierID e hv hb hget hupd]
    rw [FreeCourier_commit env orderID w w1 _ courierID u hv hb hget hupd hst]
    cases env.faults.commitTx with
    | some e =>
      left
      rfl
    | none =>
      right
      refine ⟨courierID, ?_⟩
      rw [hw1]
      rfl

theorem CleanupExpiredDeliveries_db_cases (env : Env) (w : World) :
    (CleanupExpiredDeliveries env w).2.db = w.db ∨
    (CleanupExpiredDeliveries env w).2.db = (sqlUpdateCouriersExpired env.sqlNow w.db).2 := by
  cases hf : env.faults.updateExpired with
  | none =>
    right
    rw [CleanupExpiredDeliveries_eval env w hf]
  | some e =>
    left
    unfold CleanupExpiredDeliveries DeliveryRepository.UpdateCouriersAvailableWhereDeadlineExpired
    simp only [hf]
    split_ifs <;> rfl

/-- Claim C14. The invariant "every busy courier owns at least one delivery active at `now`"
is preserved by each engine operation, whether it succeeds or fails: by `DeliveryAssign`
when the clock reading the deadline is computed from is not before `now`, by
`DeliveryUnassign` under the key constraints of the tables, by `FreeCourierByOrderID` and by
`CleanupExpiredDeliveries`. -/
theorem engine_preserves_busy_invariant (now : Time) (env : Env) (orderID : String)
    (w : World) (hinv : busyOwnsActive now w.db) :
    (now ≤ env.clock 1 → busyOwnsActive now (DeliveryAssign env orderID w).2.db) ∧
    (w.db.keysOk → busyOwnsActive now (DeliveryUnassign env orderID w).2.db) ∧
    busyOwnsActive now (FreeCourierByOrderID env orderID w).2.db ∧
    busyOwnsActive now (CleanupExpiredDeliveries env w).2.db := by
  refine ⟨?_, ?_, ?_, ?_⟩
  · intro hclock
    rcases hres : DeliveryAssign env orderID w with ⟨e | r, w'⟩
    · have := DeliveryAssign_error_db env orderID w e (by rw [hres])
      rw [hres] at this
      simp only at this ⊢
      rw [this]
      exact hinv
    · obtain ⟨c, _, _, _, _, _, _, _, _, _, hw, _⟩ := DeliveryAssign_ok_inv env orderID w w' r hres
      simp only
      rw [hw]
      apply busyOwnsActive_bind now env.sqlNow c.ID _ _ _ hinv rfl
      have hoff : env.clock 1 ≤
          pgTimestamp (CalculateDeadline c.TransportType (env.clock 1)) :=
        clock_le_stored_deadline c.TransportType (env.clock 1)
      simp only [Delivery.isActive, assignedRow, decide_eq_true_eq]
      exact le_trans hclock hoff
  · intro hk
    rcases DeliveryUnassign_db_cases env orderID w hk with h | ⟨d, hd, h⟩
    · rw [h]
      exact hinv
    · rw [h]
      apply busyOwnsActive_release now env.sqlNow d.CourierID CourierAvailable _ _ _
        (by decide) hinv
      intro x hx hne
      rw [List.mem_filter]
      refine ⟨hx, ?_⟩
      simp only [Bool.not_eq_true', decide_eq_false_iff_not]
      intro hEq
      have hxin : x ∈ w.db.delivery.filter (fun d1 => decide (d1.OrderID = orderID)) := by
        rw [List.mem_filter]
        exact ⟨hx, by simpa using hEq⟩
      rw [hd] at hxin
      have : x = d := by simpa using hxin
      exact hne (by rw [this])
  · rcases FreeCourier_db_cases env orderID w with h | ⟨courierID, h⟩
    · rw [h]
      exact hinv
    · rw [h]
      exact busyOwnsActive_release now env.sqlNow courierID CourierAvailable _ _ _
        (by decide) hinv (fun d hd _ => hd)
  · rcases CleanupExpiredDeliveries_db_cases env w with h | h
    · rw [h]
      exact hinv
    · rw [h]
      exact busyOwnsActive_reap now env.sqlNow w.db hinv

/-! ## Order dispatch -/

theorem Process_created {σ : Type} (svc : DeliveryService σ) (gateway : String → Except Err Order)
    (id carried : String) (createdAt : Option Time) (order : Order) (s : σ)
    (hfetch : gateway id = .ok order) (hst : order.Status = OrderCreated) :
    ProcessOrderStatusChange gateway (StatusHandlerFactory.GetHandler svc)
        { ID := some id, Status := some carried, CreatedAt := createdAt } s =
      ((match (svc.DeliveryAssign order.ID s).1 with
        | .ok _ => (some order, none)
        | .error err =>
          (none, some (.wrap ("assign courier for created order " ++ order.ID) err))),
       (svc.DeliveryAssign order.ID s).2) := by
  unfold ProcessOrderStatusChange StatusHandlerFactory.GetHandler
    StatusHandlerFactory.createdHandler
  simp only [hfetch, hst, if_true]
  rcases svc.DeliveryAssign order.ID s with ⟨e | r, s1⟩ <;> rfl

theorem Process_cancelled {σ : Type} (svc : DeliveryService σ)
    (gateway : String → Except Err Order)
    (id carried : String) (createdAt : Option Time) (order : Order) (s : σ)
    (hfetch : gateway id = .ok order) (hst : order.Status = OrderCancelled) :
    ProcessOrderStatusChange gateway (StatusHandlerFactory.GetHandler svc)
        { ID := some id, Status := some carried, CreatedAt := createdAt } s =
      ((match (svc.DeliveryUnassign order.ID s).1 with
        | .ok _ => (some order, none)
        | .error err =>
          (none, some (.wrap ("unassign courier for cancelled order " ++ order.ID) err))),
       (svc.DeliveryUnassign order.ID s).2) := by
  have h1 : OrderCancelled ≠ OrderCreated := by decide
  unfold ProcessOrderStatusChange StatusHandlerFactory.GetHandler
    StatusHandlerFactory.cancelledHandler
  simp only [hfetch, hst, if_true, if_neg h1]
  rcases svc.DeliveryUnassign order.ID s with ⟨e | r, s1⟩ <;> rfl

theorem Process_completed {σ : Type} (svc : DeliveryService σ)
    (gateway : String → Except Err Order)
    (id carried : String) (createdAt : Option Time) (order : Order) (s : σ)
    (hfetch : gateway id = .ok order) (hst : order.Status = OrderCompleted) :
    ProcessOrderStatusChange gateway (StatusHandlerFactory.GetHandler svc)
        { ID := some id, Status := some carried, CreatedAt := createdAt } s =
      ((match (svc.FreeCourierByOrderID order.ID s).1 with
        | none => (some order, none)
        | some err =>
          (none, some (.wrap ("free courier for completed order " ++ order.ID) err))),
       (svc.FreeCourierByOrderID order.ID s).2) := by
  have h1 : OrderCompleted ≠ OrderCreated := by decide
  have h2 : OrderCompleted ≠ OrderCancelled := by decide
  unfold ProcessOrderStatusChange StatusHandlerFactory.GetHandler
    StatusHandlerFactory.completedHandler
  simp only [hfetch, hst, if_true, if_neg h1, if_neg h2]
  rcases svc.FreeCourierByOrderID order.ID s with ⟨_ | e, s1⟩ <;> rfl

/-- Claim C15. For a fetched order whose status is created, cancelled or completed,
`ProcessOrderStatusChange` with the `StatusHandlerFactory` makes exactly one call on the
delivery service, with the id of the fetched order: `DeliveryAssign` for created,
`DeliveryUnassign` for cancelled, `FreeCourierByOrderID` for completed (the recorded call
list is that single call, the state is the one that call leaves); when the call succeeds the
result is the fetched order and a nil error, otherwise a nil order and the wrapped error. -/
theorem status_dispatch_invokes_one_operation {σ : Type} (svc : DeliveryService σ)
    (gateway : String → Except Err Order) (id carried : String) (createdAt : Option Time)
    (order : Order) (s : σ) (hfetch : gateway id = .ok order) :
    (order.Status = OrderCreated →
      ProcessOrderStatusChange gateway (StatusHandlerFactory.GetHandler svc.traced)
          { ID := some id, Status := some carried, CreatedAt := createdAt } (s, []) =
        ((match (svc.DeliveryAssign order.ID s).1 with
          | .ok _ => (some order, none)
          | .error err =>
            (none, some (.wrap ("assign courier for created order " ++ order.ID) err))),
         ((svc.DeliveryAssign order.ID s).2, [DeliveryCall.DeliveryAssign order.ID]))) ∧
    (order.Status = OrderCancelled →
      ProcessOrderStatusChange gateway (StatusHandlerFactory.GetHandler svc.traced)
          { ID := some id, Status := some carried, CreatedAt := createdAt } (s, []) =
        ((match (svc.DeliveryUnassign order.ID s).1 with
          | .ok _ => (some order, none)
          | .error err =>
            (none, some (.wrap ("unassign courier for cancelled order " ++ order.ID) err))),
         ((svc.DeliveryUnassign order.ID s).2, [DeliveryCall.DeliveryUnassign order.ID]))) ∧
    (order.Status = OrderCompleted →
      ProcessOrderStatusChange gateway (StatusHandlerFactory.GetHandler svc.traced)
          { ID := some id, Status := some carried, CreatedAt := createdAt } (s, []) =
        ((match (svc.FreeCourierByOrderID order.ID s).1 with
          | none => (some order, none)
          | some err =>
            (none, some (.wrap ("free courier for completed order " ++ order.ID) err))),
         ((svc.FreeCourierByOrderID order.ID s).2,
          [DeliveryCall.FreeCourierByOrderID order.ID]))) := by
  refine ⟨?_, ?_, ?_⟩
  · intro hst
    rw [Process_created svc.traced gateway id carried createdAt order (s, []) hfetch hst]
    rfl
  · intro hst
    rw [Process_cancelled svc.traced gateway id carried createdAt order (s, []) hfetch hst]
    rfl
  · intro hst
    rw [Process_completed svc.traced gateway id carried createdAt order (s, []) hfetch hst]
    rfl

/-- Claim C16. For a fetched order whose status is none of created, cancelled and completed,
`GetHandler` fails with an error wrapping `ErrUndefinedStatus`, and `ProcessOrderStatusChange`
swallows it: it returns the fetched order and a nil error, the state is untouched and no call
on the delivery service is recorded. -/
theorem undefined_status_is_skipped {σ : Type} (svc : DeliveryService σ)
    (gateway : String → Except Err Order) (id carried : String) (createdAt : Option Time)
    (order : Order) (s : σ) (calls : List DeliveryCall) (hfetch : gateway id = .ok order)
    (h1 : order.Status ≠ OrderCreated) (h2 : order.Status ≠ OrderCancelled)
    (h3 : order.Status ≠ OrderCompleted) :
    (∃ e, StatusHandlerFactory.GetHandler svc.traced order.Status = .error e ∧
      errorsIs e ErrUndefinedStatus = true) ∧
    ProcessOrderStatusChange gateway (StatusHandlerFactory.GetHandler svc.traced)
        { ID := some id, Status := some carried, CreatedAt := createdAt } (s, calls) =
      ((some order, none), (s, calls)) := by
  have hget : StatusHandlerFactory.GetHandler svc.traced order.Status =
      .error (.wrap order.Status ErrUndefinedStatus) := by
    unfold StatusHandlerFactory.GetHandler
    simp [h1, h2, h3]
  have his : errorsIs (.wrap order.Status ErrUndefinedStatus) ErrUndefinedStatus = true :=
    errorsIs_wrap _ _ _ (errorsIs_refl _)
  refine ⟨⟨_, hget, his⟩, ?_⟩
  unfold ProcessOrderStatusChange
  simp only [hfetch, hget, his, if_true]

/-- Claim C17. The status carried by the event does not influence
`ProcessOrderStatusChange`: for the same order id, gateway answer, handler factory and
state, two non-nil carried statuses give the same returned order and error and the same
final state; with the `StatusHandlerFactory` over a recording delivery service this includes
the same recorded calls. -/
theorem carried_status_is_ignored {σ : Type} (svc : DeliveryService σ)
    (gateway : String → Except Err Order)
    (GetHandler : String → Except Err (ExecuteFn σ)) (id s1 s2 : String)
    (createdAt : Option Time) (st : σ) (calls : List DeliveryCall) :
    ProcessOrderStatusChange gateway GetHandler
        { ID := some id, Status := some s1, CreatedAt := createdAt } st =
      ProcessOrderStatusChange gateway GetHandler
        { ID := some id, Status := some s2, CreatedAt := createdAt } st ∧
    ProcessOrderStatusChange gateway (StatusHandlerFactory.GetHandler svc.traced)
        { ID := some id, Status := some s1, CreatedAt := createdAt } (st, calls) =
      ProcessOrderStatusChange gateway (StatusHandlerFactory.GetHandler svc.traced)
        { ID := some id, Status := some s2, CreatedAt := createdAt } (st, calls) :=
  ⟨rfl, rfl⟩

theorem assign_error_of_collaborator (env : Env) (orderID : String) (w : World) (e : Err)
    (hv : isValidOrderID orderID = true) (h : AssignCollaboratorError env orderID w e) :
    ∃ r, (DeliveryAssign env orderID w).1 = .error r ∧ errorsIs r e = true := by
  cases h with
  | beginTx hb =>
    rw [DeliveryAssign_begin_fails env orderID w e hv hb]
    exact ⟨e, rfl, errorsIs_refl e⟩
  | GetCourierForAssignment w1 hb hsel =>
    rw [DeliveryAssign_select_fails env orderID w w1 e hv hb hsel]
    exact ⟨_, rfl, errorsIs_wrap _ _ _ (errorsIs_refl e)⟩
  | Create c w1 w2 hb hsel hcre =>
    rw [DeliveryAssign_create_fails env orderID w w1 w2 c e hv hb hsel hcre]
    exact ⟨_, rfl, errorsIs_wrap _ _ _ (errorsIs_refl e)⟩
  | UpdateCourier c d w1 w2 w3 hb hsel hcre hupd =>
    rw [DeliveryAssign_update_fails env orderID w w1 w2 w3 c d e hv hb hsel hcre hupd]
    exact ⟨_, rfl, errorsIs_wrap _ _ _ (errorsIs_refl e)⟩
  | commitTx c u d w1 w2 w3 hb hsel hcre hupd hc =>
    rw [DeliveryAssign_commit env orderID w w1 w2 w3 c u d hv hb hsel hcre hupd, hc]
    exact ⟨e, rfl, errorsIs_refl e⟩

theorem unassign_error_of_collaborator (env : Env) (orderID : String) (w : World) (e : Err)
    (hv : isValidOrderID orderID = true) (h : UnassignCollaboratorError env orderID w e) :
    ∃ r, (DeliveryUnassign env orderID w).1 = .error r ∧ errorsIs r e = true := by
  cases h with
  | beginTx hb =>
    rw [DeliveryUnassign_begin_fails env orderID w e hv hb]
    exact ⟨e, rfl, errorsIs_refl e⟩
  | GetCourierIDAndDeliveryCount w1 hb hget =>
    rw [DeliveryUnassign_lookup_fails env orderID w w1 e hv hb hget]
    exact ⟨_, rfl, errorsIs_wrap _ _ _ (errorsIs_refl e)⟩
  | Delete courierID n w1 w2 hb hget hn hdel =>
    rw [DeliveryUnassign_delete_fails env orderID w w1 w2 courierID n e hv hb hget hn hdel]
    exact ⟨_, rfl, errorsIs_wrap _ _ _ (errorsIs_refl e)⟩
  | UpdateCourier courierID n w1 w2 w3 hb hget hn hdel hupd =>
    rw [DeliveryUnassign_update_fails env orderID w w1 w2 w3 courierID n e hv hb hget hn hdel
      hupd]
    exact ⟨_, rfl, errorsIs_wrap _ _ _ (errorsIs_refl e)⟩
  | commitTx courierID n u w1 w2 w3 hb hget hn hdel hupd hc =>
    rw [DeliveryUnassign_commit env orderID w w1 w2 w3 courierID n u hv hb hget hn hdel hupd, hc]
    exact ⟨e, rfl, errorsIs_refl e⟩

theorem freeCourier_error_of_collaborator (env : Env) (orderID : String) (w : World) (e : Err)
    (hv : isValidOrderID orderID = true) (h : FreeCourierCollaboratorError env orderID w e) :
    ∃ r, (FreeCourierByOrderID env orderID w).1 = some r ∧ errorsIs r e = true := by
  cases h with
  | beginTx hb =>
    rw [FreeCourier_begin_fails env orderID w e hv hb]
    exact ⟨e, rfl, errorsIs_refl e⟩
  | GetCourierIDByOrderID w1 hb hget =>
    rw [FreeCourier_lookup_fails env orderID w w1 e hv hb hget]
    exact ⟨_, rfl, errorsIs_wrap _ _ _ (errorsIs_refl e)⟩
  | UpdateCourier courierID w1 w2 hb hget hupd =>
    rw [FreeCourier_update_fails env orderID w w1 w2 courierID e hv hb hget hupd]
    exact ⟨_, rfl, errorsIs_wrap _ _ _ (errorsIs_refl e)⟩
  | commitTx courierID u w1 w2 hb hget hupd hst hc =>
    rw [FreeCourier_commit env orderID w w1 w2 courierID u hv hb hget hupd hst, hc]
    exact ⟨e, rfl, errorsIs_refl e⟩

/-- Claim C18. Whenever a collaborator (the transaction manager, the delivery repository or
the courier service) returns an error `e` during `DeliveryAssign`, `DeliveryUnassign` or
`FreeCourierByOrderID` of a valid order id, the operation returns no result and an error `r`
for which `errors.Is(r, e)` holds; and when the operation runs as the status handler of a
fetched order, `ProcessOrderStatusChange` returns a nil order and an error for which
`errors.Is` again finds `e`. -/
theorem collaborator_errors_propagate (env : Env) (orderID : String) (w : World) (e : Err)
    (hv : isValidOrderID orderID = true) :
    (AssignCollaboratorError env orderID w e →
      (∃ r, (DeliveryAssign env orderID w).1 = .error r ∧ errorsIs r e = true) ∧
      ∀ (gateway : String → Except Err Order) (id carried : String) (createdAt : Option Time)
        (order : Order), gateway id = .ok order → order.ID = orderID →
        order.Status = OrderCreated →
        ∃ r', (ProcessOrderStatusChange gateway (StatusHandlerFactory.GetHandler (engine env))
            { ID := some id, Status := some carried, CreatedAt := createdAt } w).1 =
              (none, some r') ∧ errorsIs r' e = true) ∧
    (UnassignCollaboratorError env orderID w e →
      (∃ r, (DeliveryUnassign env orderID w).1 = .error r ∧ errorsIs r e = true) ∧
      ∀ (gateway : String → Except Err Order) (id carried : String) (createdAt : Option Time)
        (order : Order), gateway id = .ok order → order.ID = orderID →
        order.Status = OrderCancelled →
        ∃ r', (ProcessOrderStatusChange gateway (StatusHandlerFactory.GetHandler (engine env))
            { ID := some id, Status := some carried, CreatedAt := createdAt } w).1 =
              (none, some r') ∧ errorsIs r' e = true) ∧
    (FreeCourierCollaboratorError env orderID w e →
      (∃ r, (FreeCourierByOrderID env orderID w).1 = some r ∧ errorsIs r e = true) ∧
      ∀ (gateway : String → Except Err Order) (id carried : String) (createdAt : Option Time)
        (order : Order), gateway id = .ok order → order.ID = orderID →
        order.Status = OrderCompleted →
        ∃ r', (ProcessOrderStatusChange gateway (StatusHandlerFactory.GetHandler (engine env))
            { ID := some id, Status := some carried, CreatedAt := createdAt } w).1 =
              (none, some r') ∧ errorsIs r' e = true) := by
  refine ⟨?_, ?_, ?_⟩
  · intro h
    obtain ⟨r, hr, his⟩ := assign_error_of_collaborator env orderID w e hv h
    refine ⟨⟨r, hr, his⟩, ?_⟩
    intro gateway id carried createdAt order hfetch hid hst
    rw [Process_created (engine env) gateway id carried createdAt order w hfetch hst]
    have hr' : ((engine env).DeliveryAssign order.ID w).1 = .error r := by
      rw [hid]
      exact hr
    simp only [hr']
    exact ⟨_, rfl, errorsIs_wrap _ _ _ his⟩
  · intro h
    obtain ⟨r, hr, his⟩ := unassign_error_of_collaborator env orderID w e hv h
    refine ⟨⟨r, hr, his⟩, ?_⟩
    intro gateway id carried createdAt order hfetch hid hst
    rw [Process_cancelled (engine env) gateway id carried createdAt order w hfetch hst]
    have hr' : ((engine env).DeliveryUnassign order.ID w).1 = .error r := by
      rw [hid]
      exact hr
    simp only [hr']
    exact ⟨_, rfl, errorsIs_wrap _ _ _ his⟩
  · intro h
    obtain ⟨r, hr, his⟩ := freeCourier_error_of_collaborator env orderID w e hv h
    refine ⟨⟨r, hr, his⟩, ?_⟩
    intro gateway id carried createdAt order hfetch hid hst
    rw [Process_completed (engine env) gateway id carried createdAt order w hfetch hst]
    have hr' : ((engine env).FreeCourierByOrderID order.ID w).1 = some r := by
      rw [hid]
      exact hr
    simp only [hr']
    exact ⟨_, rfl, errorsIs_wrap _ _ _ his⟩

/-! ## Retrier and error classification -/

theorem retryLoop_success (shouldRetry : Option (Err → Bool)) (benv : BackoffEnv)
    (fn : Nat → Option Err) (k : Nat)
    (hfail : ∀ i, i < k → ∃ e, fn i = some e ∧ ∀ f, shouldRetry = some f → f e = true)
    (hok : fn k = none)
    (hbudget : ∀ i, i < k → benv.nextBackOff i ≠ none)
    (hctx : ∀ n, benv.ctxErr n = none) :
    ∀ m j, j + m = k → ∀ fuel, m + 1 ≤ fuel →
      retryLoop shouldRetry benv fn fuel j = some (none, k + 1) := by
  intro m
  induction m with
  | zero =>
    intro j hj fuel hfuel
    have hjk : j = k := by omega
    subst hjk
    obtain ⟨fuel', rfl⟩ : ∃ fuel', fuel = fuel' + 1 := ⟨fuel - 1, by omega⟩
    simp [retryLoop, operation, hok]
  | succ m ih =>
    intro j hj fuel hfuel
    obtain ⟨fuel', rfl⟩ : ∃ fuel', fuel = fuel' + 1 := ⟨fuel - 1, by omega⟩
    obtain ⟨e, he, hretry⟩ := hfail j (by omega)
    have hop : operation shouldRetry (fn j) = .failed e := by
      unfold operation
      rw [he]
      cases hs : shouldRetry with
      | none => rfl
      | some f => simp [hretry f hs]
    obtain ⟨dur, hdur⟩ := Option.ne_none_iff_exists'.mp (hbudget j (by omega))
    have hnext := ih (j + 1) (by omega) fuel' (by omega)
    simp [retryLoop, hop, hctx, hdur, hnext]

/-- Claim C19. When the first attempt fails with an error the configured predicate does not
classify as retryable, `ExecuteWithContext` invokes the operation exactly once and returns
that error, whatever the back-off policy and the context say.  When the operation fails `k`
times with retryable errors and then succeeds, the policy granting a further attempt after
each of these failures and the context never being cancelled, `ExecuteWithContext` (given
fuel for `k + 1` attempts) invokes the operation exactly `k + 1` times and returns nil. -/
theorem executeWithContext_attempts (shouldRetry : Option (Err → Bool)) (benv : BackoffEnv)
    (fn : Nat → Option Err) (k fuel : Nat) :
    (∀ f e, shouldRetry = some f → fn 0 = some e → f e = false →
      ExecuteWithContext shouldRetry benv fn (fuel + 1) = some (some e, 1)) ∧
    ((∀ i, i < k → ∃ e, fn i = some e ∧ ∀ f, shouldRetry = some f → f e = true) →
      fn k = none →
      (∀ i, i < k → benv.nextBackOff i ≠ none) →
      (∀ n, benv.ctxErr n = none) →
      k + 1 ≤ fuel →
      ExecuteWithContext shouldRetry benv fn fuel = some (none, k + 1)) := by
  constructor
  · intro f e hs h0 hf
    simp [ExecuteWithContext, retryLoop, operation, hs, h0, hf]
  · intro hfail hok hbudget hctx hfuel
    exact retryLoop_success shouldRetry benv fn k hfail hok hbudget hctx k 0 (by omega) fuel hfuel

/-- Claim C20. `isRetryableCode` is true exactly for a non-nil error carrying a gRPC status
whose code is `ResourceExhausted`, `Unavailable` or `DeadlineExceeded`; it is false for the
nil error, for an error without a gRPC status and for every other code.  With the retrier
of the order gateway the errors it rejects are handed to the back-off loop as permanent,
the others as they are. -/
theorem isRetryableCode_iff (err : Option Err) :
    (isRetryableCode err = true ↔
      ∃ e, err = some e ∧
        (statusFromError e = some Code.ResourceExhausted ∨
         statusFromError e = some Code.Unavailable ∨
         statusFromError e = some Code.DeadlineExceeded)) ∧
    isRetryableCode none = false ∧
    (∀ e, statusFromError e = none → isRetryableCode (some e) = false) ∧
    (∀ c msg, isRetryableCode (some (.grpc c msg)) = true ↔
      (c = Code.ResourceExhausted ∨ c = Code.Unavailable ∨ c = Code.DeadlineExceeded)) ∧
    (∀ e, isRetryableCode (some e) = false →
      operation gatewayShouldRetry (some e) = .permanent e) ∧
    (∀ e, isRetryableCode (some e) = true →
      operation gatewayShouldRetry (some e) = .failed e) := by
  refine ⟨?_, rfl, ?_, ?_, ?_, ?_⟩
  · cases err with
    | none => simp [isRetryableCode]
    | some e =>
      unfold isRetryableCode
      cases hst : statusFromError e with
      | none => simp [hst]
      | some c => cases c <;> simp [hst]
  · intro e he
    simp [isRetryableCode, he]
  · intro c msg
    cases c <;> simp [isRetryableCode, statusFromError]
  · intro e he
    simp [operation, gatewayShouldRetry, he]
  · intro e he
    simp [operation, gatewayShouldRetry, he]

/-! ## Instances of the later claims on concrete states -/

/-- Counterexample to C11 as stated, on the fixture of the repository test: courier 2 is busy
and still owns the delivery `active-1`, whose deadline has not passed, yet the reaper
releases it (three couriers are affected and all four end up available). -/
theorem reap_releases_courier_with_active_delivery :
    mkCourier 2 "busy" "scooter" ∈ wReap.db.couriers ∧
    (∃ d ∈ wReap.db.delivery, d.CourierID = 2 ∧ d.isActive envOk.sqlNow = true) ∧
    (CleanupExpiredDeliveries envOk wReap).1 = .ok 3 ∧
    (CleanupExpiredDeliveries envOk wReap).2.db.statuses =
      [(1, "available"), (2, "available"), (3, "available"), (4, "available")] := by
  decide

/-- Witness of C11 (amended) on the fixture of the repository test. -/
theorem reap_releases_exactly_busy_with_expired_witness :
    envOk.faults.updateExpired = none ∧
    List.Forall₂ (fun c c' =>
        c'.ID = c.ID ∧
        (c'.Status ≠ c.Status ↔ busyWithExpired envOk.sqlNow wReap.db c) ∧
        (busyWithExpired envOk.sqlNow wReap.db c → c'.Status = CourierAvailable) ∧
        (¬ busyWithExpired envOk.sqlNow wReap.db c → c' = c))
      wReap.db.couriers (CleanupExpiredDeliveries envOk wReap).2.db.couriers :=
  ⟨rfl, reap_releases_exactly_busy_with_expired envOk wReap rfl⟩

/-- Witness of C12 on example scenario 5 of the spec: two of the three busy couriers own an
expired delivery, and the reaper returns 2. -/
theorem reap_bulk_update_witness :
    envOk.faults.updateExpired = none ∧
    (CleanupExpiredDeliveries envOk wThree).1 = .ok 2 ∧
    ∃ n w', CleanupExpiredDeliveries envOk wThree = (.ok n, w') ∧
      w'.db.delivery = wThree.db.delivery ∧
      w'.db.couriers.length = wThree.db.couriers.length ∧
      (∀ p ∈ wThree.db.couriers.zip w'.db.couriers,
        p.2.ID = p.1.ID ∧
        (busyWithExpired envOk.sqlNow wThree.db p.1 → p.2.Status = CourierAvailable) ∧
        (¬ busyWithExpired envOk.sqlNow wThree.db p.1 → p.2 = p.1)) ∧
      n = (((wThree.db.couriers.zip w'.db.couriers).filter
        (fun p => decide (p.1.Status ≠ p.2.Status))).length : Int) :=
  ⟨rfl, by decide, reap_bulk_update envOk wThree rfl⟩

/-- Witness of C13 on the fixture of the repository test. -/
theorem reap_idempotent_witness :
    envOk.faults.updateExpired = none ∧
    (CleanupExpiredDeliveries envOk wReap).1 = .ok 3 ∧
    (CleanupExpiredDeliveries envOk (CleanupExpiredDeliveries envOk wReap).2).1 = .ok 0 ∧
    (CleanupExpiredDeliveries envOk (CleanupExpiredDeliveries envOk wReap).2).2.db =
      (CleanupExpiredDeliveries envOk wReap).2.db :=
  ⟨rfl, by decide, (reap_idempotent envOk wReap rfl).2⟩

/-- Witness of C14: the invariant holds at 50 in a state with one available and one busy
courier, and after each of the four operations. -/
theorem engine_preserves_busy_invariant_witness :
    busyOwnsActive 50 wMix.db ∧ 50 ≤ envOk.clock 1 ∧ wMix.db.keysOk ∧
    (DeliveryAssign envOk "order-9" wMix).2.db.statuses = [(1, "busy"), (2, "busy")] ∧
    busyOwnsActive 50 (DeliveryAssign envOk "order-9" wMix).2.db ∧
    busyOwnsActive 50 (DeliveryUnassign envOk "order-3" wMix).2.db ∧
    busyOwnsActive 50 (FreeCourierByOrderID envOk "order-3" wMix).2.db ∧
    busyOwnsActive 50 (CleanupExpiredDeliveries envOk wMix).2.db :=
  ⟨by decide, by decide, by decide, by decide,
    (engine_preserves_busy_invariant 50 envOk "order-9" wMix (by decide)).1 (by decide),
    (engine_preserves_busy_invariant 50 envOk "order-3" wMix (by decide)).2.1 (by decide),
    (engine_preserves_busy_invariant 50 envOk "order-3" wMix (by decide)).2.2.1,
    (engine_preserves_busy_invariant 50 envOk "order-3" wMix (by decide)).2.2.2⟩

/-- Witness of C15: the event carries `cancelled`, the fetched order is `created`, and the
only call is `DeliveryAssign` with the fetched id. -/
theorem status_dispatch_invokes_one_operation_witness :
    gatewayWith "created" "order-9" =
      .ok { ID := "order-9", Status := "created", CreatedAt := 0 } ∧
    ProcessOrderStatusChange (gatewayWith "created")
        (StatusHandlerFactory.GetHandler (engine envOk).traced)
        { ID := some "order-9", Status := some "cancelled", CreatedAt := none } (wLoad, []) =
      ((some { ID := "order-9", Status := "created", CreatedAt := 0 }, none),
       ((DeliveryAssign envOk "order-9" wLoad).2, [DeliveryCall.DeliveryAssign "order-9"])) :=
  ⟨rfl,
    (status_dispatch_invokes_one_operation (engine envOk) (gatewayWith "created") "order-9"
      "cancelled" none { ID := "order-9", Status := "created", CreatedAt := 0 } wLoad rfl).1 rfl⟩

/-- Witness of C16 on the status `invalid` of the service test. -/
theorem undefined_status_is_skipped_witness :
    gatewayWith "invalid" "order-9" =
      .ok { ID := "order-9", Status := "invalid", CreatedAt := 0 } ∧
    ProcessOrderStatusChange (gatewayWith "invalid")
        (StatusHandlerFactory.GetHandler (engine envOk).traced)
        { ID := some "order-9", Status := some "invalid", CreatedAt := none } (wLoad, []) =
      ((some { ID := "order-9", Status := "invalid", CreatedAt := 0 }, none), (wLoad, [])) :=
  ⟨rfl,
    (undefined_status_is_skipped (engine envOk) (gatewayWith "invalid") "order-9" "invalid" none
      { ID := "order-9", Status := "invalid", CreatedAt := 0 } wLoad [] rfl (by decide)
      (by decide) (by decide)).2⟩

/-- Witness of C18: the lookup of an order without delivery reports `ErrDeliveryNotFound`,
and `DeliveryUnassign` fails with an error that is `ErrDeliveryNotFound`. -/
theorem collaborator_errors_propagate_witness :
    isValidOrderID "order-404" = true ∧
    UnassignCollaboratorError envOk "order-404" wLoad ErrDeliveryNotFound ∧
    ∃ r, (DeliveryUnassign envOk "order-404" wLoad).1 = .error r ∧
      errorsIs r ErrDeliveryNotFound = true :=
  have hcollab : UnassignCollaboratorError envOk "order-404" wLoad ErrDeliveryNotFound :=
    UnassignCollaboratorError.GetCourierIDAndDeliveryCount
      ((wLoad.record Call.TxDo).record
        (Call.GetCourierIDAndDeliveryCountByOrderIDForAssing "order-404"))
      rfl (by decide)
  ⟨by decide, hcollab,
    ((collaborator_errors_propagate envOk "order-404" wLoad ErrDeliveryNotFound
      (by decide)).2.1 hcollab).1⟩

/-- Witness of C19: `NotFound` is tried once; two `Unavailable` failures followed by a
success make three invocations. -/
theorem executeWithContext_attempts_witness :
    ExecuteWithContext gatewayShouldRetry benvOk fnNotFound 1 =
      some (some (.grpc Code.NotFound "order not found"), 1) ∧
    ExecuteWithContext gatewayShouldRetry benvOk fnTwoFailures 3 = some (none, 3) :=
  ⟨(executeWithContext_attempts gatewayShouldRetry benvOk fnNotFound 0 0).1
      (fun e => isRetryableCode (some e)) (.grpc Code.NotFound "order not found") rfl rfl rfl,
    (executeWithContext_attempts gatewayShouldRetry benvOk fnTwoFailures 2 3).2
      (by
        intro i hi
        refine ⟨.grpc Code.Unavailable "service unavailable", by simp [fnTwoFailures, hi], ?_⟩
        intro f hf
        have hf' : f = fun e => isRetryableCode (some e) := (Option.some.inj hf).symm
        rw [hf']
        rfl)
      rfl
      (by
        intro i _
        simp [benvOk])
      (fun _ => rfl)
      (le_refl 3)⟩

/-- Witness of C20: a `NotFound` status is not retryable and is made permanent. -/
theorem isRetryableCode_iff_witness :
    isRetryableCode (some (.grpc Code.NotFound "order not found")) = false ∧
    operation gatewayShouldRetry (some (.grpc Code.NotFound "order not found")) =
      .permanent (.grpc Code.NotFound "order not found") :=
  ⟨by decide,
    (isRetryableCode_iff none).2.2.2.2.1 (.grpc Code.NotFound "order not found") (by decide)⟩

/-! ## Courier release, cancellation and permanent errors -/

theorem GetCourierIDByOrderID_first (env : Env) (orderID : String) (w : World) (d : Delivery)
    (rest : List Delivery) (hs : env.faults.selectCourierID = none)
    (hrow : w.db.delivery.filter (fun x => decide (x.OrderID = orderID)) = d :: rest) :
    DeliveryRepository.GetCourierIDByOrderID env orderID w =
      (.ok d.CourierID, w.record (Call.GetCourierIDByOrderID orderID)) := by
  unfold DeliveryRepository.GetCourierIDByOrderID sqlSelectCourierIDByOrderID scanRow
  simp [hs, hrow]

theorem GetCourierIDByOrderID_absent (env : Env) (orderID : String) (w : World)
    (hs : env.faults.selectCourierID = none)
    (hno : ∀ d ∈ w.db.delivery, d.OrderID ≠ orderID) :
    DeliveryRepository.GetCourierIDByOrderID env orderID w =
      (.error ErrDeliveryNotFound, w.record (Call.GetCourierIDByOrderID orderID)) := by
  have hrow : w.db.delivery.filter (fun x => decide (x.OrderID = orderID)) = [] := by
    rw [List.filter_eq_nil_iff]
    intro d hd
    simpa using hno d hd
  unfold DeliveryRepository.GetCourierIDByOrderID sqlSelectCourierIDByOrderID scanRow
  simp [hs, hrow, errorsIs, PgxErrNoRows]

theorem setStatus_frame (now : Time) (courierID : Int) (status : String) (cs : List Courier) :
    List.Forall₂ (fun c0 c1 : Courier =>
        c1.ID = c0.ID ∧ c1.Name = c0.Name ∧ c1.Phone = c0.Phone ∧
        c1.TransportType = c0.TransportType ∧ c1.CreatedAt = c0.CreatedAt ∧
        (c0.ID = courierID → c1.Status = status) ∧ (c0.ID ≠ courierID → c1 = c0))
      cs (setStatus now courierID status cs) := by
  unfold setStatus
  rw [List.forall₂_map_right_iff, List.forall₂_same]
  intro c _
  by_cases h : c.ID = courierID <;> simp [h]

theorem retryLoop_stops_at_cancellation (shouldRetry : Option (Err → Bool)) (benv : BackoffEnv)
    (fn : Nat → Option Err) :
    ∀ (fuel i : Nat) (r : Option Err) (n : Nat),
      retryLoop shouldRetry benv fn fuel i = some (r, n) →
      ∀ p, 2 * i ≤ p → benv.ctxErr p ≠ none → n ≤ p / 2 + 1 := by
  intro fuel
  induction fuel with
  | zero =>
    intro i r n h
    simp [retryLoop] at h
  | succ fuel ih =>
    intro i r n h p hp hc
    have hi : i + 1 ≤ p / 2 + 1 := by omega
    unfold retryLoop at h
    cases hop : operation shouldRetry (fn i) with
    | success =>
      simp only [hop] at h
      cases h
      exact hi
    | permanent err =>
      simp only [hop] at h
      cases h
      exact hi
    | failed err =>
      simp only [hop] at h
      cases h0 : benv.ctxErr (2 * i) with
      | some cerr =>
        simp only [h0] at h
        cases h
        exact hi
      | none =>
        simp only [h0] at h
        cases hn : benv.nextBackOff i with
        | none =>
          simp only [hn] at h
          cases h
          exact hi
        | some dur =>
          simp only [hn] at h
          cases h1 : benv.ctxErr (2 * i + 1) with
          | some cerr =>
            simp only [h1] at h
            cases h
            exact hi
          | none =>
            simp only [h1] at h
            have hp0 : p ≠ 2 * i := fun e => hc (e ▸ h0)
            have hp1 : p ≠ 2 * i + 1 := fun e => hc (e ▸ h1)
            exact ih (i + 1) r n h p (by omega) hc

theorem retryLoop_returns_once_cancelled (shouldRetry : Option (Err → Bool)) (benv : BackoffEnv)
    (fn : Nat → Option Err) :
    ∀ (fuel i p : Nat), 2 * i ≤ p → benv.ctxErr p ≠ none → p / 2 + 1 ≤ i + fuel →
      ∃ r n, retryLoop shouldRetry benv fn fuel i = some (r, n) := by
  intro fuel
  induction fuel with
  | zero =>
    intro i p hp _ hf
    omega
  | succ fuel ih =>
    intro i p hp hc hf
    unfold retryLoop
    cases hop : operation shouldRetry (fn i) with
    | success => exact ⟨_, _, rfl⟩
    | permanent err => exact ⟨_, _, rfl⟩
    | failed err =>
      cases h0 : benv.ctxErr (2 * i) with
      | some cerr => exact ⟨_, _, rfl⟩
      | none =>
        cases hn : benv.nextBackOff i with
        | none => exact ⟨_, _, rfl⟩
        | some dur =>
          cases h1 : benv.ctxErr (2 * i + 1) with
          | some cerr => exact ⟨_, _, rfl⟩
          | none =>
            have hp0 : p ≠ 2 * i := fun e => hc (e ▸ h0)
            have hp1 : p ≠ 2 * i + 1 := fun e => hc (e ▸ h1)
            exact ih (i + 1) p (by omega) hc (by omega)

/-- Claim C21. When the context of `ExecuteWithContext` is already cancelled at the first
look the loop takes at it and the first attempt fails with an error that is not marked
permanent, the call returns the error of the context after that single attempt.  More
generally, when the loop finds the context cancelled at an observation point `p` (after the
failed attempt `p / 2`, or while waiting after it), no attempt beyond attempt `p / 2` is
started, and `p / 2 + 1` units of fuel are enough for the call to return. -/
theorem cancelled_context_stops_retrying (shouldRetry : Option (Err → Bool))
    (benv : BackoffEnv) (fn : Nat → Option Err) :
    (∀ cerr e fuel, benv.ctxErr 0 = some cerr → fn 0 = some e →
        (∀ f, shouldRetry = some f → f e = true) →
        ExecuteWithContext shouldRetry benv fn (fuel + 1) = some (some cerr, 1)) ∧
    (∀ fuel r n p, ExecuteWithContext shouldRetry benv fn fuel = some (r, n) →
        benv.ctxErr p ≠ none → n ≤ p / 2 + 1) ∧
    (∀ p, benv.ctxErr p ≠ none →
        ∃ r n, ExecuteWithContext shouldRetry benv fn (p / 2 + 1) = some (r, n)) := by
  refine ⟨?_, ?_, ?_⟩
  · intro cerr e fuel hc hfn hretry
    have hop : operation shouldRetry (some e) = .failed e := by
      unfold operation
      cases hs : shouldRetry with
      | none => rfl
      | some f => simp [hretry f hs]
    unfold ExecuteWithContext retryLoop
    simp only [hfn, hop]
    simp [hc]
  · intro fuel r n p h hc
    exact retryLoop_stops_at_cancellation shouldRetry benv fn fuel 0 r n h p (by omega) hc
  · intro p hc
    exact retryLoop_returns_once_cancelled shouldRetry benv fn (p / 2 + 1) 0 p (by omega) hc
      (by omega)

/-- Witness of C21, as in the gateway test of a cancelled context: the context is cancelled
from the start, the order service answers `Unavailable`, and the gateway predicate would
retry; one attempt is made and `context.Canceled` is returned. -/
theorem cancelled_context_stops_retrying_witness :
    benvCancelled.ctxErr 0 = some ContextCanceled ∧
    gatewayShouldRetry.isSome = true ∧
    ExecuteWithContext gatewayShouldRetry benvCancelled fnUnavailable 1 =
      some (some ContextCanceled, 1) :=
  ⟨rfl, rfl,
    (cancelled_context_stops_retrying gatewayShouldRetry benvCancelled fnUnavailable).1
      ContextCanceled (.grpc Code.Unavailable "service unavailable") 0 rfl rfl
      (by
        intro f hf
        have hf2 : f = fun e => isRetryableCode (some e) := by
          unfold gatewayShouldRetry at hf
          exact (Option.some.inj hf).symm
        rw [hf2]
        rfl)⟩

/-- Claim C29. The closure `operation` of `ExecuteWithContext` hands a failed attempt to the
back-off loop as permanent exactly when a `ShouldRetry` predicate is configured and answers
false for the error, and as the plain error otherwise; with no predicate no error is
permanent; a nil result stays nil whatever the predicate, and an error is never turned into
a success. -/
theorem operation_permanent_iff (shouldRetry : Option (Err → Bool)) (err : Err) :
    (operation shouldRetry (some err) = .permanent err ↔
      ∃ f, shouldRetry = some f ∧ f err = false) ∧
    (operation shouldRetry (some err) = .permanent err ∨
      operation shouldRetry (some err) = .failed err) ∧
    (∀ err1, operation none (some err) ≠ .permanent err1) ∧
    operation none (some err) = .failed err ∧
    operation shouldRetry none = .success ∧
    operation shouldRetry (some err) ≠ .success := by
  unfold operation
  cases shouldRetry with
  | none => simp
  | some f => cases hf : f err <;> simp [hf]

/-- Claim C28. With the transaction, the lookup, the courier update and the commit
executing, `FreeCourierByOrderID` of an order with a delivery row, whose courier exists,
succeeds after exactly three calls: the transaction manager, the lookup of the courier id
by order id (not the lookup that counts the other deliveries) and one courier update whose
modification carries the status `available` and no other field.  The delivery table is what
it was, whatever other deliveries the courier owns, and the courier rows differ only in the
status of that courier (and its update time).  When no delivery row has the order id the
call fails with an error that is `ErrDeliveryNotFound`, after the lookup alone, and the
database is what it was.  In every run the delivery table is left as it was. -/
theorem freeCourier_releases_owner_only (env : Env) (w : World) (orderID : String)
    (hv : isValidOrderID orderID = true) (hb : env.faults.beginTx = none)
    (hs : env.faults.selectCourierID = none) :
    (∀ d rest c, w.db.delivery.filter (fun x => decide (x.OrderID = orderID)) = d :: rest →
      c ∈ w.db.couriers → c.ID = d.CourierID →
      env.faults.updateCourier = none → env.faults.commitTx = none →
      FreeCourierByOrderID env orderID w =
        (none,
         { db := { couriers := setStatus env.sqlNow d.CourierID CourierAvailable w.db.couriers,
                   delivery := w.db.delivery },
           log := w.log ++ [Call.TxDo, Call.GetCourierIDByOrderID orderID,
             Call.UpdateCourier (statusModify d.CourierID CourierAvailable)] }) ∧
      List.Forall₂ (fun c0 c1 : Courier =>
          c1.ID = c0.ID ∧ c1.Name = c0.Name ∧ c1.Phone = c0.Phone ∧
          c1.TransportType = c0.TransportType ∧ c1.CreatedAt = c0.CreatedAt ∧
          (c0.ID = d.CourierID → c1.Status = CourierAvailable) ∧
          (c0.ID ≠ d.CourierID → c1 = c0))
        w.db.couriers (FreeCourierByOrderID env orderID w).2.db.couriers) ∧
    ((∀ d ∈ w.db.delivery, d.OrderID ≠ orderID) →
      FreeCourierByOrderID env orderID w =
        (some (.wrap "get courier by order id" ErrDeliveryNotFound),
         { db := w.db, log := w.log ++ [Call.TxDo, Call.GetCourierIDByOrderID orderID] }) ∧
      errorsIs (.wrap "get courier by order id" ErrDeliveryNotFound) ErrDeliveryNotFound
        = true) ∧
    (FreeCourierByOrderID env orderID w).2.db.delivery = w.db.delivery := by
  refine ⟨?_, ?_, ?_⟩
  · intro d rest c hrow hc hcid hu hcm
    have hget := GetCourierIDByOrderID_first env orderID (w.record Call.TxDo) d rest hs hrow
    have hupd := UpdateCourier_status env d.CourierID CourierAvailable
      ((w.record Call.TxDo).record (Call.GetCourierIDByOrderID orderID)) hu
      CourierAvailable_valid
    have hmem : c ∈ w.db.couriers.filter (fun x => decide (x.ID = d.CourierID)) := by
      rw [List.mem_filter]
      exact ⟨hc, by simp [hcid]⟩
    cases hrows : w.db.couriers.filter (fun x => decide (x.ID = d.CourierID)) with
    | nil =>
      rw [hrows] at hmem
      cases hmem
    | cons c1 cs =>
      have hrows2 : ((w.record Call.TxDo).record
          (Call.GetCourierIDByOrderID orderID)).db.couriers.filter
          (fun x => decide (x.ID = d.CourierID)) = c1 :: cs := hrows
      rw [hrows2] at hupd
      have heq := FreeCourier_commit env orderID w _ _ d.CourierID _ hv hb hget hupd rfl
      rw [hcm] at heq
      have heq2 : FreeCourierByOrderID env orderID w =
          (none,
           { db := { couriers := setStatus env.sqlNow d.CourierID CourierAvailable
                       w.db.couriers,
                     delivery := w.db.delivery },
             log := w.log ++ [Call.TxDo, Call.GetCourierIDByOrderID orderID,
               Call.UpdateCourier (statusModify d.CourierID CourierAvailable)] }) := by
        rw [heq]
        simp [World.record]
      refine ⟨heq2, ?_⟩
      rw [heq2]
      exact setStatus_frame env.sqlNow d.CourierID CourierAvailable w.db.couriers
  · intro hno
    have hget := GetCourierIDByOrderID_absent env orderID (w.record Call.TxDo) hs hno
    refine ⟨?_, ?_⟩
    · rw [FreeCourier_lookup_fails env orderID w _ ErrDeliveryNotFound hv hb hget]
      simp [World.record]
    · exact errorsIs_wrap _ _ _ (errorsIs_refl _)
  · rcases FreeCourier_db_cases env orderID w with h | ⟨cid, h⟩
    · rw [h]
    · rw [h]

/-- Witness of C28 on example scenario 4 of the spec: the courier owns `O1` and `O2`, both
active; releasing it by `O1` succeeds and leaves both delivery rows, where the unassignment
of `O1` is refused. -/
theorem freeCourier_releases_owner_only_witness :
    isValidOrderID "O1" = true ∧
    FreeCourierByOrderID envOk "O1" wTwo =
      (none,
       { db := { couriers := [{ mkCourier 1 "available" "car" with UpdatedAt := 50 }],
                 delivery := [mkDelivery 1 1 "O1" 100, mkDelivery 2 1 "O2" 100] },
         log := [Call.TxDo, Call.GetCourierIDByOrderID "O1",
           Call.UpdateCourier (statusModify 1 CourierAvailable)] }) ∧
    (DeliveryUnassign envOk "O1" wTwo).1 = .error ErrCourierHasActiveDeliveries :=
  ⟨by decide,
    ((freeCourier_releases_owner_only envOk wTwo "O1" (by decide) rfl rfl).1
      (mkDelivery 1 1 "O1" 100) [] (mkCourier 1 "busy" "car")
      (by decide) (by decide) rfl rfl rfl).1,
    by decide⟩

/-! ## Float64 rounding -/

theorem bitLength_spec : ∀ (fuel n : Nat), n ≤ fuel → n ≠ 0 →
    n < 2 ^ bitLength fuel n ∧ 2 ^ bitLength fuel n ≤ 2 * n := by
  intro fuel
  induction fuel with
  | zero =>
    intro n h hn
    omega
  | succ fuel ih =>
    intro n h hn
    have hb : bitLength (fuel + 1) n = bitLength fuel (n / 2) + 1 := by
      simp [bitLength, hn]
    rw [hb, pow_succ]
    by_cases h2 : n / 2 = 0
    · have h1 : n = 1 := by omega
      have hz : bitLength fuel (n / 2) = 0 := by
        rw [h2]
        cases fuel <;> simp [bitLength]
      rw [hz, h1]
      simp
    · obtain ⟨i1, i2⟩ := ih (n / 2) (by omega) h2
      constructor <;> omega

theorem floorLog2_spec (n d : Nat) (hn : 0 < n) (hd : 0 < d) :
    (2 : ℚ) ^ (floorLog2 n d) ≤ (n : ℚ) / d ∧ (n : ℚ) / d < (2 : ℚ) ^ (floorLog2 n d + 1) := by
  obtain ⟨n1, n2⟩ := bitLength_spec n n (le_refl _) (by omega)
  obtain ⟨d1, d2⟩ := bitLength_spec d d (le_refl _) (by omega)
  have hdq : (0 : ℚ) < (d : ℚ) := by exact_mod_cast hd
  have hnq : (0 : ℚ) < (n : ℚ) := by exact_mod_cast hn
  have q1 : (n : ℚ) < 2 ^ bitLength n n := by exact_mod_cast n1
  have q2 : (2 : ℚ) ^ bitLength n n ≤ 2 * n := by exact_mod_cast n2
  have q3 : (d : ℚ) < 2 ^ bitLength d d := by exact_mod_cast d1
  have q4 : (2 : ℚ) ^ bitLength d d ≤ 2 * d := by exact_mod_cast d2
  have hpn : (0 : ℚ) < 2 ^ bitLength n n := by positivity
  have hpd : (0 : ℚ) < 2 ^ bitLength d d := by positivity
  have hz : ∀ k : Int, (2 : ℚ) ^ ((bitLength n n : Int) - (bitLength d d : Int) + k) =
      2 ^ bitLength n n / 2 ^ bitLength d d * 2 ^ k := by
    intro k
    rw [zpow_add₀ (by norm_num), zpow_sub₀ (by norm_num), zpow_natCast, zpow_natCast]
  unfold floorLog2
  simp only []
  split_ifs with hT
  · have hTq : (d : ℚ) * 2 ^ bitLength n n ≤ n * 2 ^ bitLength d d := by exact_mod_cast hT
    have e0 := hz 0
    have e1 := hz 1
    simp only [add_zero, zpow_zero, mul_one, zpow_one] at e0 e1
    rw [e0, e1]
    constructor
    · rw [div_le_div_iff₀ hpd hdq]
      linarith
    · rw [div_mul_eq_mul_div, div_lt_div_iff₀ hdq hpd]
      nlinarith
  · have hTq : (n : ℚ) * 2 ^ bitLength d d < d * 2 ^ bitLength n n := by
      exact_mod_cast not_le.mp hT
    have e0 := hz 0
    have e1 := hz (-1)
    simp only [add_zero, zpow_zero, mul_one] at e0
    have e2 : ((bitLength n n : Int) - (bitLength d d : Int) - 1 + 1) =
        (bitLength n n : Int) - (bitLength d d : Int) := by ring
    have e3 : ((bitLength n n : Int) - (bitLength d d : Int) - 1) =
        (bitLength n n : Int) - (bitLength d d : Int) + (-1) := by ring
    rw [e2, e0, e3, e1]
    constructor
    · rw [zpow_neg, zpow_one, div_mul_eq_mul_div, div_le_div_iff₀ hpd hdq]
      nlinarith
    · rw [div_lt_div_iff₀ hdq hpd]
      linarith

theorem roundHalfEven_le (n d : Nat) (hd : 0 < d) :
    2 * (d * roundHalfEven n d) ≤ 2 * n + d := by
  have h := Nat.div_add_mod n d
  have hr := Nat.mod_lt n hd
  unfold roundHalfEven
  simp only []
  split_ifs
  · omega
  · rw [Nat.mul_add]
    omega
  · omega
  · rw [Nat.mul_add]
    omega

theorem roundHalfEven_exact (k d : Nat) (hd : 0 < d) : roundHalfEven (k * d) d = k := by
  unfold roundHalfEven
  simp [Nat.mul_div_cancel _ hd, hd]

theorem roundRatio_val_le (n d : Nat) (s : Int) (hn : 0 < n) (hd : 0 < d) :
    (roundRatio n d s).exp = max (floorLog2 n d + s - 52) (-1074) ∧
    0 ≤ (roundRatio n d s).mant ∧
    (roundRatio n d s).val ≤
      (n : ℚ) / d * (2 : ℚ) ^ s + (2 : ℚ) ^ (max (floorLog2 n d + s - 52) (-1074)) / 2 := by
  have hn0 : n ≠ 0 := by omega
  unfold roundRatio Float64.val
  simp only [hn0, if_false]
  refine ⟨trivial, Int.natCast_nonneg _, ?_⟩
  generalize max (floorLog2 n d + s - 52) (-1074) = e
  have hab : ((s - e).toNat : Int) - ((e - s).toNat : Int) = s - e := by
    have := Int.toNat_sub_toNat_neg (s - e)
    rw [neg_sub] at this
    exact this
  have hD : 0 < d * 2 ^ (e - s).toNat := Nat.mul_pos hd (by positivity)
  have hle := roundHalfEven_le (n * 2 ^ (s - e).toNat) (d * 2 ^ (e - s).toNat) hD
  generalize roundHalfEven (n * 2 ^ (s - e).toNat) (d * 2 ^ (e - s).toNat) = m at hle
  have hq : (2 : ℚ) * (((d : ℚ) * 2 ^ (e - s).toNat) * m) ≤
      2 * ((n : ℚ) * 2 ^ (s - e).toNat) + (d : ℚ) * 2 ^ (e - s).toNat := by
    exact_mod_cast hle
  have hdq : (0 : ℚ) < (d : ℚ) := by exact_mod_cast hd
  have hpa : (0 : ℚ) < (2 : ℚ) ^ (s - e).toNat := by positivity
  have hpb : (0 : ℚ) < (2 : ℚ) ^ (e - s).toNat := by positivity
  have hpe : (0 : ℚ) < (2 : ℚ) ^ e := by positivity
  have hs : (2 : ℚ) ^ s = 2 ^ (s - e).toNat / 2 ^ (e - s).toNat * 2 ^ e := by
    rw [← zpow_natCast, ← zpow_natCast, ← zpow_sub₀ (by norm_num), ← zpow_add₀ (by norm_num),
      hab]
    congr 1
    ring
  rw [hs]
  have hm : (m : ℚ) ≤ (n : ℚ) * 2 ^ (s - e).toNat / ((d : ℚ) * 2 ^ (e - s).toNat) + 1 / 2 := by
    have hDq : (0 : ℚ) < (d : ℚ) * 2 ^ (e - s).toNat := by positivity
    rw [div_add_div _ _ (ne_of_gt hDq) (by norm_num), le_div_iff₀ (by positivity)]
    linarith
  have h2 : ((m : Int) : ℚ) = (m : ℚ) := by push_cast; rfl
  rw [h2]
  calc (m : ℚ) * 2 ^ e
      ≤ ((n : ℚ) * 2 ^ (s - e).toNat / ((d : ℚ) * 2 ^ (e - s).toNat) + 1 / 2) * 2 ^ e :=
        mul_le_mul_of_nonneg_right hm (le_of_lt hpe)
    _ = (n : ℚ) / d * (2 ^ (s - e).toNat / 2 ^ (e - s).toNat * 2 ^ e) + 2 ^ e / 2 := by
        field_simp
        ring

theorem two_zpow_small : (2 : ℚ) ^ (-1021 : Int) + (2 : ℚ) ^ (-1074 : Int) / 2 < 1 := by
  have h1 : (2 : ℚ) ^ (-1021 : Int) ≤ 2 ^ (-2 : Int) := zpow_le_zpow_right₀ (by norm_num) (by norm_num)
  have h2 : (2 : ℚ) ^ (-1074 : Int) ≤ 2 ^ (-2 : Int) := zpow_le_zpow_right₀ (by norm_num) (by norm_num)
  have h3 : (2 : ℚ) ^ (-2 : Int) = 1 / 4 := by norm_num
  rw [h3] at h1 h2
  linarith

theorem roundRatio_normal (n d : Nat) (s : Int) (hn : 0 < n) (hd : 0 < d)
    (hx : (2 : ℚ) ^ (-1021 : Int) ≤ (n : ℚ) / d * (2 : ℚ) ^ s) :
    (roundRatio n d s).val ≤ (n : ℚ) / d * (2 : ℚ) ^ s * (1 + (2 : ℚ) ^ (-53 : Int)) := by
  obtain ⟨_, _, hv⟩ := roundRatio_val_le n d s hn hd
  obtain ⟨f1, f2⟩ := floorLog2_spec n d hn hd
  have hps : (0 : ℚ) < (2 : ℚ) ^ s := by positivity
  have hup : (n : ℚ) / d * (2 : ℚ) ^ s < (2 : ℚ) ^ (floorLog2 n d + 1 + s) := by
    rw [zpow_add₀ (by norm_num : (2 : ℚ) ≠ 0) (floorLog2 n d + 1) s]
    exact mul_lt_mul_of_pos_right f2 hps
  have hlt := lt_of_le_of_lt hx hup
  rw [zpow_lt_zpow_iff_right₀ (by norm_num)] at hlt
  have he : max (floorLog2 n d + s - 52) (-1074) = floorLog2 n d + s - 52 :=
    max_eq_left (by omega)
  rw [he] at hv
  have hlow : (2 : ℚ) ^ (floorLog2 n d + s) ≤ (n : ℚ) / d * (2 : ℚ) ^ s := by
    rw [zpow_add₀ (by norm_num : (2 : ℚ) ≠ 0)]
    exact mul_le_mul_of_nonneg_right f1 (le_of_lt hps)
  have hhalf : (2 : ℚ) ^ (floorLog2 n d + s - 52) / 2 =
      (2 : ℚ) ^ (floorLog2 n d + s) * (2 : ℚ) ^ (-53 : Int) := by
    rw [← zpow_add₀ (by norm_num : (2 : ℚ) ≠ 0)]
    rw [div_eq_iff (by norm_num), ← zpow_add_one₀ (by norm_num : (2 : ℚ) ≠ 0)]
    congr 1
    ring
  rw [hhalf] at hv
  have hu : (0 : ℚ) ≤ (2 : ℚ) ^ (-53 : Int) := by positivity
  nlinarith [mul_le_mul_of_nonneg_right hlow hu]

theorem roundRatio_ge_one (n d : Nat) (s : Int) (hn : 0 < n) (hd : 0 < d)
    (h1 : 1 ≤ (roundRatio n d s).val) :
    (roundRatio n d s).val ≤ (n : ℚ) / d * (2 : ℚ) ^ s * (1 + (2 : ℚ) ^ (-53 : Int)) := by
  by_cases hx : (2 : ℚ) ^ (-1021 : Int) ≤ (n : ℚ) / d * (2 : ℚ) ^ s
  · exact roundRatio_normal n d s hn hd hx
  · exfalso
    obtain ⟨_, _, hv⟩ := roundRatio_val_le n d s hn hd
    obtain ⟨f1, _⟩ := floorLog2_spec n d hn hd
    have hps : (0 : ℚ) < (2 : ℚ) ^ s := by positivity
    have hlow : (2 : ℚ) ^ (floorLog2 n d + s) ≤ (n : ℚ) / d * (2 : ℚ) ^ s := by
      rw [zpow_add₀ (by norm_num : (2 : ℚ) ≠ 0)]
      exact mul_le_mul_of_nonneg_right f1 (le_of_lt hps)
    have hlt := lt_of_le_of_lt hlow (not_le.mp hx)
    rw [zpow_lt_zpow_iff_right₀ (by norm_num)] at hlt
    have he : max (floorLog2 n d + s - 52) (-1074) = -1074 := max_eq_right (by omega)
    rw [he] at hv
    have := two_zpow_small
    linarith [not_le.mp hx]

theorem roundRatio_exact (n : Nat) (s : Int) (hn : 0 < n)
    (he : max (floorLog2 n 1 + s - 52) (-1074) ≤ s) :
    (roundRatio n 1 s).val = (n : ℚ) * (2 : ℚ) ^ s := by
  have hn0 : n ≠ 0 := by omega
  unfold roundRatio Float64.val
  simp only [hn0, if_false]
  generalize max (floorLog2 n 1 + s - 52) (-1074) = e at he
  have hb : (e - s).toNat = 0 := by omega
  rw [hb, pow_zero, Nat.mul_one]
  have hex := roundHalfEven_exact (n * 2 ^ (s - e).toNat) 1 (by norm_num)
  rw [Nat.mul_one] at hex
  rw [hex]
  have ha : ((s - e).toNat : Int) = s - e := Int.toNat_of_nonneg (by omega)
  push_cast
  rw [mul_assoc, ← zpow_natCast, ← zpow_add₀ (by norm_num : (2 : ℚ) ≠ 0), ha]
  congr 2
  ring

theorem roundRatio_mant_exp (n d : Nat) (s : Int) :
    0 ≤ (roundRatio n d s).mant ∧ -1074 ≤ (roundRatio n d s).exp := by
  unfold roundRatio
  split_ifs
  · exact ⟨le_refl _, by norm_num⟩
  · exact ⟨Int.natCast_nonneg _, le_max_right _ _⟩

theorem roundRatio_zero_val (d : Nat) (s : Int) : (roundRatio 0 d s).val = 0 := by
  simp [roundRatio, Float64.val]

theorem roundSigned_nonneg (num : Int) (d : Nat) (s : Int) (h : 0 ≤ num) :
    roundSigned num d s = roundRatio num.natAbs d s := by
  unfold roundSigned
  simp [not_lt.mpr h]

theorem two_zpow_le_one : (2 : ℚ) ^ (-1021 : Int) ≤ 1 := by
  have h1 : (2 : ℚ) ^ (-1021 : Int) ≤ 2 ^ (0 : Int) :=
    zpow_le_zpow_right₀ (by norm_num) (by norm_num)
  simpa using h1

theorem two_zpow_le_nano : (2 : ℚ) ^ (-1021 : Int) ≤ 1 / 1000000000 := by
  have h1 : (2 : ℚ) ^ (-1021 : Int) ≤ 2 ^ (-30 : Int) :=
    zpow_le_zpow_right₀ (by norm_num) (by norm_num)
  have h2 : (2 : ℚ) ^ (-30 : Int) ≤ 1 / 1000000000 := by norm_num
  exact le_trans h1 h2

/-- The rounding of an integer multiple of a power of two not below the smallest one is at
most the relative error above the exact value. -/
theorem roundRatio_int_le (n : Nat) (s : Int) (hs : -1074 ≤ s) :
    (roundRatio n 1 s).val ≤ (n : ℚ) * (2 : ℚ) ^ s * (1 + (2 : ℚ) ^ (-53 : Int)) := by
  have hu : (0 : ℚ) ≤ (2 : ℚ) ^ (-53 : Int) := by positivity
  have hps : (0 : ℚ) < (2 : ℚ) ^ s := by positivity
  rcases Nat.eq_zero_or_pos n with h0 | hn
  · subst h0
    rw [roundRatio_zero_val]
    simp
  have hnq : (0 : ℚ) < (n : ℚ) := by exact_mod_cast hn
  by_cases hx : (2 : ℚ) ^ (-1021 : Int) ≤ (n : ℚ) / (1 : Nat) * (2 : ℚ) ^ s
  · have := roundRatio_normal n 1 s hn (by norm_num) hx
    simpa using this
  · obtain ⟨f1, _⟩ := floorLog2_spec n 1 hn (by norm_num)
    have hlow : (2 : ℚ) ^ (floorLog2 n 1 + s) ≤ (n : ℚ) / (1 : Nat) * (2 : ℚ) ^ s := by
      rw [zpow_add₀ (by norm_num : (2 : ℚ) ≠ 0)]
      exact mul_le_mul_of_nonneg_right f1 (le_of_lt hps)
    have hlt := lt_of_le_of_lt hlow (not_le.mp hx)
    rw [zpow_lt_zpow_iff_right₀ (by norm_num)] at hlt
    have he : max (floorLog2 n 1 + s - 52) (-1074) = -1074 := max_eq_right (by omega)
    rw [roundRatio_exact n s hn (by rw [he]; exact hs)]
    have hxnn : (0 : ℚ) ≤ (n : ℚ) * (2 : ℚ) ^ s := by positivity
    nlinarith

theorem ofInt_le (i : Int) (hi : 0 ≤ i) :
    0 ≤ (Float64.ofInt i).mant ∧ -1074 ≤ (Float64.ofInt i).exp ∧
    (Float64.ofInt i).val ≤ (i : ℚ) * (1 + (2 : ℚ) ^ (-53 : Int)) := by
  unfold Float64.ofInt
  rw [roundSigned_nonneg i 1 0 hi]
  obtain ⟨h1, h2⟩ := roundRatio_mant_exp i.natAbs 1 0
  refine ⟨h1, h2, ?_⟩
  have h := roundRatio_int_le i.natAbs 0 (by norm_num)
  have hc : ((i.natAbs : Nat) : ℚ) = (i : ℚ) := by
    rw [← Int.cast_natCast, Int.natAbs_of_nonneg hi]
  rw [hc] at h
  simpa using h

theorem ofInt_exact (i : Int) (hi : 0 ≤ i) (hlt : i < 9007199254740992) :
    (Float64.ofInt i).val = (i : ℚ) := by
  unfold Float64.ofInt
  rw [roundSigned_nonneg i 1 0 hi]
  have hc : ((i.natAbs : Nat) : ℚ) = (i : ℚ) := by
    rw [← Int.cast_natCast, Int.natAbs_of_nonneg hi]
  rcases Nat.eq_zero_or_pos i.natAbs with h0 | hn
  · rw [h0, roundRatio_zero_val]
    rw [h0] at hc
    simpa using hc
  · obtain ⟨f1, _⟩ := floorLog2_spec i.natAbs 1 hn (by norm_num)
    have hlt2 : ((i.natAbs : Nat) : ℚ) < (2 : ℚ) ^ (53 : Int) := by
      rw [hc]
      have : (i : ℚ) < 9007199254740992 := by exact_mod_cast hlt
      have h53 : (2 : ℚ) ^ (53 : Int) = 9007199254740992 := by norm_num
      rw [h53]
      exact this
    have hfl : (2 : ℚ) ^ (floorLog2 i.natAbs 1) < (2 : ℚ) ^ (53 : Int) := by
      refine lt_of_le_of_lt ?_ hlt2
      simpa using f1
    rw [zpow_lt_zpow_iff_right₀ (by norm_num)] at hfl
    have he : max (floorLog2 i.natAbs 1 + 0 - 52) (-1074) ≤ 0 := max_le (by omega) (by norm_num)
    rw [roundRatio_exact i.natAbs 0 hn he, hc]
    simp

theorem toInt_le (x : Float64) (hm : 0 ≤ x.mant) (h1 : 1 ≤ x.toInt) :
    (x.toInt : ℚ) ≤ x.val := by
  unfold Float64.toInt at h1 ⊢
  simp only [] at h1 ⊢
  split_ifs at h1 ⊢ with hr
  swap
  · omega
  have hnum : (0 : Int) ≤ x.mant * 2 ^ x.exp.toNat := mul_nonneg hm (by positivity)
  have hden : (0 : Int) < 2 ^ (-x.exp).toNat := by positivity
  rw [Int.tdiv_eq_ediv hnum (le_of_lt hden)]
  have hle := Int.ediv_mul_le (x.mant * 2 ^ x.exp.toNat) (ne_of_gt hden)
  have hq : (((x.mant * 2 ^ x.exp.toNat / 2 ^ (-x.exp).toNat : Int) : ℚ)) *
      (2 : ℚ) ^ (-x.exp).toNat ≤ (x.mant : ℚ) * (2 : ℚ) ^ x.exp.toNat := by
    exact_mod_cast hle
  have hexp : (2 : ℚ) ^ x.exp = 2 ^ x.exp.toNat / 2 ^ (-x.exp).toNat := by
    rw [← zpow_natCast, ← zpow_natCast, ← zpow_sub₀ (by norm_num), Int.toNat_sub_toNat_neg]
  unfold Float64.val
  rw [hexp, ← mul_div_assoc, le_div_iff₀ (by positivity)]
  exact hq

theorem val_nonneg (x : Float64) (hm : 0 ≤ x.mant) : 0 ≤ x.val := by
  unfold Float64.val
  have : (0 : ℚ) ≤ (x.mant : ℚ) := by exact_mod_cast hm
  positivity

set_option maxRecDepth 100000 in
theorem ofInt_billion :
    Float64.ofInt 1000000000 = { mant := 8388608000000000, exp := -23 } := by
  decide

theorem div_billion_le (x : Float64) (hm : 0 ≤ x.mant) (hv : x.val = 0 ∨ 1 ≤ x.val) :
    0 ≤ (x.div { mant := 8388608000000000, exp := -23 }).mant ∧
    -1074 ≤ (x.div { mant := 8388608000000000, exp := -23 }).exp ∧
    (x.div { mant := 8388608000000000, exp := -23 }).val ≤
      x.val / 1000000000 * (1 + (2 : ℚ) ^ (-53 : Int)) := by
  have hdiv : x.div { mant := 8388608000000000, exp := -23 } =
      roundRatio x.mant.natAbs 8388608000000000 (x.exp + 23) := by
    unfold Float64.div
    simp only []
    rw [if_neg (by norm_num), roundSigned_nonneg _ _ _ hm]
    congr 1
  rw [hdiv]
  obtain ⟨h1, h2⟩ := roundRatio_mant_exp x.mant.natAbs 8388608000000000 (x.exp + 23)
  refine ⟨h1, h2, ?_⟩
  have hc : ((x.mant.natAbs : Nat) : ℚ) = (x.mant : ℚ) := by
    rw [← Int.cast_natCast, Int.natAbs_of_nonneg hm]
  have hx : ((x.mant.natAbs : Nat) : ℚ) / ((8388608000000000 : Nat) : ℚ) *
      (2 : ℚ) ^ (x.exp + 23) = x.val / 1000000000 := by
    rw [hc, zpow_add₀ (by norm_num : (2 : ℚ) ≠ 0)]
    unfold Float64.val
    norm_num
    ring
  have hu : (0 : ℚ) ≤ (2 : ℚ) ^ (-53 : Int) := by positivity
  rcases Nat.eq_zero_or_pos x.mant.natAbs with h0 | hn
  · rw [h0, roundRatio_zero_val]
    have := val_nonneg x hm
    positivity
  · have hpos : x.val ≠ 0 := by
      unfold Float64.val
      have hmq : (x.mant : ℚ) ≠ 0 := by
        rw [← hc]
        exact_mod_cast (ne_of_gt hn)
      have hp : (2 : ℚ) ^ x.exp ≠ 0 := by positivity
      exact mul_ne_zero hmq hp
    have h1v : 1 ≤ x.val := by
      rcases hv with h | h
      · exact absurd h hpos
      · exact h
    have hnorm := roundRatio_normal x.mant.natAbs 8388608000000000 (x.exp + 23) hn
      (by norm_num) (by
        rw [hx]
        have := two_zpow_le_nano
        have h9 : (1 : ℚ) / 1000000000 ≤ x.val / 1000000000 :=
          div_le_div_of_nonneg_right h1v (by norm_num)
        linarith)
    rw [hx] at hnorm
    exact hnorm

theorem add_le (x y : Float64) (hx : 0 ≤ x.mant) (hy : 0 ≤ y.mant) (hxe : -1074 ≤ x.exp)
    (hye : -1074 ≤ y.exp) :
    0 ≤ (x.add y).mant ∧
    (x.add y).val ≤ (x.val + y.val) * (1 + (2 : ℚ) ^ (-53 : Int)) := by
  unfold Float64.add
  simp only []
  have hN : (0 : Int) ≤ x.mant * 2 ^ (x.exp - min x.exp y.exp).toNat +
      y.mant * 2 ^ (y.exp - min x.exp y.exp).toNat :=
    add_nonneg (mul_nonneg hx (by positivity)) (mul_nonneg hy (by positivity))
  rw [roundSigned_nonneg _ _ _ hN]
  refine ⟨(roundRatio_mant_exp _ _ _).1, ?_⟩
  have h := roundRatio_int_le
    (x.mant * 2 ^ (x.exp - min x.exp y.exp).toNat +
      y.mant * 2 ^ (y.exp - min x.exp y.exp).toNat).natAbs (min x.exp y.exp)
    (le_min hxe hye)
  have hc : (((x.mant * 2 ^ (x.exp - min x.exp y.exp).toNat +
      y.mant * 2 ^ (y.exp - min x.exp y.exp).toNat).natAbs : Nat) : ℚ) =
      (x.mant : ℚ) * 2 ^ (x.exp - min x.exp y.exp).toNat +
        (y.mant : ℚ) * 2 ^ (y.exp - min x.exp y.exp).toNat := by
    rw [← Int.cast_natCast, Int.natAbs_of_nonneg hN]
    push_cast
    rfl
  have e1 : (2 : ℚ) ^ (x.exp - min x.exp y.exp).toNat * (2 : ℚ) ^ (min x.exp y.exp) =
      (2 : ℚ) ^ x.exp := by
    rw [← zpow_natCast, ← zpow_add₀ (by norm_num : (2 : ℚ) ≠ 0),
      Int.toNat_of_nonneg (sub_nonneg.mpr (min_le_left _ _))]
    congr 1
    ring
  have e2 : (2 : ℚ) ^ (y.exp - min x.exp y.exp).toNat * (2 : ℚ) ^ (min x.exp y.exp) =
      (2 : ℚ) ^ y.exp := by
    rw [← zpow_natCast, ← zpow_add₀ (by norm_num : (2 : ℚ) ≠ 0),
      Int.toNat_of_nonneg (sub_nonneg.mpr (min_le_right _ _))]
    congr 1
    ring
  have hval : (((x.mant * 2 ^ (x.exp - min x.exp y.exp).toNat +
      y.mant * 2 ^ (y.exp - min x.exp y.exp).toNat).natAbs : Nat) : ℚ) *
      (2 : ℚ) ^ (min x.exp y.exp) = x.val + y.val := by
    rw [hc, add_mul, mul_assoc, mul_assoc, e1, e2]
    rfl
  rw [hval] at h
  exact h

theorem mul_le (x y : Float64) (hx : 0 ≤ x.mant) (hy : 0 ≤ y.mant) :
    0 ≤ (x.mul y).mant ∧
    (1 ≤ (x.mul y).val → (x.mul y).val ≤ x.val * y.val * (1 + (2 : ℚ) ^ (-53 : Int))) := by
  unfold Float64.mul
  have hN : (0 : Int) ≤ x.mant * y.mant := mul_nonneg hx hy
  rw [roundSigned_nonneg _ _ _ hN]
  refine ⟨(roundRatio_mant_exp _ _ _).1, ?_⟩
  intro h1
  rcases Nat.eq_zero_or_pos (x.mant * y.mant).natAbs with h0 | hn
  · rw [h0, roundRatio_zero_val] at h1
    norm_num at h1
  · have h := roundRatio_ge_one (x.mant * y.mant).natAbs 1 (x.exp + y.exp) hn (by norm_num) h1
    have hc : ((((x.mant * y.mant).natAbs : Nat) : ℚ)) / ((1 : Nat) : ℚ) *
        (2 : ℚ) ^ (x.exp + y.exp) = x.val * y.val := by
      rw [← Int.cast_natCast, Int.natAbs_of_nonneg hN, zpow_add₀ (by norm_num : (2 : ℚ) ≠ 0)]
      unfold Float64.val
      push_cast
      ring
    rw [hc] at h
    exact h

theorem Seconds_le (d : Duration) (hd : 0 < d) :
    0 ≤ (Duration.Seconds d).mant ∧
    (Duration.Seconds d).val ≤
      (d : ℚ) / 1000000000 * (1 + (2 : ℚ) ^ (-53 : Int)) ^ 2 := by
  have hsec : 0 ≤ Int.tdiv d 1000000000 := Int.tdiv_nonneg (le_of_lt hd) (by norm_num)
  have hns0 : 0 ≤ Int.tmod d 1000000000 := Int.tmod_nonneg _ (le_of_lt hd)
  have hns1 : Int.tmod d 1000000000 < 1000000000 := Int.tmod_lt_of_pos _ (by norm_num)
  have hdec : 1000000000 * Int.tdiv d 1000000000 + Int.tmod d 1000000000 = d :=
    Int.tdiv_add_tmod d 1000000000
  unfold Duration.Seconds Second
  simp only []
  rw [ofInt_billion]
  generalize Int.tdiv d 1000000000 = sec at hsec hdec
  generalize Int.tmod d 1000000000 = nsec at hns0 hns1 hdec
  obtain ⟨a1, a2, a3⟩ := ofInt_le sec hsec
  obtain ⟨n1, _, _⟩ := ofInt_le nsec hns0
  have nex := ofInt_exact nsec hns0 (by omega)
  have hv : (Float64.ofInt nsec).val = 0 ∨ 1 ≤ (Float64.ofInt nsec).val := by
    rw [nex]
    rcases eq_or_lt_of_le hns0 with h | h
    · left
      rw [← h]
      simp
    · right
      have : (1 : Int) ≤ nsec := h
      exact_mod_cast this
  obtain ⟨b1, b2, b3⟩ := div_billion_le (Float64.ofInt nsec) n1 hv
  rw [nex] at b3
  obtain ⟨s1, s2⟩ := add_le (Float64.ofInt sec)
    ((Float64.ofInt nsec).div { mant := 8388608000000000, exp := -23 }) a1 b1 a2 b2
  refine ⟨s1, le_trans s2 ?_⟩
  have hu : (0 : ℚ) ≤ 1 + (2 : ℚ) ^ (-53 : Int) := by positivity
  have hdq : (d : ℚ) = 1000000000 * (sec : ℚ) + (nsec : ℚ) := by
    rw [← hdec]
    push_cast
    ring
  have hsum : (Float64.ofInt sec).val +
      ((Float64.ofInt nsec).div { mant := 8388608000000000, exp := -23 }).val ≤
      (d : ℚ) / 1000000000 * (1 + (2 : ℚ) ^ (-53 : Int)) := by
    rw [hdq]
    have : (1000000000 * (sec : ℚ) + (nsec : ℚ)) / 1000000000 =
        (sec : ℚ) + (nsec : ℚ) / 1000000000 := by
      field_simp
      ring
    rw [this, add_mul]
    exact add_le_add a3 b3
  calc _ ≤ (d : ℚ) / 1000000000 * (1 + (2 : ℚ) ^ (-53 : Int)) *
        (1 + (2 : ℚ) ^ (-53 : Int)) := mul_le_mul_of_nonneg_right hsum hu
    _ = (d : ℚ) / 1000000000 * (1 + (2 : ℚ) ^ (-53 : Int)) ^ 2 := by ring

/-- The tokens computed for an elapsed time never exceed the exact product of the time with
the rate by more than the three float64 roundings of the computation allow. -/
theorem tokensToAdd_le (refillRate : Float64) (hR : 0 ≤ refillRate.mant) (d : Duration)
    (hd : 0 < d) :
    (tokensToAdd refillRate d : ℚ) ≤
      (d : ℚ) * (refillRate.val * (1 + (2 : ℚ) ^ (-53 : Int)) ^ 3) / 1000000000 := by
  have hRv := val_nonneg refillRate hR
  have hu : (0 : ℚ) ≤ 1 + (2 : ℚ) ^ (-53 : Int) := by positivity
  have hdq : (0 : ℚ) < (d : ℚ) := by exact_mod_cast hd
  by_cases h1 : 1 ≤ tokensToAdd refillRate d
  · obtain ⟨s1, s2⟩ := Seconds_le d hd
    obtain ⟨p1, p2⟩ := mul_le (Duration.Seconds d) refillRate s1 hR
    unfold tokensToAdd at h1 ⊢
    have ht := toInt_le _ p1 h1
    have h1q : (1 : ℚ) ≤ (((Duration.Seconds d).mul refillRate).toInt : ℚ) := by
      exact_mod_cast h1
    have hp := p2 (le_trans h1q ht)
    refine le_trans ht (le_trans hp ?_)
    have hmul : (Duration.Seconds d).val * refillRate.val ≤
        (d : ℚ) / 1000000000 * (1 + (2 : ℚ) ^ (-53 : Int)) ^ 2 * refillRate.val :=
      mul_le_mul_of_nonneg_right s2 hRv
    calc (Duration.Seconds d).val * refillRate.val * (1 + (2 : ℚ) ^ (-53 : Int))
        ≤ (d : ℚ) / 1000000000 * (1 + (2 : ℚ) ^ (-53 : Int)) ^ 2 * refillRate.val *
          (1 + (2 : ℚ) ^ (-53 : Int)) := mul_le_mul_of_nonneg_right hmul hu
      _ = (d : ℚ) * (refillRate.val * (1 + (2 : ℚ) ^ (-53 : Int)) ^ 3) / 1000000000 := by
          ring
  · have hle : (tokensToAdd refillRate d : ℚ) ≤ 0 := by
      have : tokensToAdd refillRate d ≤ 0 := by omega
      exact_mod_cast this
    refine le_trans hle ?_
    positivity

/-! ## Token bucket -/

theorem wrapInt64_range (x : Int) :
    -9223372036854775808 ≤ wrapInt64 x ∧ wrapInt64 x ≤ 9223372036854775807 := by
  unfold wrapInt64
  omega

theorem wrapInt64_le (x : Int) (hx : -9223372036854775808 ≤ x) : wrapInt64 x ≤ x := by
  unfold wrapInt64
  omega

theorem wrapInt64_id (x : Int) (h1 : -9223372036854775808 ≤ x)
    (h2 : x ≤ 9223372036854775807) : wrapInt64 x = x := by
  unfold wrapInt64
  omega

theorem toInt_range (x : Float64) :
    -9223372036854775808 ≤ x.toInt ∧ x.toInt ≤ 9223372036854775807 := by
  unfold Float64.toInt
  simp only []
  split_ifs with h
  · exact h
  · exact ⟨le_refl _, by norm_num⟩

theorem refill_noop (f : Duration → Int) (now : Time) (t : TokenBucket)
    (h : now - t.lastRefill ≤ 0 ∨ f (now - t.lastRefill) ≤ 0) : t.refill f now = t := by
  unfold TokenBucket.refill
  rcases h with h | h
  · simp [h]
  · by_cases h0 : now - t.lastRefill ≤ 0
    · simp [h0]
    · simp [h0, not_lt.mpr h]

theorem refill_cases (f : Duration → Int) (now : Time) (t : TokenBucket) :
    ((now - t.lastRefill ≤ 0 ∨ f (now - t.lastRefill) ≤ 0) ∧ t.refill f now = t) ∨
    (0 < now - t.lastRefill ∧ 0 < f (now - t.lastRefill) ∧
      t.refill f now =
        { capacity := t.capacity,
          tokens := if wrapInt64 (t.tokens + f (now - t.lastRefill)) > t.capacity
            then t.capacity else wrapInt64 (t.tokens + f (now - t.lastRefill)),
          lastRefill := now }) := by
  by_cases h0 : now - t.lastRefill ≤ 0
  · exact Or.inl ⟨Or.inl h0, refill_noop f now t (Or.inl h0)⟩
  · by_cases h1 : f (now - t.lastRefill) ≤ 0
    · exact Or.inl ⟨Or.inr h1, refill_noop f now t (Or.inr h1)⟩
    · right
      refine ⟨not_le.mp h0, not_le.mp h1, ?_⟩
      unfold TokenBucket.refill
      simp [h0, not_le.mp h1]

theorem allowAll_norefill (f : Duration → Int) :
    ∀ (times : List Time) (t : TokenBucket) (k : Nat), t.tokens = (k : Int) →
      (∀ x ∈ times, x - t.lastRefill ≤ 0 ∨ f (x - t.lastRefill) ≤ 0) →
      allowAll f times t =
        (List.replicate (min times.length k) true ++
           List.replicate (times.length - min times.length k) false,
         { capacity := t.capacity, tokens := ((k - min times.length k : Nat) : Int),
           lastRefill := t.lastRefill }) := by
  intro times
  induction times with
  | nil =>
    intro t k hk _
    cases t
    simp only [] at hk
    subst hk
    simp [allowAll]
  | cons now rest ih =>
    intro t k hk hno
    have hr := refill_noop f now t (hno now (List.mem_cons_self _ _))
    have hrest : ∀ x ∈ rest, x - t.lastRefill ≤ 0 ∨ f (x - t.lastRefill) ≤ 0 :=
      fun x hx => hno x (List.mem_cons_of_mem _ hx)
    cases k with
    | zero =>
      have hA : t.Allow f now = (false, t) := by
        unfold TokenBucket.Allow
        simp [hr, hk]
      have := ih t 0 hk hrest
      simp only [allowAll, hA, this]
      simp [List.replicate_succ]
    | succ k =>
      have hA : t.Allow f now =
          (true, { capacity := t.capacity, tokens := (k : Int), lastRefill := t.lastRefill }) := by
        unfold TokenBucket.Allow
        simp only [hr, hk]
        have : ((k + 1 : Nat) : Int) > 0 := by omega
        simp [this]
      have := ih { capacity := t.capacity, tokens := (k : Int), lastRefill := t.lastRefill } k rfl
        hrest
      simp only [allowAll, hA, this]
      simp [List.replicate_succ, Nat.succ_min_succ]

theorem count_true_replicate (a b : Nat) :
    (List.replicate a true ++ List.replicate b false).count true = a := by
  simp [List.count_append, List.count_replicate]

theorem Allow_refill (f : Duration → Int) (now : Time) (t : TokenBucket) :
    (t.refill f now).Allow f now = t.Allow f now := by
  have hidem : (t.refill f now).refill f now = t.refill f now := by
    rcases refill_cases f now t with ⟨h, he⟩ | ⟨_, _, he⟩
    · rw [he]
      exact refill_noop f now t h
    · rw [he]
      exact refill_noop f now _ (Or.inl (by simp))
  unfold TokenBucket.Allow
  rw [hidem]

theorem refill_settled (f : Duration → Int) (now : Time) (t : TokenBucket) :
    now - (t.refill f now).lastRefill ≤ 0 ∨ f (now - (t.refill f now).lastRefill) ≤ 0 := by
  rcases refill_cases f now t with ⟨h, he⟩ | ⟨_, _, he⟩
  · rw [he]
    exact h
  · rw [he]
    exact Or.inl (by simp)

theorem burst_results (f : Duration → Int) (now : Time) (t : TokenBucket) (n : Nat)
    (hnn : 0 ≤ (t.refill f now).tokens) :
    (allowAll f (List.replicate n now) t).1 =
      List.replicate (min n (t.refill f now).tokens.toNat) true ++
        List.replicate (n - min n (t.refill f now).tokens.toNat) false := by
  have hset := refill_settled f now t
  have hk : (t.refill f now).tokens = (((t.refill f now).tokens.toNat : Nat) : Int) :=
    (Int.toNat_of_nonneg hnn).symm
  have hall := allowAll_norefill f (List.replicate n now) (t.refill f now)
    (t.refill f now).tokens.toNat hk (by
      intro x hx
      rw [List.eq_of_mem_replicate hx]
      exact hset)
  have hfirst : (allowAll f (List.replicate n now) t).1 =
      (allowAll f (List.replicate n now) (t.refill f now)).1 := by
    cases n with
    | zero => rfl
    | succ m =>
      simp only [List.replicate_succ, allowAll, Allow_refill]
  rw [hfirst, hall]
  simp

theorem burst_count_le (f : Duration → Int) (now : Time) (t : TokenBucket) (n : Nat)
    (hnn : 0 ≤ (t.refill f now).tokens) :
    (((allowAll f (List.replicate n now) t).1.count true : Nat) : Int) ≤
      (t.refill f now).tokens := by
  rw [burst_results f now t n hnn, count_true_replicate]
  have : min n (t.refill f now).tokens.toNat ≤ (t.refill f now).tokens.toNat :=
    Nat.min_le_right _ _
  omega

theorem Allow_step (f : Duration → Int) (R : ℚ)
    (hf : ∀ d : Int, 0 < d → (f d : ℚ) ≤ (d : ℚ) * R / 1000000000)
    (now : Time) (t : TokenBucket) (hlo : -9223372036854775808 ≤ t.tokens)
    (hC : 0 ≤ t.capacity) :
    ((if (t.Allow f now).1 = true then (1 : ℚ) else 0) +
        ((max 0 (t.Allow f now).2.tokens : Int) : ℚ)
        - ((t.Allow f now).2.lastRefill : ℚ) * R / 1000000000 ≤
      ((max 0 t.tokens : Int) : ℚ) - (t.lastRefill : ℚ) * R / 1000000000) ∧
    -9223372036854775808 ≤ (t.Allow f now).2.tokens ∧
    (t.Allow f now).2.capacity = t.capacity ∧
    ((t.Allow f now).2.lastRefill = t.lastRefill ∨ (t.Allow f now).2.lastRefill = now) := by
  have hpot : ((max 0 (t.refill f now).tokens : Int) : ℚ)
      - ((t.refill f now).lastRefill : ℚ) * R / 1000000000
      ≤ ((max 0 t.tokens : Int) : ℚ) - (t.lastRefill : ℚ) * R / 1000000000 ∧
      -9223372036854775808 ≤ (t.refill f now).tokens := by
    rcases refill_cases f now t with ⟨_, he⟩ | ⟨hd, ha, he⟩
    · rw [he]
      exact ⟨le_refl _, hlo⟩
    · rw [he]
      simp only []
      have h1 := hf _ hd
      have hw1 := wrapInt64_le (t.tokens + f (now - t.lastRefill)) (by omega)
      have hw2 := (wrapInt64_range (t.tokens + f (now - t.lastRefill))).1
      generalize wrapInt64 (t.tokens + f (now - t.lastRefill)) = w at hw1 hw2
      have hle : max 0 (if w > t.capacity then t.capacity else w) ≤
          max 0 t.tokens + f (now - t.lastRefill) := by
        split_ifs with h <;> omega
      have hlow : -9223372036854775808 ≤ (if w > t.capacity then t.capacity else w) := by
        split_ifs with h <;> omega
      refine ⟨?_, hlow⟩
      have h2 : ((max 0 (if w > t.capacity then t.capacity else w) : Int) : ℚ) ≤
          ((max 0 t.tokens : Int) : ℚ) + (f (now - t.lastRefill) : ℚ) := by
        exact_mod_cast hle
      have h3 : ((now - t.lastRefill : Int) : ℚ) * R / 1000000000 =
          (now : ℚ) * R / 1000000000 - (t.lastRefill : ℚ) * R / 1000000000 := by
        push_cast
        ring
      rw [h3] at h1
      linarith
  have hcap : (t.refill f now).capacity = t.capacity := by
    rcases refill_cases f now t with ⟨_, he⟩ | ⟨_, _, he⟩ <;> rw [he]
  have hlast : (t.refill f now).lastRefill = t.lastRefill ∨ (t.refill f now).lastRefill = now := by
    rcases refill_cases f now t with ⟨_, he⟩ | ⟨_, _, he⟩
    · exact Or.inl (by rw [he])
    · exact Or.inr (by rw [he])
  obtain ⟨hp1, hp2⟩ := hpot
  unfold TokenBucket.Allow
  by_cases hpos : (t.refill f now).tokens > 0
  · simp only [hpos, if_true]
    refine ⟨?_, by omega, hcap, hlast⟩
    have e1 : max 0 ((t.refill f now).tokens - 1) = (t.refill f now).tokens - 1 :=
      max_eq_right (by omega)
    have e2 : max 0 (t.refill f now).tokens = (t.refill f now).tokens :=
      max_eq_right (by omega)
    rw [e2] at hp1
    rw [e1]
    push_cast at hp1 ⊢
    linarith
  · simp only [hpos, if_false]
    refine ⟨?_, hp2, hcap, hlast⟩
    simp only [Bool.false_eq_true, if_false]
    linarith

theorem allowAll_potential (f : Duration → Int) (R : ℚ)
    (hf : ∀ d : Int, 0 < d → (f d : ℚ) ≤ (d : ℚ) * R / 1000000000) (B : Time) :
    ∀ (times : List Time) (t : TokenBucket), -9223372036854775808 ≤ t.tokens →
      0 ≤ t.capacity → t.lastRefill ≤ B → (∀ x ∈ times, x ≤ B) →
      ((((allowAll f times t).1.count true : Nat) : ℚ) +
          ((max 0 (allowAll f times t).2.tokens : Int) : ℚ)
          - ((allowAll f times t).2.lastRefill : ℚ) * R / 1000000000 ≤
        ((max 0 t.tokens : Int) : ℚ) - (t.lastRefill : ℚ) * R / 1000000000) ∧
      (allowAll f times t).2.lastRefill ≤ B := by
  intro times
  induction times with
  | nil =>
    intro t ht _ hL _
    simp [allowAll, hL]
  | cons now rest ih =>
    intro t ht hC hL hB
    obtain ⟨h1, h2, h3, h4⟩ := Allow_step f R hf now t ht hC
    have hL2 : (t.Allow f now).2.lastRefill ≤ B := by
      rcases h4 with h | h
      · rw [h]
        exact hL
      · rw [h]
        exact hB now (List.mem_cons_self _ _)
    obtain ⟨i1, i3⟩ := ih (t.Allow f now).2 h2 (by rw [h3]; exact hC) hL2
      (fun x hx => hB x (List.mem_cons_of_mem _ hx))
    simp only [allowAll]
    refine ⟨?_, i3⟩
    rw [List.count_cons]
    push_cast
    have hb : (if ((t.Allow f now).1 == true) = true then (1 : ℚ) else 0) =
        (if (t.Allow f now).1 = true then (1 : ℚ) else 0) := by
      cases (t.Allow f now).1 <;> simp
    rw [hb]
    push_cast at h1 i1
    linarith

/-- With a computation of the tokens to add that stays below the exact product of the elapsed
time with a rate `R`, the calls that succeed among calls made no later than `T` after the
creation are at most `C + T * R`. -/
theorem allowAll_count_le (f : Duration → Int) (R : ℚ) (hR : 0 ≤ R)
    (hf : ∀ d : Int, 0 < d → (f d : ℚ) ≤ (d : ℚ) * R / 1000000000)
    (C : Nat) (t0 : Time) (T : Duration) (hT : 0 ≤ T) (times : List Time)
    (hwin : ∀ x ∈ times, x ≤ t0 + T) :
    (((allowAll f times (NewTokenBucket C t0)).1.count true : Nat) : Int) ≤
      (C : Int) + ⌊((T : Int) : ℚ) * R / 1000000000⌋ := by
  obtain ⟨h1, h3⟩ := allowAll_potential f R hf (t0 + T) times (NewTokenBucket C t0)
    (le_trans (by norm_num) (Int.natCast_nonneg C)) (Int.natCast_nonneg C)
    (le_add_of_nonneg_right hT) hwin
  have ht : ((max 0 (NewTokenBucket C t0).tokens : Int) : ℚ) = (C : ℚ) := by
    have : max 0 (NewTokenBucket C t0).tokens = (C : Int) :=
      max_eq_right (Int.natCast_nonneg C)
    rw [this]
    simp
  have hl : ((NewTokenBucket C t0).lastRefill : ℚ) = (t0 : ℚ) := rfl
  rw [ht, hl] at h1
  generalize allowAll f times (NewTokenBucket C t0) = b at h1 h3 ⊢
  have h2q : (0 : ℚ) ≤ ((max 0 b.2.tokens : Int) : ℚ) := by
    exact_mod_cast le_max_left 0 b.2.tokens
  have h3q : (b.2.lastRefill : ℚ) ≤ (t0 : ℚ) + (T : ℚ) := by exact_mod_cast h3
  have hmul : (b.2.lastRefill : ℚ) * R ≤ ((t0 : ℚ) + (T : ℚ)) * R :=
    mul_le_mul_of_nonneg_right h3q hR
  have e2 : (b.2.lastRefill : ℚ) * R / 1000000000 ≤ ((t0 : ℚ) + (T : ℚ)) * R / 1000000000 :=
    div_le_div_of_nonneg_right hmul (by norm_num)
  have e1 : ((t0 : ℚ) + (T : ℚ)) * R / 1000000000 =
      (t0 : ℚ) * R / 1000000000 + (T : ℚ) * R / 1000000000 := by ring
  have hq : ((b.1.count true : Nat) : ℚ) - (C : ℚ) ≤ (T : ℚ) * R / 1000000000 := by linarith
  have hfl : ((b.1.count true : Nat) : Int) - (C : Int) ≤
      ⌊((T : Int) : ℚ) * R / 1000000000⌋ :=
    Int.le_floor.mpr (by push_cast; exact hq)
  omega

/-- Claim C22. On a bucket freshly created with capacity `C` at `t0`, calls of `Allow` at
clock readings at which the refill adds no token (no time has elapsed since `t0`, or the
computed number of tokens to add is not positive, as with rate 0) return true on the first
`min n C` of the `n` calls and false on the others. -/
theorem fresh_bucket_burst (f : Duration → Int) (C : Nat) (t0 : Time) (times : List Time)
    (hno : ∀ x ∈ times, x - t0 ≤ 0 ∨ f (x - t0) ≤ 0) :
    (allowAll f times (NewTokenBucket C t0)).1 =
      List.replicate (min times.length C) true ++
        List.replicate (times.length - min times.length C) false ∧
    (allowAll f times (NewTokenBucket C t0)).1.count true = min times.length C := by
  have h := allowAll_norefill f times (NewTokenBucket C t0) C rfl hno
  rw [h]
  exact ⟨rfl, count_true_replicate _ _⟩

set_option maxRecDepth 100000 in
/-- Counterexample to C24 as stated.  A bucket of capacity 0 at 10 tokens per second, asked
one second after its creation: `Allow` returns false, the ten tokens of the refill being
clamped away, yet the last-refill timestamp has moved to the time of the call.  A bucket of
the largest capacity an `int` holds at 1 token per second, asked one second after its
creation: the addition of the refill wraps around, `Allow` returns false and the token count
has changed to the smallest `int`. -/
theorem allow_refused_but_state_changed :
    TokenBucket.Allow (tokensToAdd rateTen) 1000000000 (NewTokenBucket 0 0) =
      (false, { capacity := 0, tokens := 0, lastRefill := 1000000000 }) ∧
    TokenBucket.Allow (tokensToAdd rateOne) 1000000000 (NewTokenBucket 9223372036854775807 0) =
      (false, { capacity := 9223372036854775807, tokens := -9223372036854775808,
                lastRefill := 1000000000 }) := by
  decide

/-- Claim C24, amended. On a bucket whose token count lies between 0 and its capacity, when
the token count plus the tokens computed for the refill does not exceed the largest `int`,
`Allow` returns true exactly when the refilled bucket holds a token, and then leaves the
refilled bucket with one token less; when it returns false the token count is what it was
before the call, and when moreover the capacity is at least 1 the whole bucket, last-refill
timestamp included, is what it was.  The token count stays between 0 and the capacity. -/
theorem allow_consumes_one_or_keeps (f : Duration → Int) (now : Time) (t : TokenBucket)
    (ht : 0 ≤ t.tokens) (hcap : t.tokens ≤ t.capacity)
    (hov : t.tokens + f (now - t.lastRefill) ≤ 9223372036854775807) :
    ((t.Allow f now).1 = true ↔ 0 < (t.refill f now).tokens) ∧
    ((t.Allow f now).1 = true →
      (t.Allow f now).2 =
        { capacity := (t.refill f now).capacity, tokens := (t.refill f now).tokens - 1,
          lastRefill := (t.refill f now).lastRefill }) ∧
    ((t.Allow f now).1 = false →
      (t.Allow f now).2.tokens = t.tokens ∧ (1 ≤ t.capacity → (t.Allow f now).2 = t)) ∧
    (0 ≤ (t.Allow f now).2.tokens ∧ (t.Allow f now).2.tokens ≤ (t.Allow f now).2.capacity) := by
  have hwrap : 0 < f (now - t.lastRefill) →
      wrapInt64 (t.tokens + f (now - t.lastRefill)) = t.tokens + f (now - t.lastRefill) :=
    fun ha => wrapInt64_id _ (by omega) hov
  have hinv : (t.refill f now).tokens ≤ (t.refill f now).capacity := by
    rcases refill_cases f now t with ⟨_, he⟩ | ⟨_, _, he⟩
    · rw [he]
      exact hcap
    · rw [he]
      simp only []
      split_ifs with h
      · exact le_refl _
      · exact not_lt.mp h
  have hnn : 0 ≤ (t.refill f now).tokens := by
    rcases refill_cases f now t with ⟨_, he⟩ | ⟨_, ha, he⟩
    · rw [he]
      exact ht
    · rw [he, hwrap ha]
      simp only []
      split_ifs <;> omega
  unfold TokenBucket.Allow
  by_cases hpos : (t.refill f now).tokens > 0
  · simp only [hpos, if_true]
    refine ⟨by simp, fun _ => trivial, by simp, ?_, ?_⟩
    · show 0 ≤ (t.refill f now).tokens - 1
      omega
    · show (t.refill f now).tokens - 1 ≤ (t.refill f now).capacity
      omega
  · simp only [hpos, if_false]
    refine ⟨by simp [hpos], by simp, fun _ => ?_, hnn, hinv⟩
    rcases refill_cases f now t with ⟨_, he⟩ | ⟨_, ha, he⟩
    · rw [he]
      exact ⟨rfl, fun _ => rfl⟩
    · rw [he, hwrap ha] at hpos ⊢
      simp only [] at hpos ⊢
      split_ifs at hpos ⊢ with h
      · have h0 : t.capacity = 0 := by omega
        exact ⟨by omega, fun h1 => by omega⟩
      · omega

set_option maxRecDepth 100000 in
/-- Witness of C24: a bucket of capacity 1 at rate 0.0003 per second, as in the edge-case
test; emptied, it refuses the call 100 ms later and is left as it was. -/
theorem allow_consumes_one_or_keeps_witness :
    (0 : Int) ≤ 0 ∧ (0 : Int) ≤ 1 ∧
    (0 : Int) + tokensToAdd rateSmall (100000000 - 0) ≤ 9223372036854775807 ∧
    (TokenBucket.Allow (tokensToAdd rateSmall) 100000000
      { capacity := 1, tokens := 0, lastRefill := 0 }).2 =
      { capacity := 1, tokens := 0, lastRefill := 0 } :=
  ⟨by decide, by decide, by decide,
    ((allow_consumes_one_or_keeps (tokensToAdd rateSmall) 100000000
      { capacity := 1, tokens := 0, lastRefill := 0 } (by decide) (by decide)
      (by decide)).2.2.1 (by decide)).2 (by decide)⟩

set_option maxRecDepth 100000 in
/-- Counterexample to C23 as stated: a bucket of capacity 10 at 1 token per second is created
at 0 and drained by a burst of ten calls at 0.8 s, which leaves the last-refill timestamp at
0; after a wait of 0.7 s a call at 1.5 s succeeds, while `min(C, floor(t * R))` is 0. -/
theorem drained_bucket_grants_beyond_waiting_time :
    (allowAll (tokensToAdd rateOne) (List.replicate 10 800000000) (NewTokenBucket 10 0)).1 =
      List.replicate 10 true ∧
    (allowAll (tokensToAdd rateOne) (List.replicate 10 800000000) (NewTokenBucket 10 0)).2 =
      { capacity := 10, tokens := 0, lastRefill := 0 } ∧
    (allowAll (tokensToAdd rateOne) [1500000000]
      (allowAll (tokensToAdd rateOne) (List.replicate 10 800000000) (NewTokenBucket 10 0)).2).1 =
      [true] ∧
    min (10 : Int) ⌊((1500000000 - 800000000 : Int) : ℚ) * rateOne.val / 1000000000⌋ = 0 := by
  refine ⟨by decide, by decide, by decide, ?_⟩
  have h : ⌊((1500000000 - 800000000 : Int) : ℚ) * rateOne.val / 1000000000⌋ = 0 := by
    rw [Int.floor_eq_iff]
    norm_num [Float64.val, rateOne]
  rw [h]
  rfl

/-- Claim C23, amended. On a bucket with no token left, capacity `C >= 0` and last-refill
timestamp `L`, at a rate `R >= 0`, the calls of a burst made at one instant `now >= L` that
succeed are at most `min(C, k)`, where `k` is the number of tokens computed for the time
elapsed since `L` (none when not positive), hence at most
`min(C, floor((now - L) * R * (1 + 2^-53)^3))`: the time since the last-refill timestamp
stands in place of the time waited since the drain, and the three float64 roundings of the
computation can each gain a relative `2^-53`.  With rate 0 no call succeeds. -/
theorem drained_bucket_next_burst (refillRate : Float64) (t : TokenBucket) (now : Time)
    (n : Nat) (hR : 0 ≤ refillRate.mant) (h0 : t.tokens = 0) (hC : 0 ≤ t.capacity)
    (hL : t.lastRefill ≤ now) :
    (((allowAll (tokensToAdd refillRate) (List.replicate n now) t).1.count true : Nat) : Int)
      ≤ min t.capacity (max 0 (tokensToAdd refillRate (now - t.lastRefill))) ∧
    (((allowAll (tokensToAdd refillRate) (List.replicate n now) t).1.count true : Nat) : Int)
      ≤ min t.capacity
          ⌊((now - t.lastRefill : Int) : ℚ) *
            (refillRate.val * (1 + (2 : ℚ) ^ (-53 : Int)) ^ 3) / 1000000000⌋ ∧
    (refillRate.mant = 0 →
      (allowAll (tokensToAdd refillRate) (List.replicate n now) t).1.count true = 0) := by
  have hrange := fun d => toInt_range ((Duration.Seconds d).mul refillRate)
  have hwrap : 0 < tokensToAdd refillRate (now - t.lastRefill) →
      wrapInt64 (t.tokens + tokensToAdd refillRate (now - t.lastRefill)) =
        tokensToAdd refillRate (now - t.lastRefill) := by
    intro ha
    rw [h0, zero_add]
    exact wrapInt64_id _ (by omega) (hrange _).2
  have hnn : 0 ≤ (t.refill (tokensToAdd refillRate) now).tokens := by
    rcases refill_cases (tokensToAdd refillRate) now t with ⟨_, he⟩ | ⟨_, ha, he⟩
    · rw [he, h0]
    · rw [he, hwrap ha]
      simp only []
      split_ifs <;> omega
  have hcount := burst_count_le (tokensToAdd refillRate) now t n hnn
  have hRv := val_nonneg refillRate hR
  have hfl : (0 : Int) ≤ ⌊((now - t.lastRefill : Int) : ℚ) *
      (refillRate.val * (1 + (2 : ℚ) ^ (-53 : Int)) ^ 3) / 1000000000⌋ := by
    apply Int.floor_nonneg.mpr
    have : (0 : ℚ) ≤ ((now - t.lastRefill : Int) : ℚ) := by
      exact_mod_cast sub_nonneg.mpr hL
    positivity
  have hfirst : (((allowAll (tokensToAdd refillRate) (List.replicate n now) t).1.count true
      : Nat) : Int) ≤ min t.capacity (max 0 (tokensToAdd refillRate (now - t.lastRefill))) := by
    refine le_trans hcount ?_
    rcases refill_cases (tokensToAdd refillRate) now t with ⟨_, he⟩ | ⟨_, ha, he⟩
    · rw [he, h0]
      exact le_min hC (le_max_left _ _)
    · rw [he, hwrap ha]
      simp only []
      rw [max_eq_right (le_of_lt ha)]
      split_ifs with h
      · exact le_min (le_refl _) (le_of_lt h)
      · exact le_min (not_lt.mp h) (le_refl _)
  have hsecond : (((allowAll (tokensToAdd refillRate) (List.replicate n now) t).1.count true
      : Nat) : Int) ≤ min t.capacity
          ⌊((now - t.lastRefill : Int) : ℚ) *
            (refillRate.val * (1 + (2 : ℚ) ^ (-53 : Int)) ^ 3) / 1000000000⌋ := by
    refine le_trans hcount ?_
    rcases refill_cases (tokensToAdd refillRate) now t with ⟨_, he⟩ | ⟨hd, ha, he⟩
    · rw [he, h0]
      exact le_min hC hfl
    · rw [he, hwrap ha]
      simp only []
      have hfloor : tokensToAdd refillRate (now - t.lastRefill) ≤
          ⌊((now - t.lastRefill : Int) : ℚ) *
            (refillRate.val * (1 + (2 : ℚ) ^ (-53 : Int)) ^ 3) / 1000000000⌋ :=
        Int.le_floor.mpr (tokensToAdd_le refillRate hR _ hd)
      split_ifs with h
      · exact le_min (le_refl _) (le_trans (le_of_lt h) hfloor)
      · exact le_min (not_lt.mp h) hfloor
  refine ⟨hfirst, hsecond, ?_⟩
  intro hz
  have hv0 : refillRate.val = 0 := by
    unfold Float64.val
    rw [hz]
    simp
  rw [hv0] at hsecond
  have h2 : min t.capacity ⌊((now - t.lastRefill : Int) : ℚ) *
      ((0 : ℚ) * (1 + (2 : ℚ) ^ (-53 : Int)) ^ 3) / 1000000000⌋ ≤ 0 := by
    refine le_trans (min_le_right _ _) ?_
    simp
  have h3 := le_trans hsecond h2
  omega

set_option maxRecDepth 100000 in
/-- Witness of C22: five calls at the very instant of creation on a bucket of capacity 3, as
in the basic-behaviour test; the first three succeed. -/
theorem fresh_bucket_burst_witness :
    (∀ x ∈ [(0 : Time), 0, 0, 0, 0], x - 0 ≤ 0 ∨ tokensToAdd rateOne (x - 0) ≤ 0) ∧
    (allowAll (tokensToAdd rateOne) [0, 0, 0, 0, 0] (NewTokenBucket (3 : Nat) 0)).1 =
      [true, true, true, false, false] :=
  ⟨by decide, (fresh_bucket_burst (tokensToAdd rateOne) 3 0 [0, 0, 0, 0, 0] (by decide)).1⟩

set_option maxRecDepth 100000 in
/-- Witness of C23: the drained bucket of the failing instance, asked three times at 1.5 s:
at most one call succeeds, the time since the last-refill timestamp being 1.5 s. -/
theorem drained_bucket_next_burst_witness :
    (0 : Int) ≤ rateOne.mant ∧
    ((allowAll (tokensToAdd rateOne) (List.replicate 3 1500000000)
      { capacity := 10, tokens := 0, lastRefill := 0 }).1.count true : Int) ≤
      min 10 (max 0 (tokensToAdd rateOne (1500000000 - 0))) ∧
    min (10 : Int) (max 0 (tokensToAdd rateOne (1500000000 - 0))) = 1 :=
  ⟨by decide,
    (drained_bucket_next_burst rateOne { capacity := 10, tokens := 0, lastRefill := 0 }
      1500000000 3 (by decide) rfl (by decide) (by decide)).1, by decide⟩

set_option maxRecDepth 100000 in
/-- Counterexample to C30 as stated: a bucket of capacity 1 at the float64 rate nearest to one
third is asked at its creation and 3 s later; both calls succeed, the float64 product of 3
and the rate being rounded up to 1, while `C + floor(T * R)` is 1, the rate being a little
less than one third. -/
theorem bucket_grants_beyond_exact_rate :
    Float64.div (Float64.ofInt 1) (Float64.ofInt 3) = rateThird ∧
    (allowAll (tokensToAdd rateThird) [0, 3000000000] (NewTokenBucket (1 : Nat) 0)).1 =
      [true, true] ∧
    ((1 : Nat) : Int) + ⌊((3000000000 : Int) : ℚ) * rateThird.val / 1000000000⌋ = 1 := by
  refine ⟨by decide, by decide, ?_⟩
  have h : ⌊((3000000000 : Int) : ℚ) * rateThird.val / 1000000000⌋ = 0 := by
    rw [Int.floor_eq_iff]
    norm_num [Float64.val, rateThird]
  rw [h]
  rfl

/-- Claim C30, amended. On a bucket created at `t0` with capacity `C >= 0` and a rate
`R >= 0`, the calls of `Allow` that return true among calls made no later than `T` after the
creation, in any order of clock readings, are at most `C + floor(T * R * (1 + 2^-53)^3)`:
each refill credits at most the exact product of the elapsed time and the rate, increased by
the three float64 roundings of its computation. -/
theorem allow_total_bound (refillRate : Float64) (hR : 0 ≤ refillRate.mant)
    (C : Nat) (t0 : Time) (T : Duration) (hT : 0 ≤ T) (times : List Time)
    (hwin : ∀ x ∈ times, x ≤ t0 + T) :
    (((allowAll (tokensToAdd refillRate) times (NewTokenBucket C t0)).1.count true : Nat) : Int)
      ≤ (C : Int) +
        ⌊((T : Int) : ℚ) * (refillRate.val * (1 + (2 : ℚ) ^ (-53 : Int)) ^ 3) / 1000000000⌋ :=
  allowAll_count_le (tokensToAdd refillRate)
    (refillRate.val * (1 + (2 : ℚ) ^ (-53 : Int)) ^ 3)
    (mul_nonneg (val_nonneg refillRate hR) (by positivity))
    (tokensToAdd_le refillRate hR) C t0 T hT times hwin

set_option maxRecDepth 100000 in
/-- Witness of C30 on the failing instance of the original bound: capacity 1, the rate
nearest to one third, calls at the creation and 3 s later; the two successes are within
`1 + floor(3 * R * (1 + 2^-53)^3)`, which is 2. -/
theorem allow_total_bound_witness :
    (0 : Int) ≤ rateThird.mant ∧ (0 : Int) ≤ 3000000000 ∧
    (∀ x ∈ [(0 : Time), 3000000000], x ≤ 0 + 3000000000) ∧
    (((allowAll (tokensToAdd rateThird) [0, 3000000000] (NewTokenBucket (1 : Nat) 0)).1.count
        true : Nat) : Int) ≤
      ((1 : Nat) : Int) + ⌊((3000000000 : Int) : ℚ) *
        (rateThird.val * (1 + (2 : ℚ) ^ (-53 : Int)) ^ 3) / 1000000000⌋ ∧
    (allowAll (tokensToAdd rateThird) [0, 3000000000] (NewTokenBucket (1 : Nat) 0)).1.count
      true = 2 :=
  ⟨by decide, by decide, by decide,
    allow_total_bound rateThird (by decide) 1 0 3000000000 (by decide) [0, 3000000000]
      (by decide),
    by decide⟩

/-! ## Background worker -/

theorem executeTaskSafely_ok (task : Task) (k : Nat) :
    ∃ log, executeTaskSafely task k = .ok log := by
  unfold executeTaskSafely
  cases h : task.call k with
  | error p => exact ⟨_, rfl⟩
  | ok r =>
    cases r with
    | none => exact ⟨_, rfl⟩
    | some e => exact ⟨_, rfl⟩

theorem tickLoop_spec (task : Task) :
    ∀ (events : List LoopEvent) (k : Nat),
      (tickLoop task events k).panicked = none ∧
      (tickLoop task events k).doCalls =
        k + (events.takeWhile (fun e => decide (e = LoopEvent.tick))).length ∧
      ((tickLoop task events k).returned = true ↔ LoopEvent.ctxDone ∈ events) := by
  intro events
  induction events with
  | nil =>
    intro k
    simp [tickLoop]
  | cons e rest ih =>
    intro k
    cases e with
    | ctxDone => simp [tickLoop]
    | tick =>
      obtain ⟨log, hlog⟩ := executeTaskSafely_ok task (k + 1)
      obtain ⟨h1, h2, h3⟩ := ih (k + 1)
      simp only [tickLoop, hlog]
      refine ⟨h1, ?_, ?_⟩
      · rw [h2]
        simp
        omega
      · rw [h3]
        simp

/-- Claim C26. `executeTaskSafely` returns normally at every call, whether `Do` returns nil,
returns an error or panics.  For a task with a positive TTL no panic leaves
`runBackgroundTask`, every tick received before the cancellation makes one call of `Do`, and
the method returns only when the cancellation of the context is received; for a task whose
TTL is not positive `runBackgroundTask` returns at once without any call of `Do`. -/
theorem periodic_execution_isolated (task : Task) :
    (∀ k, ∃ log, executeTaskSafely task k = .ok log) ∧
    (task.TTL ≤ 0 → ∀ events, runBackgroundTask task events =
      { doCalls := 0, returned := true, panicked := none }) ∧
    (0 < task.TTL → ∀ events,
      (runBackgroundTask task events).panicked = none ∧
      (runBackgroundTask task events).doCalls =
        (events.takeWhile (fun e => decide (e = LoopEvent.tick))).length ∧
      ((runBackgroundTask task events).returned = true ↔ LoopEvent.ctxDone ∈ events)) := by
  refine ⟨executeTaskSafely_ok task, ?_, ?_⟩
  · intro h events
    unfold runBackgroundTask
    simp [h]
  · intro h events
    unfold runBackgroundTask
    simp only [not_le.mpr h, if_false]
    have := tickLoop_spec task events 0
    simpa using this

/-- Witness of C26: a task that panics or fails at every call is still called at each of the
three ticks received before the cancellation, and a task with a zero TTL is never called. -/
theorem periodic_execution_isolated_witness :
    (0 : Duration) < taskPanicking.TTL ∧ taskNoTTL.TTL ≤ 0 ∧
    (runBackgroundTask taskPanicking [.tick, .tick, .tick, .ctxDone, .tick]).doCalls = 3 ∧
    (runBackgroundTask taskPanicking [.tick, .tick, .tick, .ctxDone, .tick]).panicked = none ∧
    runBackgroundTask taskNoTTL [.tick, .tick, .ctxDone] =
      { doCalls := 0, returned := true, panicked := none } :=
  ⟨by decide, by decide,
    ((periodic_execution_isolated taskPanicking).2.2 (by decide)
      [.tick, .tick, .tick, .ctxDone, .tick]).2.1,
    by decide,
    (periodic_execution_isolated taskNoTTL).2.1 (by decide) [.tick, .tick, .ctxDone]⟩

/-! ## Kafka handler -/

theorem ProcessOrderStatusChange_nil_error {σ : Type} (GetOrderByID : String → Except Err Order)
    (GetHandler : String → Except Err (ExecuteFn σ)) (orderModify : OrderModify) (s s1 : σ) :
    ProcessOrderStatusChange GetOrderByID GetHandler orderModify s ≠ ((none, none), s1) := by
  unfold ProcessOrderStatusChange
  intro h
  split at h
  · split at h
    · cases h
    · split at h
      · split_ifs at h <;> cases h
      · split at h <;> cases h
  · cases h

theorem messageProcessing_error {σ : Type}
    (service : OrderModify → σ → (Option Order × Option Err) × σ) (event : createdEvent)
    (s s1 : σ) (order : Option Order) (err : Err)
    (h : service { ID := some event.OrderID, Status := some event.Status, CreatedAt := none } s
      = ((order, some err), s1)) :
    ∃ log, messageProcessing service (.ok event) s =
      (.ok { marked := !(errorsIs err ContextCanceled || errorsIs err ContextDeadlineExceeded),
             shouldExit := errorsIs err ContextCanceled || errorsIs err ContextDeadlineExceeded,
             log := log }, s1) := by
  unfold messageProcessing
  simp only [h]
  cases hc : (errorsIs err ContextCanceled || errorsIs err ContextDeadlineExceeded)
  · simp only [Bool.false_eq_true, if_false, Bool.not_false]
    split_ifs <;> exact ⟨_, rfl⟩
  · simp only [if_true, Bool.not_true]
    exact ⟨_, rfl⟩

theorem messageProcessing_success {σ : Type}
    (service : OrderModify → σ → (Option Order × Option Err) × σ) (event : createdEvent)
    (s s1 : σ) (order : Order)
    (h : service { ID := some event.OrderID, Status := some event.Status, CreatedAt := none } s
      = ((some order, none), s1)) :
    ∃ log, messageProcessing service (.ok event) s =
      (.ok { marked := true, shouldExit := false, log := log }, s1) := by
  unfold messageProcessing
  simp only [h]
  exact ⟨_, rfl⟩

/-- Claim C27. `messageProcessing` marks the message and returns false when the payload
does not decode, and then the service is not called (its state is untouched); when
`ProcessOrderStatusChange` returns an error, the message is left unmarked and true is
returned exactly when the error is `context.Canceled` or `context.DeadlineExceeded`, and
otherwise it is marked and false is returned; when it returns an order and no error the
message is marked and false is returned.  With the order service of this repository one of
these cases always applies. -/
theorem messageProcessing_marks_unless_cancelled {σ : Type}
    (service : OrderModify → σ → (Option Order × Option Err) × σ)
    (GetOrderByID : String → Except Err Order)
    (GetHandler : String → Except Err (ExecuteFn σ)) (s : σ) :
    (∀ e, ∃ log, messageProcessing service (.error e) s =
      (.ok { marked := true, shouldExit := false, log := log }, s)) ∧
    (∀ event order err s1,
      service { ID := some event.OrderID, Status := some event.Status, CreatedAt := none } s
        = ((order, some err), s1) →
      ∃ log, messageProcessing service (.ok event) s =
        (.ok { marked := !(errorsIs err ContextCanceled || errorsIs err ContextDeadlineExceeded),
               shouldExit :=
                 errorsIs err ContextCanceled || errorsIs err ContextDeadlineExceeded,
               log := log }, s1)) ∧
    (∀ event order s1,
      service { ID := some event.OrderID, Status := some event.Status, CreatedAt := none } s
        = ((some order, none), s1) →
      ∃ log, messageProcessing service (.ok event) s =
        (.ok { marked := true, shouldExit := false, log := log }, s1)) ∧
    (∀ unmarshal, ∃ out s1,
      messageProcessing (ProcessOrderStatusChange GetOrderByID GetHandler) unmarshal s =
        (.ok out, s1) ∧ out.marked = !out.shouldExit) := by
  refine ⟨fun e => ⟨_, rfl⟩, ?_, ?_, ?_⟩
  · intro event order err s1 h
    exact messageProcessing_error service event s s1 order err h
  · intro event order s1 h
    exact messageProcessing_success service event s s1 order h
  · intro unmarshal
    cases unmarshal with
    | error e => exact ⟨_, s, rfl, rfl⟩
    | ok event =>
      rcases hres : ProcessOrderStatusChange GetOrderByID GetHandler
          { ID := some event.OrderID, Status := some event.Status, CreatedAt := none } s
        with ⟨⟨order, err⟩, s1⟩
      cases err with
      | some err =>
        obtain ⟨log, hlog⟩ := messageProcessing_error
          (ProcessOrderStatusChange GetOrderByID GetHandler) event s s1 order err hres
        exact ⟨_, s1, hlog, rfl⟩
      | none =>
        cases order with
        | none =>
          exact absurd hres
            (ProcessOrderStatusChange_nil_error GetOrderByID GetHandler _ s s1)
        | some order =>
          obtain ⟨log, hlog⟩ := messageProcessing_success
            (ProcessOrderStatusChange GetOrderByID GetHandler) event s s1 order hres
          exact ⟨_, s1, hlog, rfl⟩

/-- Witness of C27: the service fails with a wrapped `context.Canceled`; the message is not
marked and true is returned.  A payload that does not decode is marked without a call of the
counting service. -/
theorem messageProcessing_marks_unless_cancelled_witness :
    (∃ log, messageProcessing
        (countingService (none, some (.wrap "get order from order-service" ContextCanceled)))
        (.ok { OrderID := "O1", Status := "created" }) 0 =
      (.ok { marked := false, shouldExit := true, log := log }, 1)) ∧
    (∃ log, messageProcessing
        (countingService (none, some (.wrap "get order from order-service" ContextCanceled)))
        (.error (.other "invalid character")) 0 =
      (.ok { marked := true, shouldExit := false, log := log }, 0)) :=
  ⟨(messageProcessing_marks_unless_cancelled
      (countingService (none, some (.wrap "get order from order-service" ContextCanceled)))
      (gatewayOne OrderCreated) (fun _ => .error ErrUndefinedStatus) 0).2.1
      { OrderID := "O1", Status := "created" } none
      (.wrap "get order from order-service" ContextCanceled) 1 rfl,
   (messageProcessing_marks_unless_cancelled
      (countingService (none, some (.wrap "get order from order-service" ContextCanceled)))
      (gatewayOne OrderCreated) (fun _ => .error ErrUndefinedStatus) 0).1
      (.other "invalid character")⟩

end Dispatch
